import Mathlib

/-!
# gkrellm-gpu: sampler, registry and template formatter

A shallow embedding of `src/gpu-plugin.c`.

* C strings (`gchar *`) are `List Char`, one `Char` per byte, none of them NUL.
* `gulong` fields are `Nat`, reduced modulo `2^64` where the C code can wrap.
* `gint` values are `Int`; `to_gint` is the conversion of a wider value to the
  32-bit two's complement `gint`.
* `gboolean` is a `gint` in GLib, so flags are `Int` with C truthiness (`≠ 0`).
* `gfloat` values that the code produces are modelled exactly: a value of type
  `gfloat` is kept as the rational number it denotes (an integer, or a dyadic
  fraction `num / 2^k`), and every conversion or arithmetic operation rounds to
  the 24-bit significand of IEEE-754 binary32, ties to even (expressions of
  type `float` are evaluated in `float`, as on x86-64 and AArch64).  `printf`
  rounds the exact value of its argument, ties to even, as glibc does.
* Pointers into `gpu_list` (`composite_gpu`) are positions in the list.
* The NVML library and `gkrellm_get_hostname` are outside the repository; the
  outcomes of their calls are parameters of the functions that make them.
-/

namespace GkrellmGpu

/-! ## Machine integers and single-precision floats -/

/-- Reduction of a natural number to the 64-bit `gulong`. -/
def gulong (n : Nat) : Nat := n % 2 ^ 64

/-- Conversion of an integer value to the 32-bit two's complement `gint`. -/
def to_gint (n : Int) : Int := (n + 2 ^ 31) % 2 ^ 32 - 2 ^ 31

/-- Number of binary digits of `n`, by halving; `fuel` bounds the recursion. -/
def bit_length_aux : Nat → Nat → Nat
  | 0, _ => 0
  | fuel + 1, n => if n = 0 then 0 else bit_length_aux fuel (n / 2) + 1

/-- Number of binary digits of `n` (`0` for `0`). -/
def bit_length (n : Nat) : Nat := bit_length_aux (n + 1) n

/-- The integer nearest to `p / q`, ties to even (`q > 0`). -/
def rne_div (p q : Nat) : Nat :=
  if 2 * (p % q) < q then p / q
  else if q < 2 * (p % q) then p / q + 1
  else p / q + (p / q) % 2

/-- Conversion `(gfloat) n` of a non-negative integer: the nearest number with a
24-bit significand, ties to even.  The result is again an integer. -/
def f32_of_nat (n : Nat) : Nat :=
  if bit_length n ≤ 24 then n
  else rne_div n (2 ^ (bit_length n - 24)) * 2 ^ (bit_length n - 24)

/-- Single-precision quotient `b / c` of two positive integer-valued floats,
as the dyadic fraction `fst / 2 ^ snd`.  The exact quotient lies in
`[2^L, 2^(L+1))`; it is rounded to a multiple of `2^(L-23)`, ties to even. -/
def f32_div (b c : Nat) : Nat × Nat :=
  let cand : Int := (bit_length b : Int) - (bit_length c : Int)
  let ge : Bool := if 0 ≤ cand then decide (c * 2 ^ cand.toNat ≤ b)
                   else decide (c ≤ b * 2 ^ (-cand).toNat)
  let e : Int := (if ge then cand else cand - 1) - 23
  if 0 ≤ e then (rne_div b (c * 2 ^ e.toNat) * 2 ^ e.toNat, 0)
  else (rne_div (b * 2 ^ (-e).toNat) c, (-e).toNat)

/-- The C library `round` on the non-negative value `num / 2^k`: nearest
integer, halfway cases away from zero. -/
def round_half_away (num k : Nat) : Nat := (2 * num + 2 ^ k) / 2 ^ (k + 1)

/-! ## Data model -/

/-- The fields of `GpuPlugin` that the sampler, the formatter and the
configuration code read or write.  Widget pointers are kept only as
"is non-NULL" flags where the code tests them.  `temperature` is the value of
the `gfloat` field: the code only ever stores `0.0` or a converted
`unsigned int` there, so it is a natural number. -/
structure GpuPlugin where
  name : List Char
  label : List Char
  instance_ : Int
  enabled : Int
  is_composite : Int
  show_temperature : Int
  sensor_temp : Bool
  sensor_decal : Bool
  alert : Bool
  launch_command : Option (List Char)
  launch_tooltip_comment : Option (List Char)
  utilization : Nat
  total_memory : Nat
  used_memory : Nat
  temperature : Nat
  extra_info : Int
deriving DecidableEq, Repr

/-- A zero-filled `GpuPlugin`, as returned by `g_new0(GpuPlugin, 1)`. -/
def g_new0 : GpuPlugin :=
  { name := [], label := [], instance_ := 0, enabled := 0, is_composite := 0,
    show_temperature := 0, sensor_temp := false, sensor_decal := false,
    alert := false, launch_command := none, launch_tooltip_comment := none,
    utilization := 0, total_memory := 0, used_memory := 0, temperature := 0,
    extra_info := 0 }

/-- The plugin's global variables.  `composite_gpu` is the position in
`gpu_list` of the entry the C pointer refers to. -/
structure State where
  gpu_list : List GpuPlugin
  composite_gpu : Option Nat
  n_gpus : Int
  show_panel_labels : Int
  text_format : Option (List Char)
  gpu_alert : Bool
deriving DecidableEq, Repr

/-- The globals as initialised at load time. -/
def State.init : State :=
  { gpu_list := [], composite_gpu := none, n_gpus := 0, show_panel_labels := 1,
    text_format := none, gpu_alert := false }

/-- Outcome of the NVML calls made for one list entry during one tick:
whether `nvmlDeviceGetHandleByIndex` succeeded, and for each of the three
queries the value it returns on success (`none` on failure): `utilization.gpu`
and the temperature are `unsigned int`, `memory` is the pair
`(memory.total, memory.used)` of `unsigned long long`, all of which a `gulong`
field holds unchanged. -/
structure NvmlReads where
  handle : Bool
  utilization : Option Nat
  memory : Option (Nat × Nat)
  temperature : Option Nat
deriving DecidableEq, Repr

/-! ## Decimal output of `printf` -/

/-- Output of the conversion `%d` for a `gint`. -/
def fmt_d (i : Int) : List Char :=
  if i < 0 then '-' :: Nat.toDigits 10 (-i).toNat else Nat.toDigits 10 i.toNat

/-- Output of the conversion `%.<d>f` for the non-negative value `num / 2^k`:
the exact value is rounded to `d` decimals, ties to even. -/
def fmt_f (d : Nat) (num k : Nat) : List Char :=
  let s := rne_div (num * 10 ^ d) (2 ^ k)
  if d = 0 then Nat.toDigits 10 s
  else
    let frac := Nat.toDigits 10 (s % 10 ^ d)
    Nat.toDigits 10 (s / 10 ^ d) ++ '.' :: (List.replicate (d - frac.length) '0' ++ frac)

/-! ## setup_gpu_interface -/

/-- The composite entry that `setup_gpu_interface` creates: `g_new0` followed
by the five assignments of the `if (n_gpus > 1)` block. -/
def new_composite : GpuPlugin :=
  { g_new0 with
    name := "gpu".toList, label := "GPU".toList,
    is_composite := 1, instance_ := -1, enabled := 1 }

/-- The entry that the loop body of `setup_gpu_interface` creates for `i`. -/
def new_device (i : Int) : GpuPlugin :=
  { g_new0 with
    instance_ := i,
    name := "gpu".toList ++ fmt_d i,
    label := "GPU".toList ++ fmt_d i,
    enabled := 1 }

/-- The `for (gint i = 0; i < n_gpus; i++)` loop of `setup_gpu_interface`,
appending one entry per device. -/
def setup_loop : Nat → Int → Int → List GpuPlugin → List GpuPlugin
  | 0, _, _, l => l
  | fuel + 1, i, n_gpus, l =>
    if i < n_gpus then setup_loop fuel (i + 1) n_gpus (l ++ [new_device i])
    else l

/-- Initialisation of the registry.  `nvmlInit_ok` says whether `nvmlInit`
succeeded, `deviceCount` is the `unsigned int` that `nvmlDeviceGetCount`
stores on success (`none` on failure). -/
def setup_gpu_interface (nvmlInit_ok : Bool) (deviceCount : Option Nat) (s : State) :
    Bool × State :=
  if nvmlInit_ok = false then (false, s)
  else
    match deviceCount with
    | none => (false, s)
    | some count =>
      let n := to_gint (count % 2 ^ 32)
      let s1 : State := { s with n_gpus := n }
      let s2 : State :=
        if 1 < n then
          { s1 with
            composite_gpu := some s1.gpu_list.length,
            gpu_list := s1.gpu_list ++ [new_composite] }
        else s1
      (true, { s2 with gpu_list := setup_loop n.toNat 0 n s2.gpu_list })

/-! ## read_gpu_data -/

/-- The three reads of one loop iteration, applied to the entry `gpu` whose
handle lookup succeeded. -/
def read_device (r : NvmlReads) (gpu : GpuPlugin) : GpuPlugin :=
  let g1 := match r.utilization with
    | some u => { gpu with utilization := u }
    | none => gpu
  let g2 := match r.memory with
    | some m => { g1 with total_memory := m.1, used_memory := m.2 }
    | none => g1
  if g2.show_temperature ≠ 0 ∧ g2.sensor_decal = true then
    match r.temperature with
    | some t => if g2.sensor_temp = true then { g2 with temperature := f32_of_nat t } else g2
    | none => g2
  else g2

/-- One assignment `composite_gpu-><field> = f(*composite_gpu, *gpu)`, reading
both objects from the list as it is at that moment. -/
def assign_composite (l : List GpuPlugin) (c i : Nat)
    (f : GpuPlugin → GpuPlugin → GpuPlugin) : List GpuPlugin :=
  match l[c]?, l[i]? with
  | some cg, some g => l.set c (f cg g)
  | _, _ => l

/-- The block "Update composite GPU" of the loop body. -/
def update_composite (l : List GpuPlugin) (c i : Nat) : List GpuPlugin :=
  let l1 := assign_composite l c i
    (fun cg g => { cg with utilization := gulong (cg.utilization + g.utilization) })
  let l2 := assign_composite l1 c i
    (fun cg g => { cg with total_memory := gulong (cg.total_memory + g.total_memory) })
  let l3 := assign_composite l2 c i
    (fun cg g => { cg with used_memory := gulong (cg.used_memory + g.used_memory) })
  assign_composite l3 c i
    (fun cg g => if cg.temperature < g.temperature then
                   { cg with temperature := g.temperature } else cg)

/-- One iteration of the loop over `gpu_list`, for the entry at position `i`. -/
def read_gpu_entry (nvml : Nat → NvmlReads) (composite_gpu : Option Nat)
    (l : List GpuPlugin) (i : Nat) : List GpuPlugin :=
  match l[i]? with
  | none => l
  | some gpu =>
    if gpu.instance_ < 0 then l
    else if (nvml i).handle = false then l
    else
      let l1 := l.set i (read_device (nvml i) gpu)
      match composite_gpu with
      | none => l1
      | some c => update_composite l1 c i

/-- The loop over `gpu_list`, from position `i`, for `fuel` entries. -/
def read_gpu_loop (nvml : Nat → NvmlReads) (composite_gpu : Option Nat) :
    Nat → Nat → List GpuPlugin → List GpuPlugin
  | 0, _, l => l
  | fuel + 1, i, l =>
    read_gpu_loop nvml composite_gpu fuel (i + 1) (read_gpu_entry nvml composite_gpu l i)

/-- Applies `f` to the entry at position `p`, if there is one. -/
def modify_at (l : List GpuPlugin) (p : Nat) (f : GpuPlugin → GpuPlugin) : List GpuPlugin :=
  match l[p]? with
  | some g => l.set p (f g)
  | none => l

/-- The block "Reset composite GPU stats". -/
def reset_stats (g : GpuPlugin) : GpuPlugin :=
  { g with utilization := 0, total_memory := 0, used_memory := 0, temperature := 0 }

/-- One sampling tick.  `nvml i` is the outcome of the NVML calls made for the
list entry at position `i`. -/
def read_gpu_data (nvml : Nat → NvmlReads) (s : State) : State :=
  let l0 := match s.composite_gpu with
    | some c => modify_at s.gpu_list c reset_stats
    | none => s.gpu_list
  let l1 := read_gpu_loop nvml s.composite_gpu l0.length 0 l0
  let l2 := match s.composite_gpu with
    | some c =>
      if 1 < s.n_gpus then
        modify_at l1 c (fun g => { g with utilization := g.utilization / s.n_gpus.toNat })
      else l1
    | none => l1
  { s with gpu_list := l2 }

/-! ## format_gpu_data -/

/-- The string terminator `'\0'`. -/
def NUL : Char := Char.ofNat 0

/-- The caller's output array while `format_gpu_data` runs: `buf` is its
contents (its length is the array's capacity), `oob` lists, in order, the
offsets of the writes that fell outside the array. -/
structure FmtBuf where
  buf : List Char
  oob : List Nat
deriving DecidableEq, Repr

/-- The store `buf[pos] = c`. -/
def poke (b : FmtBuf) (pos : Nat) (c : Char) : FmtBuf :=
  if pos < b.buf.length then { b with buf := b.buf.set pos c }
  else { b with oob := b.oob ++ [pos] }

/-- Stores the characters of a list at consecutive offsets from `pos`. -/
def poke_list (b : FmtBuf) (pos : Nat) : List Char → FmtBuf
  | [] => b
  | c :: cs => poke_list (poke b pos c) (pos + 1) cs

/-- The writes of `snprintf(buf + pos, n, ...)` when the complete output would
be `s`: at most `n - 1` characters of `s`, then a terminator; nothing at all for
`n = 0`.  The call returns `s.length`. -/
def snprintf (b : FmtBuf) (pos n : Nat) (s : List Char) : FmtBuf :=
  if n = 0 then b else poke_list b pos (s.take (n - 1) ++ [NUL])

/-- The string a C reader finds in an array: the bytes before the first NUL. -/
def c_string (l : List Char) : List Char := l.takeWhile (fun c => c ≠ NUL)

/-- The value `round(100 * (gfloat) mem_used / mem_total)` converted to
`gint`, evaluated in single precision.  `none` where ISO C leaves the
conversion undefined: division by zero (the operand of the conversion is a NaN
or an infinity) or a rounded quotient outside the range of `gint`. -/
def mem_used_frac (mem_used mem_total : Int) : Option Int :=
  if mem_total = 0 then none
  else
    let b := f32_of_nat (100 * f32_of_nat mem_used.natAbs)
    let c := f32_of_nat mem_total.natAbs
    let q := f32_div b c
    let r : Int := if b = 0 then 0 else (round_half_away q.1 q.2 : Nat)
    let v : Int := if decide (mem_used < 0) = decide (mem_total < 0) then r else -r
    if -(2 ^ 31) ≤ v ∧ v < 2 ^ 31 then some v else none

/-- The two clamping statements `if (t < 0) t = 0; if (t > 100) t = 100;`. -/
def clamp_percent (t : Int) : Int :=
  let t1 := if t < 0 then 0 else t
  if 100 < t1 then 100 else t1

/-- The output of the size conversions for `$T` and `$U` at a value `t ≥ 0`. -/
def fmt_size (t : Int) : List Char :=
  if 50 * 1024 * 1024 < t then fmt_f 0 (f32_of_nat t.toNat) 20 ++ ['G']
  else if 1024 * 1024 < t then fmt_f 1 (f32_of_nat t.toNat) 20 ++ ['G']
  else if 50 * 1024 < t then fmt_f 0 (f32_of_nat t.toNat) 10 ++ ['M']
  else fmt_f 1 (f32_of_nat t.toNat) 10 ++ ['M']

/-- The body of `if (*s == '$' && *(s + 1) != '\0')` for the character `c`
that follows the `$`, with `size > 0` characters left and the write position at
offset `pos`.  Returns the array and the value of `len`. -/
def format_token (hostname : List Char) (gpu : GpuPlugin)
    (utilization mem_used mem_total mem_used_frac : Int)
    (c : Char) (size : Int) (pos : Nat) (b : FmtBuf) : FmtBuf × Int :=
  let r : Int × FmtBuf × Int :=
    if c = 'u' then (clamp_percent utilization, b, 1)
    else if c = 'm' then (clamp_percent mem_used_frac, b, 1)
    else if c = 'T' then (mem_total, b, 1)
    else if c = 'U' then (mem_used, b, 1)
    else if c = 'L' then (-1, snprintf b pos size.toNat gpu.label, gpu.label.length)
    else if c = 'N' then
      (-1, snprintf b pos size.toNat (fmt_d gpu.instance_), (fmt_d gpu.instance_).length)
    else if c = 'H' then (-1, snprintf b pos size.toNat hostname, hostname.length)
    else if 1 < size then (-1, poke (poke b pos '$') (pos + 1) c, 2)
    else (-1, poke b pos '$', 1)
  let t := r.1
  if 0 ≤ t then
    if c = 'T' ∨ c = 'U' then
      (snprintf r.2.1 pos size.toNat (fmt_size t), (fmt_size t).length)
    else
      (snprintf r.2.1 pos size.toNat (fmt_d t ++ ['%']), (fmt_d t ++ ['%']).length)
  else (r.2.1, r.2.2)

/-- The scanning loop of `format_gpu_data` over the rest of the template,
with `size` characters left and the write position at offset `pos`.  Returns
the array and the final write position. -/
def format_loop (hostname : List Char) (gpu : GpuPlugin)
    (utilization mem_used mem_total mem_used_frac : Int) :
    List Char → Int → Nat → FmtBuf → FmtBuf × Nat
  | [], _, pos, b => (b, pos)
  | c0 :: tl, size, pos, b =>
    if size ≤ 0 then (b, pos)
    else
      match tl with
      | [] => (poke b pos c0, pos + 1)
      | c1 :: rest =>
        if c0 = '$' then
          let r := format_token hostname gpu utilization mem_used mem_total mem_used_frac
                     c1 size pos b
          format_loop hostname gpu utilization mem_used mem_total mem_used_frac
            rest (size - r.2) (pos + r.2.toNat) r.1
        else
          format_loop hostname gpu utilization mem_used mem_total mem_used_frac
            (c1 :: rest) (size - 1) (pos + 1) (poke b pos c0)

/-- The formatter.  `hostname` is what `gkrellm_get_hostname()` returns;
`indef` is the `gint` the platform produces where the float-to-`gint`
conversion of `mem_used_frac` is undefined; `src_string` and `buf` are `none`
for NULL pointers, otherwise the template and the caller's array. -/
def format_gpu_data (hostname : List Char) (indef : Int) (gpu : GpuPlugin)
    (src_string : Option (List Char)) (buf : Option (List Char)) (size : Int) : FmtBuf :=
  match buf with
  | none => { buf := [], oob := [] }
  | some arr =>
    if size < 1 then { buf := arr, oob := [] }
    else
      let b0 := poke { buf := arr, oob := [] } 0 NUL
      match src_string with
      | none => b0
      | some src =>
        let utilization := to_gint gpu.utilization
        let mem_used := to_gint (gpu.used_memory / 1024)
        let mem_total := to_gint (gpu.total_memory / 1024)
        let frac := (mem_used_frac mem_used mem_total).getD indef
        let r := format_loop hostname gpu utilization mem_used mem_total frac
                   src (size - 1) 0 b0
        poke r.1 r.2 NUL

/-! ## Configuration and update cycle -/

/-- White space in the sense of `isspace` in the C locale. -/
def is_space (c : Char) : Bool :=
  c = ' ' || c = '\t' || c = '\n' || c = Char.ofNat 11 || c = Char.ofNat 12 || c = '\r'

/-- The conversion `%<w>s` of `sscanf`: white space is skipped, then up to `w`
characters that are not white space are read; `none` if there is none.
Returns the word and the rest of the input. -/
def scan_s (w : Nat) (inp : List Char) : Option (List Char × List Char) :=
  let word := ((inp.dropWhile is_space).takeWhile (fun c => !is_space c)).take w
  if word = [] then none else some (word, (inp.dropWhile is_space).drop word.length)

/-- The conversion `%[^\n]` of `sscanf`: the characters up to the next newline,
at least one; `none` if there is none. -/
def scan_to_newline (inp : List Char) : Option (List Char) :=
  if inp.takeWhile (fun c => c ≠ '\n') = [] then none
  else some (inp.takeWhile (fun c => c ≠ '\n'))

/-- The call `sscanf(inp, "%31s %[^\n]", a, b)`: what it stores in `a` and in
`b`, `none` for an array it does not assign.  The call returns 2 exactly when
both are assigned. -/
def sscanf_word_rest (inp : List Char) : Option (List Char) × Option (List Char) :=
  match scan_s 31 inp with
  | none => (none, none)
  | some r => (some r.1, scan_to_newline (r.2.dropWhile is_space))

/-- The value of a decimal digit. -/
def digit_value (c : Char) : Nat := c.toNat - 48

/-- The number that a string of decimal digits denotes. -/
def digits_value (ds : List Char) : Nat := ds.foldl (fun a c => 10 * a + digit_value c) 0

/-- The call `sscanf(inp, "%d\n", &x)`: the value it stores in the `gint` `x`,
`none` if it stores nothing (no digits after the white space and the optional
sign).  A value outside the range of `gint` is reduced to it. -/
def sscanf_d (inp : List Char) : Option Int :=
  let body := match inp.dropWhile is_space with
    | '-' :: r => r
    | '+' :: r => r
    | r => r
  let neg : Bool := match inp.dropWhile is_space with
    | '-' :: _ => true
    | _ => false
  if body.takeWhile Char.isDigit = [] then none
  else if neg then some (to_gint (-(digits_value (body.takeWhile Char.isDigit) : Int)))
  else some (to_gint (digits_value (body.takeWhile Char.isDigit) : Int))

/-- The strings found in the local arrays `gpu_name` and `command` of
`load_gpu_config` when the function is entered: they are not initialised, and
the code reads them wherever `sscanf` has not assigned them. -/
structure Locals where
  gpu_name : List Char
  command : List Char
deriving DecidableEq, Repr

/-- The loop `for (list = gpu_list; ...) if (strcmp(gpu->name, gpu_name) == 0)
<assignment>`, the assignment being `gpu := f gpu`. -/
def set_by_name (l : List GpuPlugin) (gpu_name : List Char) (f : GpuPlugin → GpuPlugin) :
    List GpuPlugin :=
  l.map (fun gpu => if gpu.name = gpu_name then f gpu else gpu)

/-- The call `create_alert()`: the alert template exists afterwards. -/
def create_alert (s : State) : State := { s with gpu_alert := true }

/-- The callback `cb_alert_config`: `gkrellm_alert_dup` gives every entry of
the registry a copy of the template (none if there is no template). -/
def cb_alert_config (s : State) : State :=
  { s with gpu_list := s.gpu_list.map (fun gpu => { gpu with alert := s.gpu_alert }) }

/-- The function `load_gpu_config` on the line `arg`.  `alert_keyword` is the
value of the macro `GKRELLM_ALERTCONFIG_KEYWORD` of the host's header.  The
result is `none` where the behaviour is undefined: `%[^\n]` stores 512 bytes
or more in the 512-byte array `item`. -/
def load_gpu_config (alert_keyword : List Char) (locals : Locals) (arg : List Char)
    (s : State) : Option State :=
  match sscanf_word_rest arg with
  | (some config, some item) =>
    if 512 ≤ item.length then none
    else
      let gpu_name := (sscanf_word_rest item).1.getD locals.gpu_name
      let command := (sscanf_word_rest item).2.getD locals.command
      if config = "show_panel_labels".toList then
        match sscanf_d item with
        | some v => some { s with show_panel_labels := v }
        | none => some s
      else if config = "text_format".toList then
        some { s with text_format := some item }
      else if config = "enabled".toList then
        some { s with gpu_list := set_by_name s.gpu_list gpu_name (fun gpu =>
          match sscanf_d command with
          | some v => { gpu with enabled := v }
          | none => gpu) }
      else if config = alert_keyword then
        some (cb_alert_config (create_alert s))
      else if config = "extra_info".toList then
        some { s with gpu_list := set_by_name s.gpu_list gpu_name (fun gpu =>
          match sscanf_d command with
          | some v => { gpu with extra_info := v }
          | none => gpu) }
      else if config = "launch".toList then
        some { s with gpu_list := set_by_name s.gpu_list gpu_name (fun gpu =>
          { gpu with launch_command := some command }) }
      else if config = "tooltip_comment".toList then
        some { s with gpu_list := set_by_name s.gpu_list gpu_name (fun gpu =>
          { gpu with launch_tooltip_comment := some command }) }
      else some s
  | _ => some s

/-- What `save_gpu_config` writes for one entry of the registry. -/
def save_gpu_entry (gpu : GpuPlugin) : List Char :=
  ("GPU enabled ".toList ++ gpu.name ++ ' ' :: fmt_d gpu.enabled ++ ['\n']) ++
  (match gpu.launch_command with
   | some command =>
     if command ≠ [] then "GPU launch ".toList ++ gpu.name ++ ' ' :: command ++ ['\n'] else []
   | none => []) ++
  (match gpu.launch_tooltip_comment with
   | some comment =>
     if comment ≠ [] then
       "GPU tooltip_comment ".toList ++ gpu.name ++ ' ' :: comment ++ ['\n']
     else []
   | none => []) ++
  ("GPU extra_info ".toList ++ gpu.name ++ ' ' :: fmt_d gpu.extra_info ++ ['\n'])

/-- The characters that `save_gpu_config` writes to the file.  `alertconfig`
is what `gkrellm_save_alertconfig` writes for the template; a NULL
`text_format` is printed by `%s` as "(null)". -/
def save_gpu_config (alertconfig : List Char) (s : State) : List Char :=
  ("GPU show_panel_labels ".toList ++ fmt_d s.show_panel_labels ++ ['\n']) ++
  ("GPU text_format ".toList ++ s.text_format.getD "(null)".toList ++ ['\n']) ++
  (s.gpu_list.map save_gpu_entry).flatten ++
  (if s.gpu_alert = true then alertconfig else [])

/-- The loop of `update_gpu_plugin` over the registry from position `i`,
reduced to its calls of `gkrellm_check_alert`: the position of the entry and
the value passed, in order (the widget calls are not modelled). -/
def alert_checks (second_tick : Bool) : Nat → List GpuPlugin → List (Nat × Nat)
  | _, [] => []
  | i, gpu :: rest =>
    (if gpu.enabled ≠ 0 ∧ second_tick = true ∧ gpu.alert = true ∧ gpu.is_composite = 0 then
       [(i, f32_of_nat gpu.utilization)]
     else []) ++ alert_checks second_tick (i + 1) rest

/-- One update cycle: the tick, then the loop over the registry.  Returns the
state and the calls of `gkrellm_check_alert`; `second_tick` is `GK.second_tick`. -/
def update_gpu_plugin (nvml : Nat → NvmlReads) (second_tick : Bool) (s : State) :
    State × List (Nat × Nat) :=
  (read_gpu_data nvml s, alert_checks second_tick 0 (read_gpu_data nvml s).gpu_list)

/-- The text of a file cut into lines at the newline characters. -/
def split_lines : List Char → List (List Char)
  | [] => []
  | c :: cs =>
    if c = '\n' then [] :: split_lines cs
    else
      match split_lines cs with
      | [] => [[c]]
      | ln :: lns => (c :: ln) :: lns

/-- The lines of a configuration file that the host passes to the plugin:
those beginning with the keyword "GPU " (`CONFIG_NAME`), without it. -/
def host_lines (file : List Char) : List (List Char) :=
  (split_lines file).filterMap (fun ln =>
    if ln.take 4 = "GPU ".toList then some (ln.drop 4) else none)

/-- Loading a sequence of lines, one call of `load_gpu_config` each. -/
def load_lines (alert_keyword : List Char) (locals : Locals) :
    List (List Char) → State → Option State
  | [], s => some s
  | arg :: rest, s =>
    match load_gpu_config alert_keyword locals arg s with
    | some s1 => load_lines alert_keyword locals rest s1
    | none => none

/-- A step of the plugin after initialisation: a sampling tick or the load of
a configuration line. -/
inductive Step where
  | tick (nvml : Nat → NvmlReads)
  | load (locals : Locals) (arg : List Char)

/-- The effect of one step. -/
def run_step (alert_keyword : List Char) : Step → State → Option State
  | Step.tick nvml, s => some (read_gpu_data nvml s)
  | Step.load locals arg, s => load_gpu_config alert_keyword locals arg s

/-- The effect of a sequence of steps. -/
def run_steps (alert_keyword : List Char) : List Step → State → Option State
  | [], s => some s
  | st :: rest, s =>
    match run_step alert_keyword st s with
    | some s1 => run_steps alert_keyword rest s1
    | none => none

/-- A word that `%31s` reads back whole: not empty, at most 31 characters,
no white space. -/
def is_word (w : List Char) : Bool :=
  decide (w ≠ []) && decide (w.length ≤ 31) && w.all (fun c => !is_space c)

/-- A text that `%[^\n]`, after white space has been skipped, reads back
whole: not empty, not beginning with white space, without a newline. -/
def reads_back (t : List Char) : Bool :=
  match t with
  | [] => false
  | c :: _ => !is_space c && t.all (fun x => decide (x ≠ '\n'))

/-- A value within the range of `gint`. -/
def is_gint (v : Int) : Prop := -(2 ^ 31) ≤ v ∧ v < 2 ^ 31

/-- The function `gkrellm_init_plugin` up to the creation of the monitor:
the registry is built, the text format is set to "$u" and the alert template
is created; `none` when `setup_gpu_interface` fails. -/
def gkrellm_init_plugin (nvmlInit_ok : Bool) (deviceCount : Option Nat) (s : State) :
    Option State :=
  if (setup_gpu_interface nvmlInit_ok deviceCount s).1 = false then none
  else
    some (create_alert
      { (setup_gpu_interface nvmlInit_ok deviceCount s).2 with text_format := some "$u".toList })

/-- What saving an entry `g` and loading its lines leaves in the entry `x` of
the same name: the enabled flag and the extra-info flag of `g`, and its launch
command and tooltip comment where they are not empty. -/
def restore (g x : GpuPlugin) : GpuPlugin :=
  { x with
    enabled := g.enabled,
    launch_command :=
      (match g.launch_command with
       | some command => if command ≠ [] then some command else x.launch_command
       | none => x.launch_command),
    launch_tooltip_comment :=
      (match g.launch_tooltip_comment with
       | some comment => if comment ≠ [] then some comment else x.launch_tooltip_comment
       | none => x.launch_tooltip_comment),
    extra_info := g.extra_info }

/-- The lines that the host passes to the plugin for what `save_gpu_entry`
writes for `g`. -/
def entry_lines (g : GpuPlugin) : List (List Char) :=
  ["enabled".toList ++ ' ' :: (g.name ++ ' ' :: fmt_d g.enabled)] ++
  (match g.launch_command with
   | some command =>
     if command ≠ [] then ["launch".toList ++ ' ' :: (g.name ++ ' ' :: command)] else []
   | none => []) ++
  (match g.launch_tooltip_comment with
   | some comment =>
     if comment ≠ [] then ["tooltip_comment".toList ++ ' ' :: (g.name ++ ' ' :: comment)]
     else []
   | none => []) ++
  ["extra_info".toList ++ ' ' :: (g.name ++ ' ' :: fmt_d g.extra_info)]

/-- The settings of one entry that the round trip is about: its name, enabled
flag, launch command and tooltip comment. -/
def entry_settings (g : GpuPlugin) :
    List Char × Int × Option (List Char) × Option (List Char) :=
  (g.name, g.enabled, g.launch_command, g.launch_tooltip_comment)

/-- The settings that the round trip is about: the panel-label flag, the text
format, and per entry the name, the enabled flag, the launch command and the
tooltip comment. -/
def settings_of (s : State) :
    Int × Option (List Char) ×
      List (List Char × Int × Option (List Char) × Option (List Char)) :=
  (s.show_panel_labels, s.text_format, s.gpu_list.map entry_settings)

/-- The entry `gpu` with its enabled flag set to `v`. -/
def with_enabled (v : Int) (gpu : GpuPlugin) : GpuPlugin := { gpu with enabled := v }

/-- The entry `gpu` with its extra-info flag set to `v`. -/
def with_extra_info (v : Int) (gpu : GpuPlugin) : GpuPlugin := { gpu with extra_info := v }

/-- The entry `gpu` with its launch command set. -/
def with_launch (command : List Char) (gpu : GpuPlugin) : GpuPlugin :=
  { gpu with launch_command := some command }

/-- The entry `gpu` with its tooltip comment set. -/
def with_tooltip (comment : List Char) (gpu : GpuPlugin) : GpuPlugin :=
  { gpu with launch_tooltip_comment := some comment }

/-- The state `st` with another registry list. -/
def with_gpu_list (l : List GpuPlugin) (st : State) : State := { st with gpu_list := l }

/-- A launch command or tooltip comment of the entry named `name` that the
saved file gives back: absent, or a text that `%[^\n]` reads back whole and
that fits, with the name and a blank before it, in the 512-byte array `item`. -/
def saved_ok (name : List Char) : Option (List Char) → Bool
  | none => true
  | some c => reads_back c && decide (name.length + 1 + c.length ≤ 511)

/-- The directive names that `load_gpu_config` compares the first word of a
line with, the alert keyword apart. -/
def directive_names : List (List Char) :=
  ["show_panel_labels".toList, "text_format".toList, "enabled".toList,
   "extra_info".toList, "launch".toList, "tooltip_comment".toList]

/-- The effect on the entry `y` of loading the lines saved for `g`. -/
def restore_step (y g : GpuPlugin) : GpuPlugin :=
  if y.name = g.name then restore g y else y

/-! ## Notions used to state the properties -/

/-- The entries of `l` that a tick processes: those with a non-negative
`instance` whose handle lookup succeeds in that tick, in list order. -/
def processed (nvml : Nat → NvmlReads) (l : List GpuPlugin) : List GpuPlugin :=
  (List.range' 0 l.length).filterMap (fun i =>
    match l[i]? with
    | some g => if 0 ≤ g.instance_ ∧ (nvml i).handle = true then some g else none
    | none => none)

/-- What a tick leaves in a processed entry, or `none` for an entry it skips. -/
def pick (nvml : Nat → NvmlReads) (l : List GpuPlugin) (i : Nat) : Option GpuPlugin :=
  match l[i]? with
  | some g =>
    if 0 ≤ g.instance_ ∧ (nvml i).handle = true then some (read_device (nvml i) g) else none
  | none => none

/-- What a tick leaves in the entry `g` at position `i`. -/
def upd (nvml : Nat → NvmlReads) (i : Nat) (g : GpuPlugin) : GpuPlugin :=
  if 0 ≤ g.instance_ ∧ (nvml i).handle = true then read_device (nvml i) g else g

/-- The four accumulation statements applied to the composite `cg` for one
processed device `g`. -/
def acc (cg g : GpuPlugin) : GpuPlugin :=
  { cg with
    utilization := gulong (cg.utilization + g.utilization),
    total_memory := gulong (cg.total_memory + g.total_memory),
    used_memory := gulong (cg.used_memory + g.used_memory),
    temperature := if cg.temperature < g.temperature then g.temperature else cg.temperature }

/-- Following the spec's words (the size table as the claim states it, with
thresholds 50×1024, 1024 and 50 and the exact quotients): the rendering of the
KiB-scaled value `v`. -/
def spec_fmt_size (v : Nat) : List Char :=
  if 50 * 1024 < v then fmt_f 0 v 20 ++ ['G']
  else if 1024 < v then fmt_f 1 v 20 ++ ['G']
  else if 50 < v then fmt_f 0 v 10 ++ ['M']
  else fmt_f 1 v 10 ++ ['M']

/-- Following the spec's words: `round(100 × usedKiB / totalKiB)` as an exact
quotient rounded to the nearest integer (halves up), then clamped to
`[0, 100]`. -/
def spec_mem_percent (used_kib total_kib : Nat) : Int :=
  clamp_percent (((200 * used_kib + total_kib) / (2 * total_kib) : Nat) : Int)

/-! ## Concrete inputs -/

/-- The string that `format_gpu_data` leaves in the caller's array. -/
def formatted (hostname : List Char) (indef : Int) (gpu : GpuPlugin)
    (src_string : List Char) (buf : List Char) (size : Int) : List Char :=
  c_string (format_gpu_data hostname indef gpu (some src_string) (some buf) size).buf

/-- The characters that `format_gpu_data` replaces after a `$`. -/
def is_token_char (c : Char) : Bool :=
  c = 'u' || c = 'm' || c = 'T' || c = 'U' || c = 'L' || c = 'N' || c = 'H'

/-- No `$` of the template is immediately followed by a token character. -/
def token_free : List Char → Bool
  | [] => true
  | c0 :: tl =>
    match tl with
    | [] => true
    | c1 :: _ => !(c0 = '$' && is_token_char c1) && token_free tl

/-- A device with a label and the given utilization, total and used memory. -/
def sample_gpu (utilization total_memory used_memory : Nat) : GpuPlugin :=
  { g_new0 with
    name := "gpu0".toList, label := "GPU0".toList, enabled := 1,
    utilization := utilization, total_memory := total_memory,
    used_memory := used_memory }



/-- A composite entry holding the aggregate of an earlier tick. -/
def stale_composite : GpuPlugin :=
  { g_new0 with name := "gpu".toList, label := "GPU".toList, is_composite := 1,
                instance_ := -1, enabled := 1, utilization := 40, temperature := 60 }

/-- A first device with metrics of an earlier tick and a temperature sensor. -/
def stale_gpu0 : GpuPlugin :=
  { g_new0 with name := "gpu0".toList, label := "GPU0".toList, instance_ := 0,
                enabled := 1, utilization := 10, total_memory := 4096,
                used_memory := 1024, temperature := 50, show_temperature := 1,
                sensor_decal := true, sensor_temp := true }

/-- A second device with metrics of an earlier tick. -/
def stale_gpu1 : GpuPlugin :=
  { g_new0 with name := "gpu1".toList, label := "GPU1".toList, instance_ := 1,
                enabled := 1, utilization := 70, total_memory := 8192,
                used_memory := 2048, temperature := 60 }

/-- A registry of two devices with stale metrics, as a tick finds it. -/
def two_gpu_state : State :=
  { State.init with
    n_gpus := 2,
    composite_gpu := some 0,
    gpu_list := [stale_composite, stale_gpu0, stale_gpu1] }

/-- A tick in which the first device is read (its memory query failing) and the
handle lookup of the second device fails. -/
def one_failing_tick (i : Nat) : NvmlReads :=
  if i = 1 then
    { handle := true, utilization := some 31, memory := none, temperature := some 55 }
  else
    { handle := false, utilization := some 99, memory := some (1, 1), temperature := some 99 }

/-- Following the spec's words: `round(sum / n)`, the quotient rounded to the
nearest integer (halves up). -/
def spec_round_div (sum n : Nat) : Nat := (2 * sum + n) / (2 * n)

/-- The first device of `two_gpu_state`, disabled. -/
def stale_gpu0_disabled : GpuPlugin := { stale_gpu0 with enabled := 0 }

/-- The registry `two_gpu_state` with its first device disabled. -/
def disabled_gpu_state : State :=
  { two_gpu_state with gpu_list := [stale_composite, stale_gpu0_disabled, stale_gpu1] }

/-- A tick in which every handle lookup fails. -/
def all_handles_fail_tick (_ : Nat) : NvmlReads :=
  { handle := false, utilization := none, memory := none, temperature := none }

/-- A tick in which both handle lookups succeed, the first device's
temperature is read as 55 and the temperature query of the second fails. -/
def one_temperature_tick (i : Nat) : NvmlReads :=
  if i = 1 then
    { handle := true, utilization := some 31, memory := none, temperature := some 55 }
  else
    { handle := true, utilization := some 20, memory := none, temperature := none }

/-- The identity of a registry entry: internal name, index and composite
flag. -/
def identity_of (g : GpuPlugin) : List Char × Int × Int :=
  (g.name, g.instance_, g.is_composite)

/-- A configuration line with an unknown directive and a value. -/
def unknown_line : List Char := "update_interval 5".toList

/-- Uninitialised local arrays holding empty strings. -/
def empty_locals : Locals := { gpu_name := [], command := [] }

/-- A run of the plugin after setup: a configuration line disabling the first
device, a tick, and a configuration line naming no value. -/
def sample_steps : List Step :=
  [Step.load empty_locals "enabled gpu0 0".toList, Step.tick one_failing_tick,
   Step.load empty_locals "launch gpu1".toList]

/-- The state that `gkrellm_init_plugin` leaves with one device. -/
def one_gpu_fresh : State :=
  { State.init with n_gpus := 1, gpu_list := [new_device 0],
                    text_format := some "$u".toList, gpu_alert := true }

/-- The state `one_gpu_fresh` after the text format has been set to the empty
string. -/
def empty_format_state : State := { one_gpu_fresh with text_format := some [] }

/-- The state `one_gpu_fresh` with a text format that begins with a blank. -/
def blank_format_state : State := { one_gpu_fresh with text_format := some " $L".toList }

/-- A sample of what `gkrellm_save_alertconfig` writes for the template: lines
that begin with the configuration keyword and the alert keyword. -/
def sample_alertconfig : List Char :=
  "GPU alert_config values 1 0 90 95\nGPU alert_config repeat 0 5\n".toList

/-- The state that `gkrellm_init_plugin` leaves with two devices. -/
def two_gpu_fresh : State :=
  { State.init with n_gpus := 2, composite_gpu := some 0,
                    gpu_list := [new_composite, new_device 0, new_device 1],
                    text_format := some "$u".toList, gpu_alert := true }

/-- The first device, disabled, with a launch command, a tooltip comment and
a sampled utilization. -/
def configured_gpu0 : GpuPlugin :=
  { new_device 0 with enabled := 0, launch_command := some "nvidia-smi -l 1".toList,
                      launch_tooltip_comment := some "GPU stats".toList, utilization := 37 }

/-- A registry of two devices with settings changed by the user. -/
def configured_state : State :=
  { two_gpu_fresh with show_panel_labels := 0, text_format := some "$L: $u ($m)".toList,
                       gpu_list := [new_composite, configured_gpu0, new_device 1] }

/-! ## Lemmas on the sampler -/

theorem read_device_instance (r : NvmlReads) (g : GpuPlugin) :
    (read_device r g).instance_ = g.instance_ := by
  unfold read_device
  cases r.utilization <;> cases r.memory <;> cases r.temperature <;> simp <;>
    split <;> (try split) <;> simp

theorem upd_instance (nvml : Nat → NvmlReads) (i : Nat) (g : GpuPlugin) :
    (upd nvml i g).instance_ = g.instance_ := by
  unfold upd
  split
  · exact read_device_instance _ _
  · rfl

theorem assign_composite_other (l : List GpuPlugin) (c i j : Nat)
    (f : GpuPlugin → GpuPlugin → GpuPlugin) (h : j ≠ c) :
    (assign_composite l c i f)[j]? = l[j]? := by
  unfold assign_composite
  split
  · rw [List.getElem?_set_ne (Ne.symm h)]
  · rfl

theorem assign_composite_at (l : List GpuPlugin) (c i : Nat)
    (f : GpuPlugin → GpuPlugin → GpuPlugin) (cg g : GpuPlugin)
    (hc : l[c]? = some cg) (hi : l[i]? = some g) :
    assign_composite l c i f = l.set c (f cg g) := by
  unfold assign_composite
  rw [hc, hi]

theorem assign_composite_instance (l : List GpuPlugin) (c i : Nat)
    (f : GpuPlugin → GpuPlugin → GpuPlugin)
    (hf : ∀ a b, (f a b).instance_ = a.instance_)
    (h : ∀ cg, l[c]? = some cg → cg.instance_ < 0) :
    ∀ cg, (assign_composite l c i f)[c]? = some cg → cg.instance_ < 0 := by
  intro cg
  unfold assign_composite
  split
  · rename_i a b ha hb
    have hlt : c < l.length := by
      rcases Nat.lt_or_ge c l.length with hlt | hge
      · exact hlt
      · rw [List.getElem?_eq_none hge] at ha; cases ha
    rw [List.getElem?_set_self hlt]
    intro e
    cases e
    rw [hf]
    exact h a ha
  · exact h cg

theorem update_composite_other (l : List GpuPlugin) (c i j : Nat) (h : j ≠ c) :
    (update_composite l c i)[j]? = l[j]? := by
  unfold update_composite
  simp only [assign_composite_other _ _ _ _ _ h]

theorem update_composite_at (l : List GpuPlugin) (c i : Nat) (cg g : GpuPlugin)
    (hc : l[c]? = some cg) (hi : l[i]? = some g) (hne : i ≠ c) :
    update_composite l c i = l.set c (acc cg g) := by
  have hlt : c < l.length := by
    rcases Nat.lt_or_ge c l.length with hlt | hge
    · exact hlt
    · rw [List.getElem?_eq_none hge] at hc; cases hc
  unfold update_composite
  simp only
  rw [assign_composite_at l c i _ cg g hc hi]
  rw [assign_composite_at (l.set c _) c i _ _ g
        (by rw [List.getElem?_set_self hlt]) (by rw [List.getElem?_set_ne (Ne.symm hne)]; exact hi)]
  rw [List.set_set]
  rw [assign_composite_at (l.set c _) c i _ _ g
        (by rw [List.getElem?_set_self hlt]) (by rw [List.getElem?_set_ne (Ne.symm hne)]; exact hi)]
  rw [List.set_set]
  rw [assign_composite_at (l.set c _) c i _ _ g
        (by rw [List.getElem?_set_self hlt]) (by rw [List.getElem?_set_ne (Ne.symm hne)]; exact hi)]
  rw [List.set_set]
  congr 1
  unfold acc
  simp only
  split <;> rfl

theorem getElem?_lt_of_some {α : Type} (l : List α) (i : Nat) (a : α) (h : l[i]? = some a) :
    i < l.length := by
  rcases Nat.lt_or_ge i l.length with hlt | hge
  · exact hlt
  · rw [List.getElem?_eq_none hge] at h; cases h

theorem update_composite_length (l : List GpuPlugin) (c i : Nat) :
    (update_composite l c i).length = l.length := by
  have key : ∀ (l : List GpuPlugin) (f : GpuPlugin → GpuPlugin → GpuPlugin),
      (assign_composite l c i f).length = l.length := by
    intro l f
    unfold assign_composite
    split <;> simp
  unfold update_composite
  simp only [key]

theorem read_gpu_entry_length (nvml : Nat → NvmlReads) (comp : Option Nat)
    (l : List GpuPlugin) (i : Nat) :
    (read_gpu_entry nvml comp l i).length = l.length := by
  unfold read_gpu_entry
  split
  · rfl
  · split
    · rfl
    · split
      · rfl
      · cases comp with
        | none => simp
        | some c => simp [update_composite_length]

/-- An iteration leaves every entry other than the composite and the one it
visits as it was, and the visited entry holds its updated value. -/
theorem read_gpu_entry_other (nvml : Nat → NvmlReads) (comp : Option Nat)
    (l : List GpuPlugin) (i j : Nat) (hj : comp ≠ some j) :
    (read_gpu_entry nvml comp l i)[j]? =
      if j = i then (l[j]?).map (upd nvml j) else l[j]? := by
  unfold read_gpu_entry
  cases hli : l[i]? with
  | none =>
    simp only
    split
    · rename_i h; subst h; rw [hli]; rfl
    · rfl
  | some g =>
    simp only
    have hlt := getElem?_lt_of_some l i g hli
    by_cases hneg : g.instance_ < 0
    · rw [if_pos hneg]
      split
      · rename_i h; subst h; rw [hli]
        simp [upd, not_le.mpr hneg]
      · rfl
    · rw [if_neg hneg]
      by_cases hh : (nvml i).handle = false
      · rw [if_pos hh]
        split
        · rename_i h; subst h; rw [hli]
          simp [upd, hh]
        · rfl
      · rw [if_neg hh]
        have hh' : (nvml i).handle = true := by simpa using hh
        have hset : (l.set i (read_device (nvml i) g))[j]? =
            if j = i then (l[j]?).map (upd nvml j) else l[j]? := by
          by_cases hji : j = i
          · subst hji
            rw [if_pos rfl, List.getElem?_set_self hlt, hli]
            simp [upd, not_lt.mp hneg, hh']
          · rw [if_neg hji, List.getElem?_set_ne (Ne.symm hji)]
        cases comp with
        | none => simpa using hset
        | some c =>
          simp only
          have hjc : j ≠ c := fun e => hj (by rw [e])
          rw [update_composite_other _ _ _ _ hjc]
          exact hset

/-- An iteration applies the accumulation to the composite exactly when it
processes its entry. -/
theorem read_gpu_entry_comp (nvml : Nat → NvmlReads) (c : Nat)
    (l : List GpuPlugin) (i : Nat) (cg : GpuPlugin)
    (hc : l[c]? = some cg) (hneg : cg.instance_ < 0) :
    (read_gpu_entry nvml (some c) l i)[c]? =
      some (match pick nvml l i with
            | some g => acc cg g
            | none => cg) := by
  have hclt := getElem?_lt_of_some l c cg hc
  unfold read_gpu_entry pick
  cases hli : l[i]? with
  | none => simpa using hc
  | some g =>
    simp only
    by_cases hg : g.instance_ < 0
    · rw [if_pos hg]
      simp [not_le.mpr hg, hc]
    · rw [if_neg hg]
      by_cases hh : (nvml i).handle = false
      · rw [if_pos hh]
        simp [hh, hc]
      · rw [if_neg hh]
        have hh' : (nvml i).handle = true := by simpa using hh
        have hic : i ≠ c := by
          intro e
          subst e
          rw [hc] at hli
          cases hli
          exact hg hneg
        have hlt := getElem?_lt_of_some l i g hli
        rw [update_composite_at (l.set i (read_device (nvml i) g)) c i cg
              (read_device (nvml i) g)
              (by rw [List.getElem?_set_ne hic]; exact hc)
              (by rw [List.getElem?_set_self hlt]) hic]
        rw [List.getElem?_set_self (by simpa using hclt)]
        simp [not_lt.mp hg, hh']

theorem read_gpu_loop_length (nvml : Nat → NvmlReads) (comp : Option Nat) :
    ∀ (fuel i : Nat) (l : List GpuPlugin),
      (read_gpu_loop nvml comp fuel i l).length = l.length := by
  intro fuel
  induction fuel with
  | zero => intro i l; rfl
  | succ fuel ih =>
    intro i l
    unfold read_gpu_loop
    rw [ih, read_gpu_entry_length]

/-- After the loop, every entry other than the composite holds its updated
value if the loop visited it, and its old value otherwise. -/
theorem read_gpu_loop_other (nvml : Nat → NvmlReads) (comp : Option Nat) :
    ∀ (fuel i : Nat) (l : List GpuPlugin) (j : Nat), comp ≠ some j →
      (read_gpu_loop nvml comp fuel i l)[j]? =
        if i ≤ j ∧ j < i + fuel then (l[j]?).map (upd nvml j) else l[j]? := by
  intro fuel
  induction fuel with
  | zero =>
    intro i l j _
    have : ¬ (i ≤ j ∧ j < i + 0) := by omega
    rw [if_neg this]
    rfl
  | succ fuel ih =>
    intro i l j hj
    unfold read_gpu_loop
    rw [ih (i + 1) _ j hj, read_gpu_entry_other nvml comp l i j hj]
    by_cases hji : j = i
    · subst hji
      have h1 : ¬ (j + 1 ≤ j ∧ j < j + 1 + fuel) := by omega
      have h2 : j ≤ j ∧ j < j + (fuel + 1) := by omega
      rw [if_neg h1, if_pos rfl, if_pos h2]
    · rw [if_neg hji]
      by_cases hr : i + 1 ≤ j ∧ j < i + 1 + fuel
      · have h2 : i ≤ j ∧ j < i + (fuel + 1) := by omega
        rw [if_pos hr, if_pos h2]
      · have h2 : ¬ (i ≤ j ∧ j < i + (fuel + 1)) := by omega
        rw [if_neg hr, if_neg h2]

theorem pick_congr (nvml : Nat → NvmlReads) (l l' : List GpuPlugin) (j : Nat)
    (h : l'[j]? = l[j]?) : pick nvml l' j = pick nvml l j := by
  unfold pick
  rw [h]

theorem pick_neg (nvml : Nat → NvmlReads) (l : List GpuPlugin) (j : Nat) (g : GpuPlugin)
    (h : l[j]? = some g) (hneg : g.instance_ < 0) : pick nvml l j = none := by
  unfold pick
  rw [h]
  simp [not_le.mpr hneg]

theorem acc_instance (cg g : GpuPlugin) : (acc cg g).instance_ = cg.instance_ := rfl

/-- After the loop, the composite holds the accumulation over the entries
the loop processed, in list order. -/
theorem read_gpu_loop_comp (nvml : Nat → NvmlReads) (c : Nat) :
    ∀ (fuel i : Nat) (l : List GpuPlugin) (cg : GpuPlugin),
      l[c]? = some cg → cg.instance_ < 0 →
      (read_gpu_loop nvml (some c) fuel i l)[c]? =
        some (((List.range' i fuel).filterMap (pick nvml l)).foldl acc cg) := by
  intro fuel
  induction fuel with
  | zero =>
    intro i l cg hc _
    simpa [read_gpu_loop] using hc
  | succ fuel ih =>
    intro i l cg hc hneg
    unfold read_gpu_loop
    have hstep := read_gpu_entry_comp nvml c l i cg hc hneg
    have hcongr : (List.range' (i + 1) fuel).filterMap
          (pick nvml (read_gpu_entry nvml (some c) l i)) =
        (List.range' (i + 1) fuel).filterMap (pick nvml l) := by
      apply List.filterMap_congr
      intro j hjm
      have hji : j ≠ i := by
        have := (List.mem_range'_1.mp hjm).1
        omega
      by_cases hjc : j = c
      · subst hjc
        rw [pick_neg nvml l j cg hc hneg]
        cases hp : pick nvml l i with
        | none =>
          rw [hp] at hstep
          exact pick_neg nvml _ j cg hstep hneg
        | some g =>
          rw [hp] at hstep
          exact pick_neg nvml _ j (acc cg g) hstep hneg
      · apply pick_congr
        rw [read_gpu_entry_other nvml (some c) l i j (by simpa using Ne.symm hjc), if_neg hji]
    rw [List.range'_succ, List.filterMap_cons]
    cases hp : pick nvml l i with
    | none =>
      rw [hp] at hstep
      rw [ih (i + 1) _ cg hstep hneg, hcongr]
    | some g =>
      rw [hp] at hstep
      rw [ih (i + 1) _ (acc cg g) hstep hneg, hcongr]
      rfl

theorem foldl_acc_instance (devs : List GpuPlugin) :
    ∀ cg : GpuPlugin, (devs.foldl acc cg).instance_ = cg.instance_ := by
  induction devs with
  | nil => intro cg; rfl
  | cons g rest ih => intro cg; rw [List.foldl_cons, ih]; rfl

theorem foldl_acc_utilization (devs : List GpuPlugin) :
    ∀ cg : GpuPlugin,
      cg.utilization + (devs.map (fun g => g.utilization)).sum < 2 ^ 64 →
      (devs.foldl acc cg).utilization =
        cg.utilization + (devs.map (fun g => g.utilization)).sum := by
  induction devs with
  | nil => intro cg _; simp
  | cons g rest ih =>
    intro cg h
    simp only [List.map_cons, List.sum_cons] at h ⊢
    have e : (acc cg g).utilization = cg.utilization + g.utilization := by
      show gulong (cg.utilization + g.utilization) = _
      unfold gulong
      exact Nat.mod_eq_of_lt (by omega)
    rw [List.foldl_cons, ih (acc cg g) (by rw [e]; omega), e]
    omega

theorem foldl_acc_total_memory (devs : List GpuPlugin) :
    ∀ cg : GpuPlugin,
      cg.total_memory + (devs.map (fun g => g.total_memory)).sum < 2 ^ 64 →
      (devs.foldl acc cg).total_memory =
        cg.total_memory + (devs.map (fun g => g.total_memory)).sum := by
  induction devs with
  | nil => intro cg _; simp
  | cons g rest ih =>
    intro cg h
    simp only [List.map_cons, List.sum_cons] at h ⊢
    have e : (acc cg g).total_memory = cg.total_memory + g.total_memory := by
      show gulong (cg.total_memory + g.total_memory) = _
      unfold gulong
      exact Nat.mod_eq_of_lt (by omega)
    rw [List.foldl_cons, ih (acc cg g) (by rw [e]; omega), e]
    omega

theorem foldl_acc_used_memory (devs : List GpuPlugin) :
    ∀ cg : GpuPlugin,
      cg.used_memory + (devs.map (fun g => g.used_memory)).sum < 2 ^ 64 →
      (devs.foldl acc cg).used_memory =
        cg.used_memory + (devs.map (fun g => g.used_memory)).sum := by
  induction devs with
  | nil => intro cg _; simp
  | cons g rest ih =>
    intro cg h
    simp only [List.map_cons, List.sum_cons] at h ⊢
    have e : (acc cg g).used_memory = cg.used_memory + g.used_memory := by
      show gulong (cg.used_memory + g.used_memory) = _
      unfold gulong
      exact Nat.mod_eq_of_lt (by omega)
    rw [List.foldl_cons, ih (acc cg g) (by rw [e]; omega), e]
    omega

theorem foldl_acc_temperature (devs : List GpuPlugin) :
    ∀ cg : GpuPlugin,
      (devs.foldl acc cg).temperature =
        max cg.temperature ((devs.map (fun g => g.temperature)).foldr max 0) := by
  induction devs with
  | nil => intro cg; simp
  | cons g rest ih =>
    intro cg
    have e : (acc cg g).temperature = max cg.temperature g.temperature := by
      show (if cg.temperature < g.temperature then g.temperature else cg.temperature) = _
      split
      · rw [max_eq_right (by omega)]
      · rw [max_eq_left (by omega)]
    rw [List.foldl_cons, ih (acc cg g), e]
    simp only [List.map_cons, List.foldr_cons]
    rw [max_assoc]

theorem modify_at_at (l : List GpuPlugin) (p : Nat) (f : GpuPlugin → GpuPlugin)
    (g : GpuPlugin) (h : l[p]? = some g) : modify_at l p f = l.set p (f g) := by
  unfold modify_at
  rw [h]

theorem modify_at_other (l : List GpuPlugin) (p j : Nat) (f : GpuPlugin → GpuPlugin)
    (h : j ≠ p) : (modify_at l p f)[j]? = l[j]? := by
  unfold modify_at
  split
  · rw [List.getElem?_set_ne (Ne.symm h)]
  · rfl

theorem modify_at_length (l : List GpuPlugin) (p : Nat) (f : GpuPlugin → GpuPlugin) :
    (modify_at l p f).length = l.length := by
  unfold modify_at
  split <;> simp

theorem read_gpu_data_length (nvml : Nat → NvmlReads) (s : State) :
    (read_gpu_data nvml s).gpu_list.length = s.gpu_list.length := by
  unfold read_gpu_data
  cases s.composite_gpu with
  | none => simp [read_gpu_loop_length]
  | some c =>
    simp only
    split <;> simp [read_gpu_loop_length, modify_at_length]

/-- A tick leaves in every entry other than the composite its updated value. -/
theorem read_gpu_data_other (nvml : Nat → NvmlReads) (s : State) (j : Nat)
    (hj : s.composite_gpu ≠ some j) :
    (read_gpu_data nvml s).gpu_list[j]? = (s.gpu_list[j]?).map (upd nvml j) := by
  have hloop : ∀ l0 : List GpuPlugin, l0[j]? = s.gpu_list[j]? →
      (read_gpu_loop nvml s.composite_gpu l0.length 0 l0)[j]? =
        (s.gpu_list[j]?).map (upd nvml j) := by
    intro l0 h0
    rw [read_gpu_loop_other nvml s.composite_gpu l0.length 0 l0 j hj, h0]
    by_cases hlt : j < l0.length
    · rw [if_pos (by omega)]
    · rw [if_neg (by omega)]
      have : l0[j]? = none := List.getElem?_eq_none (by omega)
      rw [← h0, this]
      rfl
  unfold read_gpu_data
  cases hc : s.composite_gpu with
  | none =>
    simp only
    have := hloop s.gpu_list rfl
    rw [hc] at this
    exact this
  | some c =>
    have hjc : j ≠ c := fun e => hj (by rw [hc, e])
    simp only
    have := hloop (modify_at s.gpu_list c reset_stats)
      (modify_at_other s.gpu_list c j reset_stats hjc)
    rw [hc] at this
    split
    · rw [modify_at_other _ _ _ _ hjc]
      exact this
    · exact this

theorem read_gpu_data_comp (nvml : Nat → NvmlReads) (s : State) (c : Nat) (cg : GpuPlugin)
    (hc : s.composite_gpu = some c) (hcg : s.gpu_list[c]? = some cg)
    (hneg : cg.instance_ < 0) (hn : 1 < s.n_gpus) :
    (read_gpu_data nvml s).gpu_list[c]? =
      some { ((List.range' 0 s.gpu_list.length).filterMap (pick nvml s.gpu_list)).foldl acc
               (reset_stats cg) with
             utilization :=
               (((List.range' 0 s.gpu_list.length).filterMap (pick nvml s.gpu_list)).foldl acc
                 (reset_stats cg)).utilization / s.n_gpus.toNat } := by
  have hclt := getElem?_lt_of_some _ _ _ hcg
  have h0 : (modify_at s.gpu_list c reset_stats)[c]? = some (reset_stats cg) := by
    rw [modify_at_at _ _ _ _ hcg, List.getElem?_set_self hclt]
  have hlen : (modify_at s.gpu_list c reset_stats).length = s.gpu_list.length :=
    modify_at_length _ _ _
  have hcongr : (List.range' 0 s.gpu_list.length).filterMap
        (pick nvml (modify_at s.gpu_list c reset_stats)) =
      (List.range' 0 s.gpu_list.length).filterMap (pick nvml s.gpu_list) := by
    apply List.filterMap_congr
    intro j _
    by_cases hjc : j = c
    · subst hjc
      rw [pick_neg nvml _ j _ h0 hneg, pick_neg nvml _ j _ hcg hneg]
    · exact pick_congr nvml _ _ j (modify_at_other _ _ _ _ hjc)
  have hloop := read_gpu_loop_comp nvml c (modify_at s.gpu_list c reset_stats).length 0
    (modify_at s.gpu_list c reset_stats) (reset_stats cg) h0 hneg
  rw [hlen, hcongr] at hloop
  unfold read_gpu_data
  rw [hc]
  simp only
  rw [if_pos hn, hlen, modify_at_at _ _ _ _ hloop, List.getElem?_set_self]
  rw [read_gpu_loop_length, hlen]
  exact hclt

theorem processed_eq (nvml : Nat → NvmlReads) (s : State) (c : Nat) (cg : GpuPlugin)
    (hc : s.composite_gpu = some c) (hcg : s.gpu_list[c]? = some cg)
    (hneg : cg.instance_ < 0) (hn : 1 < s.n_gpus) :
    processed nvml (read_gpu_data nvml s).gpu_list =
      (List.range' 0 s.gpu_list.length).filterMap (pick nvml s.gpu_list) := by
  unfold processed
  rw [read_gpu_data_length]
  apply List.filterMap_congr
  intro j _
  by_cases hjc : j = c
  · subst hjc
    rw [read_gpu_data_comp nvml s j cg hc hcg hneg hn, pick_neg nvml _ j _ hcg hneg]
    have hi := foldl_acc_instance
      ((List.range' 0 s.gpu_list.length).filterMap (pick nvml s.gpu_list)) (reset_stats cg)
    have hr : (reset_stats cg).instance_ = cg.instance_ := rfl
    simp only
    rw [if_neg]
    rw [hi, hr]
    omega
  · rw [read_gpu_data_other nvml s j (by rw [hc]; simpa using Ne.symm hjc)]
    unfold pick
    cases s.gpu_list[j]? with
    | none => rfl
    | some g =>
      simp only [Option.map_some', upd_instance]
      unfold upd
      split <;> rfl

theorem read_device_fields (r : NvmlReads) (g : GpuPlugin) :
    (read_device r g).utilization = r.utilization.getD g.utilization ∧
    (read_device r g).total_memory = (r.memory.map Prod.fst).getD g.total_memory ∧
    (read_device r g).used_memory = (r.memory.map Prod.snd).getD g.used_memory ∧
    (read_device r g).temperature =
      if g.show_temperature ≠ 0 ∧ g.sensor_decal = true ∧ g.sensor_temp = true then
        (r.temperature.map f32_of_nat).getD g.temperature
      else g.temperature := by
  rcases r with ⟨h, u, m, t⟩
  unfold read_device
  cases u <;> cases m <;> cases t <;> simp only [] <;> split_ifs <;> simp_all

/-! ## C1 and C3: the sampling tick -/

/-- C1: in a registry whose composite entry (negative `instance`) is the one
`composite_gpu` points to and whose device count `n_gpus` exceeds 1, after a
tick of `read_gpu_data` with any read outcomes the composite holds:
utilization = (sum of the stored utilizations of the processed devices)
divided by `n_gpus`, rounding down; total and used memory = the plain sums of
their stored total and used memory; temperature = the maximum of their stored
temperatures, 0 if no device was processed.  The processed devices are the
entries with non-negative `instance` whose handle lookup succeeded in this
tick; the three sums are assumed to stay below `2^64`. -/
theorem composite_aggregation (nvml : Nat → NvmlReads) (s : State) (c : Nat)
    (cg : GpuPlugin)
    (hc : s.composite_gpu = some c) (hcg : s.gpu_list[c]? = some cg)
    (hneg : cg.instance_ < 0) (hn : 1 < s.n_gpus)
    (hU : ((processed nvml (read_gpu_data nvml s).gpu_list).map
            (fun g => g.utilization)).sum < 2 ^ 64)
    (hT : ((processed nvml (read_gpu_data nvml s).gpu_list).map
            (fun g => g.total_memory)).sum < 2 ^ 64)
    (hM : ((processed nvml (read_gpu_data nvml s).gpu_list).map
            (fun g => g.used_memory)).sum < 2 ^ 64) :
    ∃ cg', (read_gpu_data nvml s).gpu_list[c]? = some cg' ∧
      cg'.utilization =
        ((processed nvml (read_gpu_data nvml s).gpu_list).map
          (fun g => g.utilization)).sum / s.n_gpus.toNat ∧
      cg'.total_memory =
        ((processed nvml (read_gpu_data nvml s).gpu_list).map
          (fun g => g.total_memory)).sum ∧
      cg'.used_memory =
        ((processed nvml (read_gpu_data nvml s).gpu_list).map
          (fun g => g.used_memory)).sum ∧
      cg'.temperature =
        ((processed nvml (read_gpu_data nvml s).gpu_list).map
          (fun g => g.temperature)).foldr max 0 := by
  rw [processed_eq nvml s c cg hc hcg hneg hn] at hU hT hM ⊢
  refine ⟨_, read_gpu_data_comp nvml s c cg hc hcg hneg hn, ?_, ?_, ?_, ?_⟩
  · show _ / _ = _
    rw [foldl_acc_utilization _ (reset_stats cg) (by simpa [reset_stats] using hU)]
    simp [reset_stats]
  · show (List.foldl acc (reset_stats cg) _).total_memory = _
    rw [foldl_acc_total_memory _ (reset_stats cg) (by simpa [reset_stats] using hT)]
    simp [reset_stats]
  · show (List.foldl acc (reset_stats cg) _).used_memory = _
    rw [foldl_acc_used_memory _ (reset_stats cg) (by simpa [reset_stats] using hM)]
    simp [reset_stats]
  · show (List.foldl acc (reset_stats cg) _).temperature = _
    rw [foldl_acc_temperature _ (reset_stats cg)]
    simp [reset_stats]

/-- Witness of C1: a two-device registry, the first device read and the second
failing its handle lookup; the composite ends with utilization 31 / 2 = 15. -/
theorem composite_aggregation_witness :
    ∃ cg', (read_gpu_data one_failing_tick two_gpu_state).gpu_list[0]? = some cg' ∧
      cg'.utilization =
        ((processed one_failing_tick (read_gpu_data one_failing_tick two_gpu_state).gpu_list).map
          (fun g => g.utilization)).sum / two_gpu_state.n_gpus.toNat ∧
      cg'.total_memory =
        ((processed one_failing_tick (read_gpu_data one_failing_tick two_gpu_state).gpu_list).map
          (fun g => g.total_memory)).sum ∧
      cg'.used_memory =
        ((processed one_failing_tick (read_gpu_data one_failing_tick two_gpu_state).gpu_list).map
          (fun g => g.used_memory)).sum ∧
      cg'.temperature =
        ((processed one_failing_tick (read_gpu_data one_failing_tick two_gpu_state).gpu_list).map
          (fun g => g.temperature)).foldr max 0 :=
  composite_aggregation one_failing_tick two_gpu_state 0 stale_composite
    rfl rfl (by decide) (by decide) (by decide) (by decide) (by decide)

/-- C3: for a tick of `read_gpu_data` and a physical device `d` (an entry with
non-negative `instance` that is not the composite): if its handle lookup fails
the whole entry is unchanged; otherwise utilization is the newly read value if
the utilization read succeeded and the old value if not, likewise total and
used memory with the memory read, and the temperature changes only if
`show_temperature` is set and the temperature read succeeded (it is then the
value read, provided the decal and the sensor exist).  The entry after the
tick is the same for all outcome assignments that agree on `d`. -/
theorem device_read_isolation (nvml : Nat → NvmlReads) (s : State) (i : Nat)
    (d : GpuPlugin)
    (hd : s.gpu_list[i]? = some d) (hphys : 0 ≤ d.instance_)
    (hnc : s.composite_gpu ≠ some i) :
    ∃ d', (read_gpu_data nvml s).gpu_list[i]? = some d' ∧
      ((nvml i).handle = false → d' = d) ∧
      ((nvml i).handle = true →
        d'.utilization = (nvml i).utilization.getD d.utilization ∧
        d'.total_memory = ((nvml i).memory.map Prod.fst).getD d.total_memory ∧
        d'.used_memory = ((nvml i).memory.map Prod.snd).getD d.used_memory ∧
        (d'.temperature ≠ d.temperature →
          d.show_temperature ≠ 0 ∧ (nvml i).temperature.isSome = true) ∧
        (d.show_temperature ≠ 0 → d.sensor_decal = true → d.sensor_temp = true →
          ∀ t, (nvml i).temperature = some t → d'.temperature = f32_of_nat t)) ∧
      (∀ nvml' : Nat → NvmlReads, nvml' i = nvml i →
        (read_gpu_data nvml' s).gpu_list[i]? = some d') := by
  refine ⟨upd nvml i d, ?_, ?_, ?_, ?_⟩
  · rw [read_gpu_data_other nvml s i hnc, hd]; rfl
  · intro hf
    simp [upd, hf]
  · intro ht
    have hu : upd nvml i d = read_device (nvml i) d := by simp [upd, hphys, ht]
    obtain ⟨h1, h2, h3, h4⟩ := read_device_fields (nvml i) d
    rw [hu]
    refine ⟨h1, h2, h3, ?_, ?_⟩
    · rw [h4]
      split_ifs with hcond
      · intro hne
        refine ⟨hcond.1, ?_⟩
        cases hT : (nvml i).temperature with
        | none => rw [hT] at hne; exact absurd rfl hne
        | some t => rfl
      · intro hne; exact absurd rfl hne
    · intro hs hdec hst t htemp
      rw [h4, if_pos ⟨hs, hdec, hst⟩, htemp]
      rfl
  · intro nvml' h
    rw [read_gpu_data_other nvml' s i hnc, hd]
    simp [upd, h]

/-- Witness of C3: the first device of the two-device registry. -/
theorem device_read_isolation_witness :
    ∃ d', (read_gpu_data one_failing_tick two_gpu_state).gpu_list[1]? = some d' ∧
      ((one_failing_tick 1).handle = false →
        d' = stale_gpu0) ∧
      ((one_failing_tick 1).handle = true →
        d'.utilization = (one_failing_tick 1).utilization.getD stale_gpu0.utilization ∧
        d'.total_memory =
          ((one_failing_tick 1).memory.map Prod.fst).getD stale_gpu0.total_memory ∧
        d'.used_memory =
          ((one_failing_tick 1).memory.map Prod.snd).getD stale_gpu0.used_memory ∧
        (d'.temperature ≠ stale_gpu0.temperature →
          stale_gpu0.show_temperature ≠ 0 ∧ (one_failing_tick 1).temperature.isSome = true) ∧
        (stale_gpu0.show_temperature ≠ 0 → stale_gpu0.sensor_decal = true →
          stale_gpu0.sensor_temp = true →
          ∀ t, (one_failing_tick 1).temperature = some t → d'.temperature = f32_of_nat t)) ∧
      (∀ nvml' : Nat → NvmlReads, nvml' 1 = one_failing_tick 1 →
        (read_gpu_data nvml' two_gpu_state).gpu_list[1]? = some d') :=
  device_read_isolation one_failing_tick two_gpu_state 1 stale_gpu0
    rfl (by decide) (by decide)

/-! ## C4: the registry built by setup_gpu_interface -/

theorem to_gint_of_lt (count : Nat) (h : count < 2 ^ 31) :
    to_gint ((count : Int) % 2 ^ 32) = count := by
  unfold to_gint
  omega

theorem fmt_d_natCast (k : Nat) : fmt_d (k : Int) = Nat.toDigits 10 k := by
  unfold fmt_d
  rw [if_neg (by omega)]
  simp

theorem setup_loop_eq :
    ∀ (fuel : Nat) (i n : Int) (l : List GpuPlugin), i + fuel = n →
      setup_loop fuel i n l =
        l ++ (List.range fuel).map (fun k : Nat => new_device (i + (k : Int))) := by
  intro fuel
  induction fuel with
  | zero => intro i n l _; simp [setup_loop]
  | succ fuel ih =>
    intro i n l h
    unfold setup_loop
    rw [if_pos (by omega), ih (i + 1) n _ (by push_cast at h; omega)]
    rw [List.range_succ_eq_map, List.map_cons, List.map_map, List.append_assoc]
    simp only [List.singleton_append, Nat.cast_zero, add_zero]
    congr 2
    apply List.map_congr_left
    intro k _
    simp only [Function.comp, Nat.succ_eq_add_one, Nat.cast_add, Nat.cast_one]
    congr 1
    omega

theorem setup_gpu_interface_eq (count n : Nat) (s : State) (hempty : s.gpu_list = [])
    (hn : to_gint (count % 2 ^ 32) = n) :
    setup_gpu_interface true (some count) s =
      (true,
       { s with
         n_gpus := n,
         composite_gpu := if 1 < n then some 0 else s.composite_gpu,
         gpu_list := (if 1 < n then [new_composite] else []) ++
           (List.range n).map (fun k : Nat => new_device (k : Int)) }) := by
  unfold setup_gpu_interface
  simp only [Bool.true_eq_false, if_false, hn, hempty, Int.toNat_ofNat]
  rw [setup_loop_eq n 0 n _ (by omega)]
  by_cases h : 1 < n
  · have h' : (1 : Int) < (n : Int) := by exact_mod_cast h
    simp [h, h']
  · have h' : ¬ (1 : Int) < (n : Int) := by exact_mod_cast h
    simp [h, h']

/-- C4: after a successful initialisation on an empty registry, with `n ≥ 0`
the device count as held by the `gint` `n_gpus`, the registry is: for `n > 1`
first the composite (instance -1, name "gpu", label "GPU", composite flag
set, enabled) followed by the devices `0 .. n-1` in increasing order, device
`i` having instance `i`, name "gpu<i>", label "GPU<i>", no composite flag and
enabled set; for `n ≤ 1` no composite and exactly the `n` device entries. -/
theorem setup_registry (count n : Nat) (s : State)
    (hempty : s.gpu_list = []) (hnull : s.composite_gpu = none)
    (hn : to_gint (count % 2 ^ 32) = n) :
    (setup_gpu_interface true (some count) s).1 = true ∧
    (setup_gpu_interface true (some count) s).2.n_gpus = n ∧
    (1 < n →
      (setup_gpu_interface true (some count) s).2.composite_gpu = some 0 ∧
      (setup_gpu_interface true (some count) s).2.gpu_list.length = n + 1 ∧
      (∃ g, (setup_gpu_interface true (some count) s).2.gpu_list[0]? = some g ∧
        g.instance_ = -1 ∧ g.name = "gpu".toList ∧ g.label = "GPU".toList ∧
        g.is_composite = 1 ∧ g.enabled = 1) ∧
      ∀ i : Nat, i < n →
        ∃ g, (setup_gpu_interface true (some count) s).2.gpu_list[i + 1]? = some g ∧
          g.instance_ = i ∧ g.name = "gpu".toList ++ Nat.toDigits 10 i ∧
          g.label = "GPU".toList ++ Nat.toDigits 10 i ∧
          g.is_composite = 0 ∧ g.enabled = 1) ∧
    (n ≤ 1 →
      (setup_gpu_interface true (some count) s).2.composite_gpu = none ∧
      (setup_gpu_interface true (some count) s).2.gpu_list.length = n ∧
      ∀ i : Nat, i < n →
        ∃ g, (setup_gpu_interface true (some count) s).2.gpu_list[i]? = some g ∧
          g.instance_ = i ∧ g.name = "gpu".toList ++ Nat.toDigits 10 i ∧
          g.label = "GPU".toList ++ Nat.toDigits 10 i ∧
          g.is_composite = 0 ∧ g.enabled = 1) := by
  rw [setup_gpu_interface_eq count n s hempty hn]
  refine ⟨rfl, rfl, ?_, ?_⟩
  · intro h
    refine ⟨by simp [h], by simp [h], ⟨new_composite, by simp [h], rfl, rfl, rfl, rfl, rfl⟩, ?_⟩
    intro i hi
    refine ⟨new_device (i : Int), ?_, rfl, ?_, ?_, rfl, rfl⟩
    · simp [h, hi]
    · show "gpu".toList ++ fmt_d (i : Int) = _
      rw [fmt_d_natCast]
    · show "GPU".toList ++ fmt_d (i : Int) = _
      rw [fmt_d_natCast]
  · intro h
    have h' : ¬ 1 < n := by omega
    refine ⟨by simp [h', hnull], by simp [h'], ?_⟩
    intro i hi
    refine ⟨new_device (i : Int), ?_, rfl, ?_, ?_, rfl, rfl⟩
    · simp [h', hi]
    · show "gpu".toList ++ fmt_d (i : Int) = _
      rw [fmt_d_natCast]
    · show "GPU".toList ++ fmt_d (i : Int) = _
      rw [fmt_d_natCast]

/-- Witness of C4: a device count of 2 on the initial state gives the
composite followed by the devices 0 and 1. -/
theorem setup_registry_witness :
    State.init.gpu_list = [] ∧ State.init.composite_gpu = none ∧
    to_gint ((2 : Nat) % 2 ^ 32) = ((2 : Nat) : Int) ∧
    ((setup_gpu_interface true (some 2) State.init).2.composite_gpu = some 0 ∧
      (setup_gpu_interface true (some 2) State.init).2.gpu_list.length = 2 + 1 ∧
      (∃ g, (setup_gpu_interface true (some 2) State.init).2.gpu_list[0]? = some g ∧
        g.instance_ = -1 ∧ g.name = "gpu".toList ∧ g.label = "GPU".toList ∧
        g.is_composite = 1 ∧ g.enabled = 1) ∧
      ∀ i : Nat, i < 2 →
        ∃ g, (setup_gpu_interface true (some 2) State.init).2.gpu_list[i + 1]? = some g ∧
          g.instance_ = i ∧ g.name = "gpu".toList ++ Nat.toDigits 10 i ∧
          g.label = "GPU".toList ++ Nat.toDigits 10 i ∧
          g.is_composite = 0 ∧ g.enabled = 1) :=
  ⟨rfl, rfl, by decide,
    (setup_registry 2 2 State.init rfl rfl (by decide)).2.2.1 (by decide)⟩

/-! ## Lemmas on the output array -/

theorem poke_append (w r : List Char) (x c : Char) (oob : List Nat) :
    poke { buf := w ++ x :: r, oob := oob } w.length c = { buf := w ++ c :: r, oob := oob } := by
  unfold poke
  rw [if_pos (by simp)]
  simp [List.set_append]

theorem poke_list_append (cs : List Char) :
    ∀ (w r : List Char) (oob : List Nat), cs.length ≤ r.length →
      poke_list { buf := w ++ r, oob := oob } w.length cs =
        { buf := w ++ cs ++ r.drop cs.length, oob := oob } := by
  induction cs with
  | nil => intro w r oob _; simp [poke_list]
  | cons c cs ih =>
    intro w r oob h
    cases r with
    | nil => simp at h
    | cons x r =>
      unfold poke_list
      rw [poke_append]
      have e : w ++ c :: r = (w ++ [c]) ++ r := by simp
      have hl : w.length + 1 = (w ++ [c]).length := by simp
      rw [e, hl, ih (w ++ [c]) r oob (by simpa using h)]
      simp

theorem snprintf_fits (w r s : List Char) (oob : List Nat) (n : Nat)
    (hn : s.length + 1 ≤ n) (hr : s.length + 1 ≤ r.length) :
    snprintf { buf := w ++ r, oob := oob } w.length n s =
      { buf := w ++ s ++ NUL :: r.drop (s.length + 1), oob := oob } := by
  unfold snprintf
  rw [if_neg (by omega), List.take_of_length_le (by omega)]
  rw [poke_list_append (s ++ [NUL]) w r oob (by simpa using hr)]
  simp

theorem c_string_append (s rest : List Char) (h : ∀ c ∈ s, c ≠ NUL) :
    c_string (s ++ NUL :: rest) = s := by
  unfold c_string
  induction s with
  | nil => simp
  | cons a s ih =>
    have ha : a ≠ NUL := h a (by simp)
    simp only [List.cons_append, List.takeWhile_cons]
    rw [if_pos (by simpa using ha)]
    rw [ih (fun c hc => h c (by simp [hc]))]

theorem ite_ne_NUL (p : Prop) [Decidable p] (a b : Char) (ha : a ≠ NUL) (hb : b ≠ NUL) :
    (if p then a else b) ≠ NUL := by
  split
  · exact ha
  · exact hb

theorem digitChar_ne_NUL (k : Nat) : Nat.digitChar k ≠ NUL := by
  unfold Nat.digitChar
  repeat (first | exact (by decide) | apply ite_ne_NUL)

theorem toDigitsCore_ne_NUL (b : Nat) :
    ∀ (fuel n : Nat) (ds : List Char), (∀ c ∈ ds, c ≠ NUL) →
      ∀ c ∈ Nat.toDigitsCore b fuel n ds, c ≠ NUL := by
  intro fuel
  induction fuel with
  | zero => intro n ds h; simpa [Nat.toDigitsCore] using h
  | succ fuel ih =>
    intro n ds h
    unfold Nat.toDigitsCore
    have hd : ∀ c ∈ Nat.digitChar (n % b) :: ds, c ≠ NUL := by
      intro c hc
      rcases List.mem_cons.mp hc with e | e
      · rw [e]; exact digitChar_ne_NUL _
      · exact h c e
    simp only
    split
    · exact hd
    · exact ih _ _ hd

theorem toDigits_ne_NUL (n : Nat) : ∀ c ∈ Nat.toDigits 10 n, c ≠ NUL := by
  unfold Nat.toDigits
  exact toDigitsCore_ne_NUL 10 _ _ _ (by simp)

theorem fmt_d_ne_NUL (i : Int) : ∀ c ∈ fmt_d i, c ≠ NUL := by
  unfold fmt_d
  split
  · intro c hc
    rcases List.mem_cons.mp hc with e | e
    · rw [e]; decide
    · exact toDigits_ne_NUL _ c e
  · exact toDigits_ne_NUL _

theorem fmt_f_ne_NUL (d num k : Nat) : ∀ c ∈ fmt_f d num k, c ≠ NUL := by
  unfold fmt_f
  simp only
  split
  · exact toDigits_ne_NUL _
  · intro c hc
    rcases List.mem_append.mp hc with e | e
    · exact toDigits_ne_NUL _ c e
    · rcases List.mem_cons.mp e with e | e
      · rw [e]; decide
      · rcases List.mem_append.mp e with e | e
        · rw [(List.mem_replicate.mp e).2]; decide
        · exact toDigits_ne_NUL _ c e

theorem append_char_ne_NUL (s : List Char) (a : Char) (hs : ∀ c ∈ s, c ≠ NUL)
    (ha : a ≠ NUL) : ∀ c ∈ s ++ [a], c ≠ NUL := by
  intro c hc
  rcases List.mem_append.mp hc with e | e
  · exact hs c e
  · rw [List.mem_singleton.mp e]; exact ha

theorem fmt_size_ne_NUL (t : Int) : ∀ c ∈ fmt_size t, c ≠ NUL := by
  unfold fmt_size
  split_ifs <;> exact append_char_ne_NUL _ _ (fmt_f_ne_NUL _ _ _) (by decide)

/-! ## Lemmas on the formatter -/

theorem clamp_percent_range (t : Int) : 0 ≤ clamp_percent t ∧ clamp_percent t ≤ 100 := by
  unfold clamp_percent
  simp only
  split_ifs <;> omega

theorem format_token_u (hostname : List Char) (gpu : GpuPlugin) (u mu mt mf size : Int)
    (pos : Nat) (b : FmtBuf) :
    format_token hostname gpu u mu mt mf 'u' size pos b =
      (snprintf b pos size.toNat (fmt_d (clamp_percent u) ++ ['%']),
       ((fmt_d (clamp_percent u) ++ ['%']).length : Int)) := by
  unfold format_token
  simp [(clamp_percent_range u).1]

theorem format_token_m (hostname : List Char) (gpu : GpuPlugin) (u mu mt mf size : Int)
    (pos : Nat) (b : FmtBuf) :
    format_token hostname gpu u mu mt mf 'm' size pos b =
      (snprintf b pos size.toNat (fmt_d (clamp_percent mf) ++ ['%']),
       ((fmt_d (clamp_percent mf) ++ ['%']).length : Int)) := by
  unfold format_token
  simp [(clamp_percent_range mf).1]

theorem format_token_T (hostname : List Char) (gpu : GpuPlugin) (u mu mt mf size : Int)
    (pos : Nat) (b : FmtBuf) (h : 0 ≤ mt) :
    format_token hostname gpu u mu mt mf 'T' size pos b =
      (snprintf b pos size.toNat (fmt_size mt), ((fmt_size mt).length : Int)) := by
  unfold format_token
  simp [h]

theorem format_token_U (hostname : List Char) (gpu : GpuPlugin) (u mu mt mf size : Int)
    (pos : Nat) (b : FmtBuf) (h : 0 ≤ mu) :
    format_token hostname gpu u mu mt mf 'U' size pos b =
      (snprintf b pos size.toNat (fmt_size mu), ((fmt_size mu).length : Int)) := by
  unfold format_token
  simp [h]

theorem format_token_other (hostname : List Char) (gpu : GpuPlugin) (u mu mt mf size : Int)
    (pos : Nat) (b : FmtBuf) (c : Char) (h : is_token_char c = false) :
    format_token hostname gpu u mu mt mf c size pos b =
      if 1 < size then (poke (poke b pos '$') (pos + 1) c, 2) else (poke b pos '$', 1) := by
  unfold is_token_char at h
  simp only [Bool.or_eq_false_iff, decide_eq_false_iff_not] at h
  obtain ⟨⟨⟨⟨⟨⟨h1, h2⟩, h3⟩, h4⟩, h5⟩, h6⟩, h7⟩ := h
  unfold format_token
  simp only [h1, h2, h3, h4, h5, h6, h7, if_false]
  split <;> simp

/-- A template that is one token whose conversion produces `r`: with room for
`r`, its terminator and one more byte, the array ends up holding `r`. -/
theorem format_single (hostname : List Char) (indef : Int) (gpu : GpuPlugin) (c : Char)
    (r arr : List Char) (size : Int)
    (hlen : (arr.length : Int) = size) (hfit : r.length + 2 ≤ arr.length)
    (htok : ∀ (sz : Int) (b : FmtBuf),
      format_token hostname gpu (to_gint gpu.utilization) (to_gint (gpu.used_memory / 1024))
        (to_gint (gpu.total_memory / 1024))
        ((mem_used_frac (to_gint (gpu.used_memory / 1024))
            (to_gint (gpu.total_memory / 1024))).getD indef) c sz 0 b =
        (snprintf b 0 sz.toNat r, (r.length : Int))) :
    format_gpu_data hostname indef gpu (some ['$', c]) (some arr) size =
      { buf := r ++ NUL :: arr.drop (r.length + 1), oob := [] } := by
  cases arr with
  | nil => simp at hfit
  | cons a arr =>
    subst hlen
    have e : (((a :: arr).length : Nat) : Int) - 1 = ((arr.length : Nat) : Int) := by simp
    unfold format_gpu_data
    simp only
    rw [if_neg (by simp), e]
    have hb0 : poke { buf := a :: arr, oob := [] } 0 NUL = { buf := NUL :: arr, oob := [] } :=
      poke_append [] arr a NUL []
    rw [hb0]
    unfold format_loop
    rw [if_neg (by simp only [List.length_cons] at hfit; omega)]
    simp only [if_true]
    rw [htok]
    unfold format_loop
    simp only [Int.toNat_ofNat, Nat.zero_add]
    have hs := snprintf_fits [] (NUL :: arr) r [] arr.length
      (by simp only [List.length_cons] at hfit; omega)
      (by simp only [List.length_cons] at hfit ⊢; omega)
    simp only [List.length_nil, List.nil_append] at hs
    rw [hs]
    have hp := poke_append r ((NUL :: arr).drop (r.length + 1)) NUL NUL []
    rw [hp]
    simp

theorem to_gint_nat_of_lt (u : Nat) (h : u < 2 ^ 31) : to_gint (u : Int) = u := by
  unfold to_gint
  omega

/-! ## C5, C6, C7: single tokens -/

/-- C5, counterexample: a stored utilization of 3000000000 or 4294967295
(both values of the `unsigned int` that NVML reports) is above 100, but the
template "$u" renders "0%", not "100%": the assignment
`utilization = gpu->utilization` narrows the `gulong` to a `gint`, which is
negative for these values, and the clamp then gives 0. -/
theorem utilization_narrowing_counterexample :
    100 < (sample_gpu 3000000000 (4096 * 1024) (1024 * 1024)).utilization ∧
      formatted [] 0 (sample_gpu 3000000000 (4096 * 1024) (1024 * 1024)) "$u".toList
        (List.replicate 16 'x') 16 = "0%".toList ∧
      100 < (sample_gpu 4294967295 (4096 * 1024) (1024 * 1024)).utilization ∧
      formatted [] 0 (sample_gpu 4294967295 (4096 * 1024) (1024 * 1024)) "$u".toList
        (List.replicate 16 'x') 16 = "0%".toList := by
  decide

/-- C5, amended: for every device and every array with room for the result,
its terminator and one more byte, the template "$u" yields the decimal
rendering of the `gint` to which the stored utilization is narrowed, clamped to
`[0, 100]`, followed by '%', and nothing is written outside the array.  For a
stored utilization below `2^31` this is the stored utilization clamped to
`[0, 100]`: 57 gives "57%", and every stored utilization above 100 and below
`2^31` gives "100%". -/
theorem format_utilization (hostname : List Char) (indef : Int) (gpu : GpuPlugin)
    (arr : List Char) (size : Int)
    (hlen : (arr.length : Int) = size)
    (hfit : (fmt_d (clamp_percent (to_gint gpu.utilization)) ++ ['%']).length + 2
              ≤ arr.length) :
    formatted hostname indef gpu "$u".toList arr size =
        fmt_d (clamp_percent (to_gint gpu.utilization)) ++ ['%'] ∧
      (format_gpu_data hostname indef gpu (some "$u".toList) (some arr) size).oob = [] ∧
      (gpu.utilization < 2 ^ 31 →
        formatted hostname indef gpu "$u".toList arr size =
          fmt_d (clamp_percent gpu.utilization) ++ ['%']) ∧
      (gpu.utilization = 57 →
        formatted hostname indef gpu "$u".toList arr size = "57%".toList) ∧
      (100 < gpu.utilization → gpu.utilization < 2 ^ 31 →
        formatted hostname indef gpu "$u".toList arr size = "100%".toList) := by
  have hmain := format_single hostname indef gpu 'u'
    (fmt_d (clamp_percent (to_gint gpu.utilization)) ++ ['%']) arr size hlen hfit
    (fun sz b => format_token_u _ _ _ _ _ _ _ _ _)
  have hnn : ∀ c ∈ fmt_d (clamp_percent (to_gint gpu.utilization)) ++ ['%'], c ≠ NUL :=
    append_char_ne_NUL _ _ (fmt_d_ne_NUL _) (by decide)
  have hstr : formatted hostname indef gpu "$u".toList arr size =
      fmt_d (clamp_percent (to_gint gpu.utilization)) ++ ['%'] := by
    unfold formatted
    show c_string (format_gpu_data hostname indef gpu (some ['$', 'u']) (some arr) size).buf = _
    rw [hmain]
    exact c_string_append _ _ hnn
  refine ⟨hstr, ?_, ?_, ?_, ?_⟩
  · show (format_gpu_data hostname indef gpu (some ['$', 'u']) (some arr) size).oob = _
    rw [hmain]
  · intro h
    rw [hstr, to_gint_nat_of_lt _ h]
  · intro h
    rw [hstr, to_gint_nat_of_lt _ (by omega), h]
    decide
  · intro h1 h2
    have hc : clamp_percent (gpu.utilization : Int) = 100 := by
      unfold clamp_percent
      simp only
      split_ifs <;> omega
    rw [hstr, to_gint_nat_of_lt _ h2, hc]
    decide

/-- Witness of C5: a stored utilization of 150 in an array of 16 bytes gives
"100%", with no write outside the array. -/
theorem format_utilization_witness :
    formatted [] 0 (sample_gpu 150 (4096 * 1024) (1024 * 1024)) "$u".toList
        (List.replicate 16 'x') 16 = "100%".toList ∧
      (format_gpu_data [] 0 (sample_gpu 150 (4096 * 1024) (1024 * 1024)) (some "$u".toList)
        (some (List.replicate 16 'x')) 16).oob = [] :=
  ⟨(format_utilization [] 0 (sample_gpu 150 (4096 * 1024) (1024 * 1024))
      (List.replicate 16 'x') 16 (by decide) (by decide)).2.2.2.2 (by decide) (by decide),
    (format_utilization [] 0 (sample_gpu 150 (4096 * 1024) (1024 * 1024))
      (List.replicate 16 'x') 16 (by decide) (by decide)).2.1⟩

/-- C6, counterexample: the KiB-scaled value 600 exceeds 50, so the table of
the claim puts it in the 0-decimal "M" tier ("1M"), but `format_gpu_data`
renders it with one decimal, "0.6M": the thresholds of the code are 1024 times
those of the claim. -/
theorem size_table_counterexample :
    formatted [] 0 (sample_gpu 0 0 (600 * 1024)) "$U".toList (List.replicate 16 'x') 16
        = "0.6M".toList ∧
      spec_fmt_size 600 = "1M".toList ∧
      formatted [] 0 (sample_gpu 0 0 (600 * 1024)) "$U".toList (List.replicate 16 'x') 16
        ≠ spec_fmt_size 600 := by
  decide

/-- C6, amended: for the token `$T` (value `v` = total memory in KiB) or `$U`
(used memory in KiB), `v` a non-negative `gint`, and an array with room for the
result, its terminator and one more byte, `format_gpu_data` renders the
single-precision value of `v`: if `v > 50×1024×1024`, `v/(1024×1024)` with 0
decimals and suffix "G"; else if `v > 1024×1024`, `v/(1024×1024)` with 1
decimal and "G"; else if `v > 50×1024`, `v/1024` with 0 decimals and "M";
otherwise `v/1024` with 1 decimal and "M". -/
theorem format_size_tiers (hostname : List Char) (indef : Int) (gpu : GpuPlugin)
    (arr : List Char) (size : Int) (c : Char) (v : Int)
    (hlen : (arr.length : Int) = size)
    (hv : (c = 'T' ∧ v = to_gint (gpu.total_memory / 1024)) ∨
          (c = 'U' ∧ v = to_gint (gpu.used_memory / 1024)))
    (hnn : 0 ≤ v)
    (hfit : (fmt_size v).length + 2 ≤ arr.length) :
    formatted hostname indef gpu ['$', c] arr size =
      (if 50 * 1024 * 1024 < v then fmt_f 0 (f32_of_nat v.toNat) 20 ++ ['G']
       else if 1024 * 1024 < v then fmt_f 1 (f32_of_nat v.toNat) 20 ++ ['G']
       else if 50 * 1024 < v then fmt_f 0 (f32_of_nat v.toNat) 10 ++ ['M']
       else fmt_f 1 (f32_of_nat v.toNat) 10 ++ ['M']) := by
  show _ = fmt_size v
  have hmain : format_gpu_data hostname indef gpu (some ['$', c]) (some arr) size =
      { buf := fmt_size v ++ NUL :: arr.drop ((fmt_size v).length + 1), oob := [] } := by
    rcases hv with ⟨hc, hv⟩ | ⟨hc, hv⟩
    · subst hc
      exact format_single hostname indef gpu 'T' (fmt_size v) arr size hlen hfit
        (fun sz b => by rw [hv]; exact format_token_T _ _ _ _ _ _ _ _ _ (by rw [← hv]; exact hnn))
    · subst hc
      exact format_single hostname indef gpu 'U' (fmt_size v) arr size hlen hfit
        (fun sz b => by rw [hv]; exact format_token_U _ _ _ _ _ _ _ _ _ (by rw [← hv]; exact hnn))
  unfold formatted
  rw [hmain]
  exact c_string_append _ _ (fmt_size_ne_NUL v)

/-- Witness of C6 as amended: 2 097 152 KiB of used memory render as "2.0G". -/
theorem format_size_tiers_witness :
    formatted [] 0 (sample_gpu 0 0 (2097152 * 1024)) ['$', 'U'] (List.replicate 16 'x') 16 =
        (if 50 * 1024 * 1024 < (2097152 : Int) then fmt_f 0 (f32_of_nat 2097152) 20 ++ ['G']
         else if 1024 * 1024 < (2097152 : Int) then fmt_f 1 (f32_of_nat 2097152) 20 ++ ['G']
         else if 50 * 1024 < (2097152 : Int) then fmt_f 0 (f32_of_nat 2097152) 10 ++ ['M']
         else fmt_f 1 (f32_of_nat 2097152) 10 ++ ['M']) ∧
      formatted [] 0 (sample_gpu 0 0 (2097152 * 1024)) ['$', 'U'] (List.replicate 16 'x') 16 =
        "2.0G".toList :=
  ⟨format_size_tiers [] 0 (sample_gpu 0 0 (2097152 * 1024)) (List.replicate 16 'x') 16 'U'
      2097152 (by decide) (Or.inr ⟨rfl, by decide⟩) (by decide) (by decide),
    by decide⟩

/-- C7, counterexample: with 24 GiB of total memory (25 165 824 KiB) and
12 708 741 KiB in use the exact quotient is 50.4999995…, which rounds to 50,
but `format_gpu_data` renders "51%": the product `100 × used` is rounded to
single precision (to 1 270 874 112) and the quotient becomes exactly 50.5. -/
theorem mem_percent_counterexample :
    formatted [] 0 (sample_gpu 0 (25165824 * 1024) (12708741 * 1024)) "$m".toList
        (List.replicate 16 'x') 16 = "51%".toList ∧
      fmt_d (spec_mem_percent 12708741 25165824) ++ ['%'] = "50%".toList ∧
      formatted [] 0 (sample_gpu 0 (25165824 * 1024) (12708741 * 1024)) "$m".toList
        (List.replicate 16 'x') 16 ≠ fmt_d (spec_mem_percent 12708741 25165824) ++ ['%'] := by
  decide

/-- C7, amended: for every device for which the single-precision evaluation of
`round(100 * (gfloat) usedKiB / totalKiB)` is defined (`totalKiB ≠ 0` and the
result within `gint`) with value `v`, and an array with room for the result,
its terminator and one more byte, the template "$m" yields the decimal
rendering of `v` clamped to `[0, 100]`, followed by '%'; `usedKiB` and
`totalKiB` are the stored values divided by 1024 and converted to `gint`. -/
theorem format_mem_percent (hostname : List Char) (indef : Int) (gpu : GpuPlugin)
    (arr : List Char) (size : Int) (v : Int)
    (hlen : (arr.length : Int) = size)
    (hv : mem_used_frac (to_gint (gpu.used_memory / 1024))
            (to_gint (gpu.total_memory / 1024)) = some v)
    (hfit : (fmt_d (clamp_percent v) ++ ['%']).length + 2 ≤ arr.length) :
    formatted hostname indef gpu "$m".toList arr size = fmt_d (clamp_percent v) ++ ['%'] := by
  have hmain := format_single hostname indef gpu 'm' (fmt_d (clamp_percent v) ++ ['%'])
    arr size hlen hfit
    (fun sz b => by rw [hv]; exact format_token_m _ _ _ _ _ _ _ _ _)
  unfold formatted
  show c_string (format_gpu_data hostname indef gpu (some ['$', 'm']) (some arr) size).buf = _
  rw [hmain]
  exact c_string_append _ _ (append_char_ne_NUL _ _ (fmt_d_ne_NUL _) (by decide))

/-- Witness of C7 as amended: 1 GiB in use out of 4 GiB renders as "25%". -/
theorem format_mem_percent_witness :
    mem_used_frac (to_gint ((sample_gpu 0 (4 * 2 ^ 30) (2 ^ 30)).used_memory / 1024))
        (to_gint ((sample_gpu 0 (4 * 2 ^ 30) (2 ^ 30)).total_memory / 1024)) = some 25 ∧
      formatted [] 0 (sample_gpu 0 (4 * 2 ^ 30) (2 ^ 30)) "$m".toList
        (List.replicate 16 'x') 16 = fmt_d (clamp_percent 25) ++ ['%'] :=
  ⟨by decide,
    format_mem_percent [] 0 (sample_gpu 0 (4 * 2 ^ 30) (2 ^ 30)) (List.replicate 16 'x') 16 25
      (by decide) (by decide) (by decide)⟩

/-! ## C9: templates without tokens -/

theorem token_free_tail (a : Char) (l : List Char) (h : token_free (a :: l) = true) :
    token_free l = true := by
  cases l with
  | nil => rfl
  | cons b l =>
    unfold token_free at h
    simp only [Bool.and_eq_true] at h
    exact h.2

theorem format_loop_no_room (hostname : List Char) (gpu : GpuPlugin) (u mu mt mf : Int)
    (src : List Char) (pos : Nat) (b : FmtBuf) :
    format_loop hostname gpu u mu mt mf src 0 pos b = (b, pos) := by
  cases src with
  | nil => rfl
  | cons c0 tl => unfold format_loop; simp

/-- On a template without tokens the loop copies characters one for one until
the template or the room ends. -/
theorem format_loop_literal (hostname : List Char) (gpu : GpuPlugin) (u mu mt mf : Int) :
    ∀ (n : Nat) (src : List Char), src.length = n → token_free src = true →
      ∀ (k : Nat) (w r : List Char) (oob : List Nat), k ≤ r.length →
        format_loop hostname gpu u mu mt mf src (k : Int) w.length
            { buf := w ++ r, oob := oob } =
          ({ buf := w ++ src.take k ++ r.drop (min src.length k), oob := oob },
           w.length + min src.length k) := by
  intro n
  induction n using Nat.strong_induction_on with
  | _ n ih =>
    intro src hn htf k w r oob hk
    cases src with
    | nil => simp [format_loop]
    | cons c0 tl =>
      cases k with
      | zero =>
        rw [Nat.cast_zero, format_loop_no_room]
        simp
      | succ k =>
        cases r with
        | nil => simp at hk
        | cons x r =>
          have hk' : k ≤ r.length := by simpa using hk
          have hw1 : ∀ c : Char, w.length + 1 = (w ++ [c]).length := by intro c; simp
          have happ : ∀ c : Char, w ++ c :: r = (w ++ [c]) ++ r := by intro c; simp
          unfold format_loop
          rw [if_neg (by push_cast; omega)]
          cases tl with
          | nil =>
            simp only [poke_append]
            simp
          | cons c1 rest =>
            simp only
            have htl : token_free (c1 :: rest) = true := token_free_tail _ _ htf
            by_cases hd : c0 = '$'
            · rw [if_pos hd]
              have hnt : is_token_char c1 = false := by
                unfold token_free at htf
                simp only [Bool.and_eq_true, Bool.not_eq_true', Bool.and_eq_false_iff,
                  decide_eq_false_iff_not] at htf
                rcases htf.1 with h | h
                · exact absurd hd h
                · exact h
              rw [format_token_other _ _ _ _ _ _ _ _ _ _ hnt]
              subst hd
              cases k with
              | zero =>
                rw [if_neg (by simp)]
                simp only [poke_append]
                have e : ((0 + 1 : Nat) : Int) - 1 = 0 := by simp
                rw [e, format_loop_no_room]
                simp
              | succ k =>
                cases r with
                | nil => simp at hk'
                | cons y r =>
                  have hk'' : k ≤ r.length := by simpa using hk'
                  rw [if_pos (by push_cast; omega)]
                  simp only [poke_append]
                  have e : ((k + 1 + 1 : Nat) : Int) - 2 = (k : Int) := by push_cast; omega
                  have e2 : w.length + (2 : Int).toNat = (w ++ ['$', c1]).length := by simp
                  have e3 : w.length + 1 = (w ++ ['$']).length := by simp
                  have e4 : w ++ '$' :: y :: r = (w ++ ['$']) ++ y :: r := by simp
                  rw [e4, e3, poke_append]
                  have e5 : (w ++ ['$']) ++ c1 :: r = (w ++ ['$', c1]) ++ r := by simp
                  rw [e, e2, e5]
                  rw [ih rest.length (by simp at hn; omega) rest rfl
                        (token_free_tail _ _ htl) k (w ++ ['$', c1]) r oob hk'']
                  simp only [List.length_cons, List.length_append, List.length_nil,
                    List.take_succ_cons, List.drop_succ_cons, List.append_assoc,
                    List.cons_append, List.nil_append, Nat.add_min_add_right]
                  refine Prod.ext ?_ ?_
                  · rfl
                  · simp only; omega
            · rw [if_neg hd]
              rw [poke_append, happ, hw1 c0,
                  show (((k + 1 : Nat) : Int) - 1) = (k : Int) by push_cast; omega]
              rw [ih (c1 :: rest).length (by simp at hn ⊢; omega) (c1 :: rest) rfl htl k
                    (w ++ [c0]) r oob hk']
              simp only [List.length_cons, List.length_append, List.length_nil,
                List.take_succ_cons, List.drop_succ_cons, List.append_assoc,
                List.cons_append, List.nil_append, Nat.add_min_add_right]
              refine Prod.ext ?_ ?_
              · rfl
              · simp only; omega

/-- C9: for every template (a C string) in which no `$` is immediately
followed by one of `u m T U L N H`, and every array of capacity `size ≥ 1`,
`format_gpu_data` outputs exactly the first `min(length(template), size - 1)`
characters of the template, unchanged and in order, and writes nothing outside
the array. -/
theorem format_literal (hostname : List Char) (indef : Int) (gpu : GpuPlugin)
    (src arr : List Char) (size : Int)
    (hlen : (arr.length : Int) = size) (hsize : 1 ≤ size)
    (htf : token_free src = true) (hsrc : ∀ c ∈ src, c ≠ NUL) :
    formatted hostname indef gpu src arr size =
        src.take (min src.length (size.toNat - 1)) ∧
      (format_gpu_data hostname indef gpu (some src) (some arr) size).oob = [] := by
  cases arr with
  | nil => simp at hlen; omega
  | cons a arr =>
    subst hlen
    have e : (((a :: arr).length : Nat) : Int) - 1 = ((arr.length : Nat) : Int) := by simp
    have hb0 : poke { buf := a :: arr, oob := [] } 0 NUL = { buf := NUL :: arr, oob := [] } :=
      poke_append [] arr a NUL []
    have hloop := format_loop_literal hostname gpu (to_gint gpu.utilization)
      (to_gint (gpu.used_memory / 1024)) (to_gint (gpu.total_memory / 1024))
      ((mem_used_frac (to_gint (gpu.used_memory / 1024))
          (to_gint (gpu.total_memory / 1024))).getD indef)
      src.length src rfl htf arr.length [] (NUL :: arr) [] (by simp)
    simp only [List.nil_append, List.length_nil, Nat.zero_add] at hloop
    have hdrop : ∃ x rest, (NUL :: arr).drop (min src.length arr.length) = x :: rest := by
      cases hd : (NUL :: arr).drop (min src.length arr.length) with
      | nil =>
        have := List.drop_eq_nil_iff.mp hd
        simp only [List.length_cons] at this
        omega
      | cons x rest => exact ⟨x, rest, rfl⟩
    obtain ⟨x, rest, hx⟩ := hdrop
    have htake : (src.take arr.length).length = min src.length arr.length := by
      rw [List.length_take]; omega
    have hres : format_gpu_data hostname indef gpu (some src) (some (a :: arr))
        ((a :: arr).length : Nat) =
        { buf := src.take arr.length ++ NUL :: rest, oob := [] } := by
      unfold format_gpu_data
      simp only
      rw [if_neg (by simp), e, hb0, hloop, hx, ← htake, poke_append]
    have htk : src.take (min src.length (((a :: arr).length : Int).toNat - 1)) =
        src.take arr.length := by
      simp only [Int.toNat_ofNat, List.length_cons, Nat.add_sub_cancel]
      rcases Nat.le_total src.length arr.length with h | h
      · rw [Nat.min_eq_left h, List.take_of_length_le h, List.take_of_length_le (le_refl _)]
      · rw [Nat.min_eq_right h]
    refine ⟨?_, ?_⟩
    · unfold formatted
      rw [hres, htk]
      exact c_string_append _ _ (fun c hc => hsrc c (List.mem_of_mem_take hc))
    · rw [hres]

/-- Witness of C9: the template "ab$x$" in an array of 4 bytes gives "ab$". -/
theorem format_literal_witness :
    formatted [] 0 (sample_gpu 0 0 0) "ab$x$".toList (List.replicate 4 'z') 4 =
        "ab$x$".toList.take (min "ab$x$".toList.length ((4 : Int).toNat - 1)) ∧
      (format_gpu_data [] 0 (sample_gpu 0 0 0) (some "ab$x$".toList)
        (some (List.replicate 4 'z')) 4).oob = [] :=
  format_literal [] 0 (sample_gpu 0 0 0) "ab$x$".toList (List.replicate 4 'z') 4
    (by decide) (by decide) (by decide) (by decide)

/-! ## C2, C8, C10: the formatter at its limits -/

/-- C2: a write outside the caller's array.  With the label "GPU0", the
template "$L" and an array of 3 bytes, `snprintf` returns 4 although it stored
only 2 bytes, the write position advances by 4 and the final terminator is
stored at offset 4.  The same happens in the 128-byte array of
`refresh_gpu_chart` with a template of 126 literal characters followed by
"$L": the terminator is stored at offset 130. -/
theorem format_writes_out_of_bounds :
    (format_gpu_data [] 0 (sample_gpu 0 0 0) (some "$L".toList)
        (some (List.replicate 3 'x')) 3).oob = [4] ∧
      (format_gpu_data [] 0 (sample_gpu 0 0 0) (some (List.replicate 126 'a' ++ "$L".toList))
        (some (List.replicate 128 'x')) 128).oob = [130] := by
  set_option maxRecDepth 100000 in decide

/-- C8: with total memory 0 the value of `mem_used_frac` is not defined (the
float quotient is evaluated with divisor 0 and its conversion to `gint` is
undefined), there is no short-circuit to 0: what "$m" renders is whatever the
platform's conversion yields, "0%" where that is `INT_MIN` and "100%" where
it is `INT_MAX`. -/
theorem format_mem_total_zero :
    mem_used_frac (to_gint ((sample_gpu 0 0 0).used_memory / 1024))
        (to_gint ((sample_gpu 0 0 0).total_memory / 1024)) = none ∧
      formatted [] (-2147483648) (sample_gpu 0 0 0) "$m".toList (List.replicate 16 'x') 16
        = "0%".toList ∧
      formatted [] 2147483647 (sample_gpu 0 0 0) "$m".toList (List.replicate 16 'x') 16
        = "100%".toList := by
  decide

/-- C10: the rendering "57%" of "$u" fits an array of 4 bytes together with
its terminator, but `format_gpu_data` leaves "57" there: the conversion is
given the room without the terminator and reserves one more byte itself. -/
theorem format_exact_fit_truncated :
    formatted [] 0 (sample_gpu 57 0 0) "$u".toList (List.replicate 4 'x') 4 = "57".toList ∧
      fmt_d (clamp_percent 57) ++ ['%'] = "57%".toList := by
  decide

/-! ## C11, C12, C13: what the tick does not do -/

/-- C11, counterexample: a physical device with `enabled = 0` whose handle
lookup and utilization read succeed has its stored utilization overwritten
(10 becomes 31) and its temperature too (50 becomes 55): `read_gpu_data`
never looks at `enabled`. -/
theorem disabled_device_counterexample :
    disabled_gpu_state.gpu_list[1]? = some stale_gpu0_disabled ∧
      stale_gpu0_disabled.enabled = 0 ∧ 0 ≤ stale_gpu0_disabled.instance_ ∧
      stale_gpu0_disabled.utilization = 10 ∧ stale_gpu0_disabled.temperature = 50 ∧
      ((read_gpu_data one_failing_tick disabled_gpu_state).gpu_list[1]?).map
        (fun g => (g.enabled, g.utilization, g.temperature)) = some (0, 31, 55) := by
  decide

/-- C11, amended: in a tick of `read_gpu_data` a physical device is read
whatever its `enabled` flag.  A physical device with `enabled = 0` keeps its
metrics if its handle lookup fails; if the lookup succeeds, utilization and
memory are overwritten by each successful read and the temperature is stored
under the same conditions as for an enabled device.  The flag itself is
unchanged. -/
theorem disabled_device_is_read (nvml : Nat → NvmlReads) (s : State) (i : Nat)
    (d : GpuPlugin)
    (hd : s.gpu_list[i]? = some d) (hphys : 0 ≤ d.instance_)
    (hnc : s.composite_gpu ≠ some i) (hdis : d.enabled = 0) :
    ∃ d', (read_gpu_data nvml s).gpu_list[i]? = some d' ∧
      d'.enabled = 0 ∧
      ((nvml i).handle = false → d' = d) ∧
      ((nvml i).handle = true →
        d'.utilization = (nvml i).utilization.getD d.utilization ∧
        d'.total_memory = ((nvml i).memory.map Prod.fst).getD d.total_memory ∧
        d'.used_memory = ((nvml i).memory.map Prod.snd).getD d.used_memory ∧
        d'.temperature =
          if d.show_temperature ≠ 0 ∧ d.sensor_decal = true ∧ d.sensor_temp = true then
            ((nvml i).temperature.map f32_of_nat).getD d.temperature
          else d.temperature) := by
  have hen : ∀ r : NvmlReads, (read_device r d).enabled = d.enabled := by
    intro r
    unfold read_device
    cases r.utilization <;> cases r.memory <;> cases r.temperature <;> simp only [] <;>
      split_ifs <;> rfl
  refine ⟨upd nvml i d, ?_, ?_, ?_, ?_⟩
  · rw [read_gpu_data_other nvml s i hnc, hd]; rfl
  · unfold upd
    split
    · rw [hen, hdis]
    · exact hdis
  · intro hf
    simp [upd, hf]
  · intro ht
    have hu : upd nvml i d = read_device (nvml i) d := by simp [upd, hphys, ht]
    rw [hu]
    exact read_device_fields (nvml i) d

/-- Witness of C11 as amended: the disabled first device of the registry. -/
theorem disabled_device_is_read_witness :
    ∃ d', (read_gpu_data one_failing_tick disabled_gpu_state).gpu_list[1]? = some d' ∧
      d'.enabled = 0 ∧
      ((one_failing_tick 1).handle = false → d' = stale_gpu0_disabled) ∧
      ((one_failing_tick 1).handle = true →
        d'.utilization =
          (one_failing_tick 1).utilization.getD stale_gpu0_disabled.utilization ∧
        d'.total_memory =
          ((one_failing_tick 1).memory.map Prod.fst).getD stale_gpu0_disabled.total_memory ∧
        d'.used_memory =
          ((one_failing_tick 1).memory.map Prod.snd).getD stale_gpu0_disabled.used_memory ∧
        d'.temperature =
          if stale_gpu0_disabled.show_temperature ≠ 0 ∧
              stale_gpu0_disabled.sensor_decal = true ∧
              stale_gpu0_disabled.sensor_temp = true then
            ((one_failing_tick 1).temperature.map f32_of_nat).getD
              stale_gpu0_disabled.temperature
          else stale_gpu0_disabled.temperature) :=
  disabled_device_is_read one_failing_tick disabled_gpu_state 1 stale_gpu0_disabled
    rfl (by decide) (by decide) rfl

theorem read_gpu_data_comp_fields (nvml : Nat → NvmlReads) (s : State) (c : Nat)
    (cg : GpuPlugin)
    (hc : s.composite_gpu = some c) (hcg : s.gpu_list[c]? = some cg)
    (hneg : cg.instance_ < 0) :
    ∃ cg', (read_gpu_data nvml s).gpu_list[c]? = some cg' ∧
      cg'.instance_ = cg.instance_ ∧
      cg'.temperature =
        (((List.range' 0 s.gpu_list.length).filterMap (pick nvml s.gpu_list)).foldl acc
          (reset_stats cg)).temperature := by
  by_cases hn : 1 < s.n_gpus
  · refine ⟨_, read_gpu_data_comp nvml s c cg hc hcg hneg hn, ?_, rfl⟩
    show (List.foldl acc (reset_stats cg) _).instance_ = _
    rw [foldl_acc_instance]
    rfl
  · have hclt := getElem?_lt_of_some _ _ _ hcg
    have h0 : (modify_at s.gpu_list c reset_stats)[c]? = some (reset_stats cg) := by
      rw [modify_at_at _ _ _ _ hcg, List.getElem?_set_self hclt]
    have hlen : (modify_at s.gpu_list c reset_stats).length = s.gpu_list.length :=
      modify_at_length _ _ _
    have hcongr : (List.range' 0 s.gpu_list.length).filterMap
          (pick nvml (modify_at s.gpu_list c reset_stats)) =
        (List.range' 0 s.gpu_list.length).filterMap (pick nvml s.gpu_list) := by
      apply List.filterMap_congr
      intro j _
      by_cases hjc : j = c
      · subst hjc
        rw [pick_neg nvml _ j _ h0 hneg, pick_neg nvml _ j _ hcg hneg]
      · exact pick_congr nvml _ _ j (modify_at_other _ _ _ _ hjc)
    have hloop := read_gpu_loop_comp nvml c (modify_at s.gpu_list c reset_stats).length 0
      (modify_at s.gpu_list c reset_stats) (reset_stats cg) h0 hneg
    rw [hlen, hcongr] at hloop
    refine ⟨_, ?_, ?_, rfl⟩
    · unfold read_gpu_data
      rw [hc]
      simp only
      rw [if_neg hn, hlen]
      exact hloop
    · rw [foldl_acc_instance]
      rfl

theorem processed_eq_any (nvml : Nat → NvmlReads) (s : State) (c : Nat) (cg : GpuPlugin)
    (hc : s.composite_gpu = some c) (hcg : s.gpu_list[c]? = some cg)
    (hneg : cg.instance_ < 0) :
    processed nvml (read_gpu_data nvml s).gpu_list =
      (List.range' 0 s.gpu_list.length).filterMap (pick nvml s.gpu_list) := by
  obtain ⟨cg', hpost, hinst, _⟩ := read_gpu_data_comp_fields nvml s c cg hc hcg hneg
  unfold processed
  rw [read_gpu_data_length]
  apply List.filterMap_congr
  intro j _
  by_cases hjc : j = c
  · subst hjc
    rw [hpost, pick_neg nvml _ j _ hcg hneg]
    simp only
    rw [if_neg]
    rw [hinst]
    omega
  · rw [read_gpu_data_other nvml s j (by rw [hc]; simpa using Ne.symm hjc)]
    unfold pick
    cases s.gpu_list[j]? with
    | none => rfl
    | some g =>
      simp only [Option.map_some', upd_instance]
      unfold upd
      split <;> rfl

theorem spec_round_div_eq_iff (sum n : Nat) (hn : 0 < n) :
    sum / n = spec_round_div sum n ↔ 2 * (sum % n) < n := by
  unfold spec_round_div
  have h2n : 0 < 2 * n := by omega
  have hsplit : 2 * sum + n = 2 * n * (sum / n) + (2 * (sum % n) + n) := by
    have := Nat.div_add_mod sum n
    calc 2 * sum + n = 2 * (n * (sum / n) + sum % n) + n := by rw [this]
      _ = 2 * n * (sum / n) + (2 * (sum % n) + n) := by ring
  have hr : sum % n < n := Nat.mod_lt _ hn
  rw [hsplit, Nat.mul_add_div h2n]
  constructor
  · intro h
    have h0 : (2 * (sum % n) + n) / (2 * n) = 0 := by omega
    have := (Nat.div_eq_zero_iff h2n).mp h0
    omega
  · intro h
    have h0 : (2 * (sum % n) + n) / (2 * n) = 0 := (Nat.div_eq_zero_iff h2n).mpr (by omega)
    omega

/-- C12, counterexample: in the two-device registry with one device read at
utilization 31 and the other failing its handle lookup, the sum is 31 and the
device count 2; `round(31 / 2)` is 16, the composite holds 15. -/
theorem composite_round_counterexample :
    ((read_gpu_data one_failing_tick two_gpu_state).gpu_list[0]?).map
        (fun g => g.utilization) = some 15 ∧
      ((processed one_failing_tick (read_gpu_data one_failing_tick two_gpu_state).gpu_list).map
        (fun g => g.utilization)).sum = 31 ∧
      two_gpu_state.n_gpus = 2 ∧ spec_round_div 31 2 = 16 := by
  decide

/-- C12, amended: for every tick with device count `n > 1` the composite
utilization after the tick is the sum of the stored utilizations of the
processed devices divided by `n` with integer division (rounded down, not to
the nearest integer); it equals `round(sum / n)` exactly when twice the
remainder of the division is less than `n`.  The sum is assumed below
`2^64`. -/
theorem composite_utilization_floor (nvml : Nat → NvmlReads) (s : State) (c : Nat)
    (cg : GpuPlugin)
    (hc : s.composite_gpu = some c) (hcg : s.gpu_list[c]? = some cg)
    (hneg : cg.instance_ < 0) (hn : 1 < s.n_gpus)
    (hU : ((processed nvml (read_gpu_data nvml s).gpu_list).map
            (fun g => g.utilization)).sum < 2 ^ 64) :
    ∃ cg', (read_gpu_data nvml s).gpu_list[c]? = some cg' ∧
      cg'.utilization =
        ((processed nvml (read_gpu_data nvml s).gpu_list).map
          (fun g => g.utilization)).sum / s.n_gpus.toNat ∧
      (cg'.utilization =
          spec_round_div ((processed nvml (read_gpu_data nvml s).gpu_list).map
            (fun g => g.utilization)).sum s.n_gpus.toNat ↔
        2 * (((processed nvml (read_gpu_data nvml s).gpu_list).map
            (fun g => g.utilization)).sum % s.n_gpus.toNat) < s.n_gpus.toNat) := by
  rw [processed_eq nvml s c cg hc hcg hneg hn] at hU ⊢
  have hval : ({ ((List.range' 0 s.gpu_list.length).filterMap (pick nvml s.gpu_list)).foldl acc
                   (reset_stats cg) with
                 utilization :=
                   (((List.range' 0 s.gpu_list.length).filterMap
                      (pick nvml s.gpu_list)).foldl acc
                     (reset_stats cg)).utilization / s.n_gpus.toNat } : GpuPlugin).utilization =
      (((List.range' 0 s.gpu_list.length).filterMap (pick nvml s.gpu_list)).map
        (fun g => g.utilization)).sum / s.n_gpus.toNat := by
    show _ / _ = _
    rw [foldl_acc_utilization _ (reset_stats cg) (by simpa [reset_stats] using hU)]
    simp [reset_stats]
  refine ⟨_, read_gpu_data_comp nvml s c cg hc hcg hneg hn, hval, ?_⟩
  rw [hval]
  exact spec_round_div_eq_iff _ _ (by omega)

/-- Witness of C12 as amended: the tick of the counterexample, 31 / 2 = 15. -/
theorem composite_utilization_floor_witness :
    ∃ cg', (read_gpu_data one_failing_tick two_gpu_state).gpu_list[0]? = some cg' ∧
      cg'.utilization =
        ((processed one_failing_tick (read_gpu_data one_failing_tick two_gpu_state).gpu_list).map
          (fun g => g.utilization)).sum / two_gpu_state.n_gpus.toNat ∧
      (cg'.utilization =
          spec_round_div
            ((processed one_failing_tick
                (read_gpu_data one_failing_tick two_gpu_state).gpu_list).map
              (fun g => g.utilization)).sum two_gpu_state.n_gpus.toNat ↔
        2 * (((processed one_failing_tick
                (read_gpu_data one_failing_tick two_gpu_state).gpu_list).map
              (fun g => g.utilization)).sum % two_gpu_state.n_gpus.toNat) <
          two_gpu_state.n_gpus.toNat) :=
  composite_utilization_floor one_failing_tick two_gpu_state 0 stale_composite
    rfl rfl (by decide) (by decide) (by decide)

/-- C13, counterexample.  First tick: every handle lookup fails, so no
temperature read succeeds; the composite temperature was 60 before the tick
and is 0 after it, not unchanged.  Second tick: both devices are processed,
the only temperature read that succeeds returns 55, the second device keeps
its stored 60; the composite temperature is 60, not 55. -/
theorem composite_temperature_counterexample :
    (two_gpu_state.gpu_list[0]?).map (fun g => g.temperature) = some 60 ∧
      (all_handles_fail_tick 1).temperature = none ∧
      (all_handles_fail_tick 2).temperature = none ∧
      ((read_gpu_data all_handles_fail_tick two_gpu_state).gpu_list[0]?).map
        (fun g => g.temperature) = some 0 ∧
      (one_temperature_tick 1).temperature = some 55 ∧
      (one_temperature_tick 2).temperature = none ∧
      ((read_gpu_data one_temperature_tick two_gpu_state).gpu_list[0]?).map
        (fun g => g.temperature) = some 60 := by
  decide

/-- C13, amended: for every tick with a composite device, the composite
temperature after the tick is the maximum of the temperatures stored after the
tick in the processed devices (the physical devices whose handle lookup
succeeded), whether a device's stored temperature was read in this tick or is
an earlier value; it is 0 when no device was processed, whatever it was before
the tick. -/
theorem composite_temperature_stored_max (nvml : Nat → NvmlReads) (s : State) (c : Nat)
    (cg : GpuPlugin)
    (hc : s.composite_gpu = some c) (hcg : s.gpu_list[c]? = some cg)
    (hneg : cg.instance_ < 0) :
    ∃ cg', (read_gpu_data nvml s).gpu_list[c]? = some cg' ∧
      cg'.temperature =
        ((processed nvml (read_gpu_data nvml s).gpu_list).map
          (fun g => g.temperature)).foldr max 0 ∧
      (processed nvml (read_gpu_data nvml s).gpu_list = [] → cg'.temperature = 0) := by
  obtain ⟨cg', hpost, _, htemp⟩ := read_gpu_data_comp_fields nvml s c cg hc hcg hneg
  have hmax : cg'.temperature =
      ((processed nvml (read_gpu_data nvml s).gpu_list).map
        (fun g => g.temperature)).foldr max 0 := by
    rw [processed_eq_any nvml s c cg hc hcg hneg, htemp, foldl_acc_temperature]
    simp [reset_stats]
  refine ⟨cg', hpost, hmax, ?_⟩
  intro hnil
  rw [hmax, hnil]
  rfl

/-- Witness of C13 as amended: the second tick of the counterexample. -/
theorem composite_temperature_stored_max_witness :
    ∃ cg', (read_gpu_data one_temperature_tick two_gpu_state).gpu_list[0]? = some cg' ∧
      cg'.temperature =
        ((processed one_temperature_tick
            (read_gpu_data one_temperature_tick two_gpu_state).gpu_list).map
          (fun g => g.temperature)).foldr max 0 ∧
      (processed one_temperature_tick
          (read_gpu_data one_temperature_tick two_gpu_state).gpu_list = [] →
        cg'.temperature = 0) :=
  composite_temperature_stored_max one_temperature_tick two_gpu_state 0 stale_composite
    rfl rfl (by decide)

/-! ## The tick keeps the identity of every entry -/

theorem map_set_same {β : Type} (p : GpuPlugin → β) :
    ∀ (l : List GpuPlugin) (i : Nat) (g g' : GpuPlugin), l[i]? = some g → p g' = p g →
      (l.set i g').map p = l.map p := by
  intro l
  induction l with
  | nil => intro i g g' h _; simp at h
  | cons a l ih =>
    intro i g g' h hp
    cases i with
    | zero =>
      simp only [List.getElem?_cons_zero, Option.some.injEq] at h
      subst h
      simp [hp]
    | succ i =>
      simp only [List.getElem?_cons_succ] at h
      simp only [List.set_cons_succ, List.map_cons]
      rw [ih i g g' h hp]

theorem read_device_identity (r : NvmlReads) (g : GpuPlugin) :
    identity_of (read_device r g) = identity_of g := by
  unfold read_device identity_of
  cases r.utilization <;> cases r.memory <;> cases r.temperature <;> simp only [] <;>
    split_ifs <;> rfl

theorem assign_composite_identity (l : List GpuPlugin) (c i : Nat)
    (f : GpuPlugin → GpuPlugin → GpuPlugin)
    (hf : ∀ a b, identity_of (f a b) = identity_of a) :
    (assign_composite l c i f).map identity_of = l.map identity_of := by
  unfold assign_composite
  split
  · rename_i a b ha hb
    exact map_set_same identity_of l c a (f a b) ha (hf a b)
  · rfl

theorem update_composite_identity (l : List GpuPlugin) (c i : Nat) :
    (update_composite l c i).map identity_of = l.map identity_of := by
  unfold update_composite
  simp only
  rw [assign_composite_identity _ _ _ _ (by intro a b; split <;> rfl),
      assign_composite_identity _ _ _ _ (by intro a b; rfl),
      assign_composite_identity _ _ _ _ (by intro a b; rfl),
      assign_composite_identity _ _ _ _ (by intro a b; rfl)]

theorem read_gpu_entry_identity (nvml : Nat → NvmlReads) (comp : Option Nat)
    (l : List GpuPlugin) (i : Nat) :
    (read_gpu_entry nvml comp l i).map identity_of = l.map identity_of := by
  unfold read_gpu_entry
  split
  · rfl
  · rename_i gpu hgpu
    split
    · rfl
    · split
      · rfl
      · have hset : (l.set i (read_device (nvml i) gpu)).map identity_of =
            l.map identity_of :=
          map_set_same identity_of l i gpu _ hgpu (read_device_identity _ _)
        cases comp with
        | none => exact hset
        | some c =>
          simp only
          rw [update_composite_identity, hset]

theorem read_gpu_loop_identity (nvml : Nat → NvmlReads) (comp : Option Nat) :
    ∀ (fuel i : Nat) (l : List GpuPlugin),
      (read_gpu_loop nvml comp fuel i l).map identity_of = l.map identity_of := by
  intro fuel
  induction fuel with
  | zero => intro i l; rfl
  | succ fuel ih =>
    intro i l
    unfold read_gpu_loop
    rw [ih, read_gpu_entry_identity]

theorem modify_at_identity (l : List GpuPlugin) (p : Nat) (f : GpuPlugin → GpuPlugin)
    (hf : ∀ a, identity_of (f a) = identity_of a) :
    (modify_at l p f).map identity_of = l.map identity_of := by
  unfold modify_at
  split
  · rename_i g hg
    exact map_set_same identity_of l p g (f g) hg (hf g)
  · rfl

/-- A tick leaves the name, the index and the composite flag of every entry,
and the order of the entries, as they were. -/
theorem read_gpu_data_identity (nvml : Nat → NvmlReads) (s : State) :
    (read_gpu_data nvml s).gpu_list.map identity_of = s.gpu_list.map identity_of := by
  unfold read_gpu_data
  cases s.composite_gpu with
  | none =>
    simp only
    rw [read_gpu_loop_identity]
  | some c =>
    simp only
    split
    · rw [modify_at_identity _ _ _ (by intro a; rfl), read_gpu_loop_identity,
          modify_at_identity _ _ _ (by intro a; rfl)]
    · rw [read_gpu_loop_identity, modify_at_identity _ _ _ (by intro a; rfl)]

theorem read_gpu_data_globals (nvml : Nat → NvmlReads) (s : State) :
    (read_gpu_data nvml s).composite_gpu = s.composite_gpu ∧
      (read_gpu_data nvml s).n_gpus = s.n_gpus ∧
      (read_gpu_data nvml s).show_panel_labels = s.show_panel_labels ∧
      (read_gpu_data nvml s).text_format = s.text_format ∧
      (read_gpu_data nvml s).gpu_alert = s.gpu_alert := by
  unfold read_gpu_data
  exact ⟨rfl, rfl, rfl, rfl, rfl⟩

/-! ## C19: the composite utilization is bounded by the physical ones -/

theorem processed_cons (nvml : Nat → NvmlReads) (g : GpuPlugin) (l : List GpuPlugin) :
    processed nvml (g :: l) =
      (if 0 ≤ g.instance_ ∧ (nvml 0).handle = true then [g] else []) ++
        processed (fun i => nvml (i + 1)) l := by
  unfold processed
  rw [List.length_cons, List.range'_succ, List.filterMap_cons]
  have hshift : List.range' (0 + 1) l.length = (List.range' 0 l.length).map (fun i => i + 1) := by
    rw [List.range'_eq_map_range, List.range'_eq_map_range, List.map_map]
    apply List.map_congr_left
    intro i _
    simp only [Function.comp]
    omega
  rw [hshift, List.filterMap_map]
  have hfun : ((fun i => match (g :: l)[i]? with
        | some g => if 0 ≤ g.instance_ ∧ (nvml i).handle = true then some g else none
        | none => none) ∘ fun i => i + 1) =
      (fun i => match l[i]? with
        | some g => if 0 ≤ g.instance_ ∧ (nvml (i + 1)).handle = true then some g else none
        | none => none) := by
    funext i
    simp only [Function.comp, List.getElem?_cons_succ]
  rw [hfun]
  simp only [List.getElem?_cons_zero]
  by_cases hcond : 0 ≤ g.instance_ ∧ (nvml 0).handle = true
  · simp only [if_pos hcond, List.singleton_append]
  · simp only [if_neg hcond, List.nil_append]

theorem processed_utilization_le (m : Nat) (l : List GpuPlugin) :
    ∀ nvml : Nat → NvmlReads,
      (∀ g ∈ l, 0 ≤ g.instance_ → g.utilization ≤ m) →
      ((processed nvml l).map (fun g => g.utilization)).sum ≤
        m * l.countP (fun g => decide (0 ≤ g.instance_)) := by
  induction l with
  | nil => intro nvml _; simp [processed]
  | cons g l ih =>
    intro nvml h
    rw [processed_cons, List.map_append, List.sum_append, List.countP_cons]
    have hl := ih (fun i => nvml (i + 1)) (fun x hx => h x (List.mem_cons_of_mem _ hx))
    by_cases hg : 0 ≤ g.instance_
    · have hgu : g.utilization ≤ m := h g (List.mem_cons_self _ _) hg
      have hhead : ((if 0 ≤ g.instance_ ∧ (nvml 0).handle = true then [g] else []).map
          (fun g => g.utilization)).sum ≤ m := by
        split
        · simpa using hgu
        · simp
      have hc1 : (if decide (0 ≤ g.instance_) = true then 1 else 0) = 1 := by simp [hg]
      rw [hc1, Nat.mul_add, Nat.mul_one]
      omega
    · have hhead : ((if 0 ≤ g.instance_ ∧ (nvml 0).handle = true then [g] else []).map
          (fun g => g.utilization)).sum = 0 := by
        rw [if_neg (fun hc => hg hc.1)]
        rfl
      have hc0 : (if decide (0 ≤ g.instance_) = true then 1 else 0) = 0 := by simp [hg]
      rw [hc0, Nat.add_zero]
      omega

theorem countP_phys_identity (l l' : List GpuPlugin)
    (h : l'.map identity_of = l.map identity_of) :
    l'.countP (fun g => decide (0 ≤ g.instance_)) =
      l.countP (fun g => decide (0 ≤ g.instance_)) := by
  have e : ∀ x : List GpuPlugin, x.countP (fun g => decide (0 ≤ g.instance_)) =
      (x.map identity_of).countP (fun k => decide (0 ≤ k.2.1)) := by
    intro x
    rw [List.countP_map]
    rfl
  rw [e l', e l, h]

/-- C19: for every tick with a composite device and device count `n > 1`
(`n` a `gint`, and at least the number of physical entries of the registry),
if after the tick every physical device's stored utilization is at most `m`,
where `m ≤ 100`, then the composite utilization produced by the tick is at most
`m`: at most 100, and at most the largest physical utilization, whichever
handle lookups failed. -/
theorem composite_utilization_bounded (nvml : Nat → NvmlReads) (s : State) (c : Nat)
    (cg : GpuPlugin) (m : Nat)
    (hc : s.composite_gpu = some c) (hcg : s.gpu_list[c]? = some cg)
    (hneg : cg.instance_ < 0) (hn : 1 < s.n_gpus) (hgint : s.n_gpus < 2 ^ 31)
    (hcount : s.gpu_list.countP (fun g => decide (0 ≤ g.instance_)) ≤ s.n_gpus.toNat)
    (hm : m ≤ 100)
    (hall : ∀ g ∈ (read_gpu_data nvml s).gpu_list, 0 ≤ g.instance_ → g.utilization ≤ m) :
    ∃ cg', (read_gpu_data nvml s).gpu_list[c]? = some cg' ∧ cg'.utilization ≤ m := by
  have hsum := processed_utilization_le m (read_gpu_data nvml s).gpu_list nvml hall
  rw [countP_phys_identity _ _ (read_gpu_data_identity nvml s)] at hsum
  have hnpos : 0 < s.n_gpus.toNat := by omega
  have hnlt : s.n_gpus.toNat < 2 ^ 31 := by omega
  have hmul : m * s.gpu_list.countP (fun g => decide (0 ≤ g.instance_)) ≤
      s.n_gpus.toNat * m := by
    rw [Nat.mul_comm]
    exact Nat.mul_le_mul_right m hcount
  have hbig : s.n_gpus.toNat * m ≤ 2 ^ 31 * 100 := Nat.mul_le_mul (by omega) hm
  rw [processed_eq nvml s c cg hc hcg hneg hn] at hsum
  refine ⟨_, read_gpu_data_comp nvml s c cg hc hcg hneg hn, ?_⟩
  show _ / _ ≤ m
  rw [foldl_acc_utilization _ (reset_stats cg) (by simp only [reset_stats]; omega)]
  simp only [reset_stats, Nat.zero_add]
  exact Nat.div_le_of_le_mul (by omega)

/-- Witness of C19: the two-device registry, one handle lookup failing; the
physical utilizations after the tick are 31 and 70, the composite holds 15. -/
theorem composite_utilization_bounded_witness :
    ∃ cg', (read_gpu_data one_failing_tick two_gpu_state).gpu_list[0]? = some cg' ∧
      cg'.utilization ≤ 70 :=
  composite_utilization_bounded one_failing_tick two_gpu_state 0 stale_composite 70
    rfl rfl (by decide) (by decide) (by decide) (by decide) (by decide) (by decide)

/-! ## C17: label and index -/

theorem format_token_L (hostname : List Char) (gpu : GpuPlugin) (u mu mt mf size : Int)
    (pos : Nat) (b : FmtBuf) :
    format_token hostname gpu u mu mt mf 'L' size pos b =
      (snprintf b pos size.toNat gpu.label, (gpu.label.length : Int)) := by
  unfold format_token
  simp

theorem format_token_N (hostname : List Char) (gpu : GpuPlugin) (u mu mt mf size : Int)
    (pos : Nat) (b : FmtBuf) :
    format_token hostname gpu u mu mt mf 'N' size pos b =
      (snprintf b pos size.toNat (fmt_d gpu.instance_),
       ((fmt_d gpu.instance_).length : Int)) := by
  unfold format_token
  simp

theorem format_label_index_buf (hostname : List Char) (indef : Int) (gpu : GpuPlugin)
    (arr : List Char) (size : Int)
    (hlen : (arr.length : Int) = size)
    (hfit : (gpu.label ++ ':' :: fmt_d gpu.instance_).length + 2 ≤ arr.length) :
    format_gpu_data hostname indef gpu (some ['$', 'L', ':', '$', 'N']) (some arr) size =
      { buf := (gpu.label ++ ':' :: fmt_d gpu.instance_) ++
          NUL :: arr.drop ((gpu.label ++ ':' :: fmt_d gpu.instance_).length + 1),
        oob := [] } := by
  cases arr with
  | nil => simp at hfit
  | cons a arr =>
    subst hlen
    simp only [List.length_append, List.length_cons] at hfit
    have e : (((a :: arr).length : Nat) : Int) - 1 = ((arr.length : Nat) : Int) := by simp
    have hb0 : poke { buf := a :: arr, oob := [] } 0 NUL = { buf := NUL :: arr, oob := [] } :=
      poke_append [] arr a NUL []
    unfold format_gpu_data
    simp only
    rw [if_neg (by simp), e, hb0]
    -- the token `$L`
    unfold format_loop
    rw [if_neg (by omega)]
    simp only [if_true]
    rw [format_token_L]
    have hs1 := snprintf_fits [] (NUL :: arr) gpu.label [] arr.length
      (by omega) (by simp only [List.length_cons]; omega)
    simp only [List.length_nil, List.nil_append] at hs1
    simp only [Int.toNat_ofNat, Nat.zero_add]
    rw [hs1]
    -- the literal `:`
    unfold format_loop
    rw [if_neg (by omega)]
    simp only
    rw [if_neg (by decide)]
    have hd1 : (NUL :: arr).drop (gpu.label.length + 1) = arr.drop gpu.label.length := by simp
    rw [hd1]
    obtain ⟨x, rest, hx⟩ : ∃ x rest, arr.drop gpu.label.length = x :: rest := by
      cases hd : arr.drop gpu.label.length with
      | nil =>
        have := List.drop_eq_nil_iff.mp hd
        omega
      | cons x rest => exact ⟨x, rest, rfl⟩
    have hrest : rest.length = arr.length - gpu.label.length - 1 := by
      have := congrArg List.length hx
      simp only [List.length_drop, List.length_cons] at this
      omega
    rw [poke_append gpu.label _ NUL ':' []]
    -- the token `$N`
    unfold format_loop
    rw [if_neg (by omega)]
    simp only [if_true]
    rw [format_token_N]
    have e2 : gpu.label ++ ':' :: (x :: rest) = (gpu.label ++ [':']) ++ (x :: rest) := by simp
    have e3 : gpu.label.length + 1 = (gpu.label ++ [':']).length := by simp
    have e4 : (((arr.length : Nat) : Int) - (gpu.label.length : Int) - 1).toNat =
        arr.length - gpu.label.length - 1 := by omega
    rw [hx, e2, e3, e4]
    rw [snprintf_fits (gpu.label ++ [':']) (x :: rest) (fmt_d gpu.instance_) []
          (arr.length - gpu.label.length - 1) (by omega)
          (by simp only [List.length_cons]; omega)]
    unfold format_loop
    simp only [Int.toNat_ofNat]
    have e5 : (gpu.label ++ [':']).length + (fmt_d gpu.instance_).length =
        (gpu.label ++ [':'] ++ fmt_d gpu.instance_).length := by
      rw [List.length_append (gpu.label ++ [':'])]
    rw [e5, poke_append]
    have hdrop : (a :: arr).drop (gpu.label.length + ((fmt_d gpu.instance_).length + 1) + 1) =
        (x :: rest).drop ((fmt_d gpu.instance_).length + 1) := by
      rw [← hx, List.drop_drop]
      simp only [List.drop_succ_cons]
    simp only [List.length_append, List.length_cons, List.append_assoc, List.singleton_append,
      List.cons_append, List.nil_append, FmtBuf.mk.injEq, and_true]
    rw [hdrop]

/-- C17: for every device (its label a C string) and every array with room
for the result, its terminator and one more byte, the template "$L:$N" yields
the label, then ':', then the signed decimal rendering of the index, and no
write falls outside the array; the label "GPU0" with index 0 gives
"GPU0:0". -/
theorem format_label_index (hostname : List Char) (indef : Int) (gpu : GpuPlugin)
    (arr : List Char) (size : Int)
    (hlen : (arr.length : Int) = size)
    (hlabel : ∀ c ∈ gpu.label, c ≠ NUL)
    (hfit : (gpu.label ++ ':' :: fmt_d gpu.instance_).length + 2 ≤ arr.length) :
    formatted hostname indef gpu "$L:$N".toList arr size =
        gpu.label ++ ':' :: fmt_d gpu.instance_ ∧
      (format_gpu_data hostname indef gpu (some "$L:$N".toList) (some arr) size).oob = [] ∧
      (gpu.label = "GPU0".toList → gpu.instance_ = 0 →
        formatted hostname indef gpu "$L:$N".toList arr size = "GPU0:0".toList) := by
  have hbuf := format_label_index_buf hostname indef gpu arr size hlen hfit
  have hnn : ∀ c ∈ gpu.label ++ ':' :: fmt_d gpu.instance_, c ≠ NUL := by
    intro c hc
    rcases List.mem_append.mp hc with h | h
    · exact hlabel c h
    · rcases List.mem_cons.mp h with h | h
      · rw [h]; decide
      · exact fmt_d_ne_NUL _ c h
  have hstr : formatted hostname indef gpu "$L:$N".toList arr size =
      gpu.label ++ ':' :: fmt_d gpu.instance_ := by
    unfold formatted
    show c_string (format_gpu_data hostname indef gpu (some ['$', 'L', ':', '$', 'N'])
      (some arr) size).buf = _
    rw [hbuf]
    exact c_string_append _ _ hnn
  refine ⟨hstr, ?_, ?_⟩
  · show (format_gpu_data hostname indef gpu (some ['$', 'L', ':', '$', 'N'])
      (some arr) size).oob = _
    rw [hbuf]
  · intro h1 h2
    rw [hstr, h1, h2]
    decide

/-- Witness of C17: the device "GPU0" with index 0 in an array of 16 bytes. -/
theorem format_label_index_witness :
    formatted [] 0 (sample_gpu 0 0 0) "$L:$N".toList (List.replicate 16 'x') 16 =
        (sample_gpu 0 0 0).label ++ ':' :: fmt_d (sample_gpu 0 0 0).instance_ ∧
      (format_gpu_data [] 0 (sample_gpu 0 0 0) (some "$L:$N".toList)
        (some (List.replicate 16 'x')) 16).oob = [] ∧
      ((sample_gpu 0 0 0).label = "GPU0".toList → (sample_gpu 0 0 0).instance_ = 0 →
        formatted [] 0 (sample_gpu 0 0 0) "$L:$N".toList (List.replicate 16 'x') 16 =
          "GPU0:0".toList) :=
  format_label_index [] 0 (sample_gpu 0 0 0) (List.replicate 16 'x') 16
    (by decide) (by decide) (by decide)

/-! ## C16: unknown directives -/

theorem sscanf_word_rest_item_length (arg config item : List Char)
    (h : sscanf_word_rest arg = (some config, some item)) : item.length ≤ arg.length := by
  unfold sscanf_word_rest at h
  cases hs : scan_s 31 arg with
  | none => rw [hs] at h; simp at h
  | some r =>
    rw [hs] at h
    simp only [Prod.mk.injEq, Option.some.injEq] at h
    have hr : r.2.length ≤ arg.length := by
      unfold scan_s at hs
      simp only at hs
      split at hs
      · cases hs
      · cases hs
        simp only [List.length_drop]
        have := (List.dropWhile_sublist (l := arg) is_space).length_le
        omega
    have hi := h.2
    unfold scan_to_newline at hi
    split at hi
    · cases hi
    · cases hi
      have h1 := (List.takeWhile_sublist (l := r.2.dropWhile is_space)
        (fun c => decide (c ≠ '\n'))).length_le
      have h2 := (List.dropWhile_sublist (l := r.2) is_space).length_le
      omega

/-- C16: for every configuration line of at most 511 characters (the host
reads lines into a 512-byte array) whose first word, as `%31s` reads it, is
not one of `show_panel_labels`, `text_format`, `enabled`, `extra_info`,
`launch`, `tooltip_comment` or the alert-config keyword, `load_gpu_config`
returns with the whole state unchanged. -/
theorem load_unknown_directive (alert_keyword : List Char) (locals : Locals)
    (arg : List Char) (s : State)
    (hlen : arg.length ≤ 511)
    (hunknown : ∀ config, (sscanf_word_rest arg).1 = some config →
      config ≠ "show_panel_labels".toList ∧ config ≠ "text_format".toList ∧
      config ≠ "enabled".toList ∧ config ≠ "extra_info".toList ∧
      config ≠ "launch".toList ∧ config ≠ "tooltip_comment".toList ∧
      config ≠ alert_keyword) :
    load_gpu_config alert_keyword locals arg s = some s := by
  unfold load_gpu_config
  cases hsc : sscanf_word_rest arg with
  | mk c i =>
    cases c with
    | none => rfl
    | some config =>
      cases i with
      | none => rfl
      | some item =>
        have hi := sscanf_word_rest_item_length arg config item hsc
        obtain ⟨h1, h2, h3, h4, h5, h6, h7⟩ := hunknown config (by rw [hsc])
        simp only
        rw [if_neg (by omega), if_neg h1, if_neg h2, if_neg h3, if_neg h7, if_neg h4,
          if_neg h5, if_neg h6]

/-- Witness of C16: the line "update_interval 5" on the two-device registry. -/
theorem load_unknown_directive_witness :
    unknown_line.length ≤ 511 ∧
      (sscanf_word_rest unknown_line).1 = some "update_interval".toList ∧
      load_gpu_config "alert_config".toList empty_locals unknown_line two_gpu_state =
        some two_gpu_state :=
  ⟨by decide, by decide,
    load_unknown_directive "alert_config".toList empty_locals unknown_line two_gpu_state
      (by decide) (by
        intro config h
        have e : config = "update_interval".toList := by
          have h' : (sscanf_word_rest unknown_line).1 = some "update_interval".toList := by
            decide
          rw [h'] at h
          exact (Option.some.inj h).symm
        subst e
        decide)⟩

/-! ## C18: the alert check and the composite -/

theorem alert_checks_mem (second_tick : Bool) :
    ∀ (l : List GpuPlugin) (i : Nat) (ev : Nat × Nat), ev ∈ alert_checks second_tick i l →
      i ≤ ev.1 ∧ ∃ g, l[ev.1 - i]? = some g ∧ g.is_composite = 0 ∧ g.alert = true := by
  intro l
  induction l with
  | nil => intro i ev h; simp [alert_checks] at h
  | cons a l ih =>
    intro i ev h
    unfold alert_checks at h
    rcases List.mem_append.mp h with h | h
    · split at h
      · rename_i hc
        have e : ev = (i, f32_of_nat a.utilization) := by simpa using h
        subst e
        exact ⟨Nat.le_refl _, a, by simp, hc.2.2.2, hc.2.2.1⟩
      · simp at h
    · obtain ⟨hle, g, hg, hc, ha⟩ := ih (i + 1) ev h
      refine ⟨by omega, g, ?_, hc, ha⟩
      have e : ev.1 - i = (ev.1 - (i + 1)) + 1 := by omega
      rw [e, List.getElem?_cons_succ]
      exact hg

theorem identity_getElem? (l l' : List GpuPlugin)
    (h : l'.map identity_of = l.map identity_of) (i : Nat) (g' : GpuPlugin)
    (hg : l'[i]? = some g') :
    ∃ g, l[i]? = some g ∧ identity_of g = identity_of g' := by
  have e : (l'.map identity_of)[i]? = (l.map identity_of)[i]? := by rw [h]
  rw [List.getElem?_map, List.getElem?_map, hg] at e
  cases hl : l[i]? with
  | none => rw [hl] at e; simp at e
  | some g =>
    rw [hl] at e
    simp only [Option.map_some', Option.some.injEq] at e
    exact ⟨g, rfl, e.symm⟩

theorem update_checks_physical (nvml : Nat → NvmlReads) (second_tick : Bool) (s : State)
    (ev : Nat × Nat) (h : ev ∈ (update_gpu_plugin nvml second_tick s).2) :
    ∃ g, s.gpu_list[ev.1]? = some g ∧ g.is_composite = 0 := by
  unfold update_gpu_plugin at h
  obtain ⟨_, g', hg', hc, _⟩ := alert_checks_mem second_tick _ 0 ev h
  obtain ⟨g, hg, hid⟩ := identity_getElem? s.gpu_list _ (read_gpu_data_identity nvml s)
    (ev.1 - 0) g' hg'
  refine ⟨g, by simpa using hg, ?_⟩
  have : g.is_composite = g'.is_composite := congrArg (fun k => k.2.2) hid
  rw [this, hc]

/-- C18: in an update cycle of `update_gpu_plugin` on any registry, also one
on which `cb_alert_config` has just given every entry a copy of the alert
template, `gkrellm_check_alert` is not called for an entry whose composite
flag is set, whatever its utilization; every call is for an entry without
the composite flag. -/
theorem alert_check_skips_composite (nvml : Nat → NvmlReads) (second_tick : Bool)
    (s : State) (i : Nat) (g : GpuPlugin)
    (hg : s.gpu_list[i]? = some g) (hcomp : g.is_composite ≠ 0) :
    (∀ u, (i, u) ∉ (update_gpu_plugin nvml second_tick s).2) ∧
      (∀ u, (i, u) ∉ (update_gpu_plugin nvml second_tick (cb_alert_config s)).2) ∧
      (∀ ev ∈ (update_gpu_plugin nvml second_tick (cb_alert_config s)).2,
        ∃ g', s.gpu_list[ev.1]? = some g' ∧ g'.is_composite = 0) := by
  have hcb : ∀ (j : Nat) (x : GpuPlugin), (cb_alert_config s).gpu_list[j]? = some x →
      ∃ y, s.gpu_list[j]? = some y ∧ y.is_composite = x.is_composite := by
    intro j x hx
    unfold cb_alert_config at hx
    simp only [List.getElem?_map] at hx
    cases hy : s.gpu_list[j]? with
    | none => rw [hy] at hx; simp at hx
    | some y =>
      rw [hy] at hx
      simp only [Option.map_some', Option.some.injEq] at hx
      exact ⟨y, rfl, by rw [← hx]⟩
  refine ⟨?_, ?_, ?_⟩
  · intro u hmem
    obtain ⟨g', hg', hc⟩ := update_checks_physical nvml second_tick s (i, u) hmem
    rw [hg] at hg'
    cases hg'
    exact hcomp hc
  · intro u hmem
    obtain ⟨x, hx, hc⟩ := update_checks_physical nvml second_tick (cb_alert_config s) (i, u) hmem
    obtain ⟨y, hy, hyc⟩ := hcb i x hx
    rw [hg] at hy
    cases hy
    exact hcomp (by rw [hyc, hc])
  · intro ev hmem
    obtain ⟨x, hx, hc⟩ := update_checks_physical nvml second_tick (cb_alert_config s) ev hmem
    obtain ⟨y, hy, hyc⟩ := hcb ev.1 x hx
    exact ⟨y, hy, by rw [hyc, hc]⟩

/-- Witness of C18: on the two-device registry with the alert template copied
to all three entries, the cycle checks the two devices and not the composite. -/
theorem alert_check_skips_composite_witness :
    (update_gpu_plugin one_failing_tick true
        (cb_alert_config (create_alert two_gpu_state))).2 = [(1, 31), (2, 70)] ∧
      ((∀ u, (0, u) ∉ (update_gpu_plugin one_failing_tick true
          (create_alert two_gpu_state)).2) ∧
        (∀ u, (0, u) ∉ (update_gpu_plugin one_failing_tick true
          (cb_alert_config (create_alert two_gpu_state))).2) ∧
        (∀ ev ∈ (update_gpu_plugin one_failing_tick true
            (cb_alert_config (create_alert two_gpu_state))).2,
          ∃ g', (create_alert two_gpu_state).gpu_list[ev.1]? = some g' ∧
            g'.is_composite = 0)) :=
  ⟨by decide,
    alert_check_skips_composite one_failing_tick true (create_alert two_gpu_state) 0
      stale_composite rfl (by decide)⟩

/-! ## Decimal digits can be read back -/

theorem digit_value_digitChar (k : Nat) (h : k < 10) : digit_value (Nat.digitChar k) = k := by
  interval_cases k <;> rfl

theorem digits_value_toDigitsCore :
    ∀ (fuel n : Nat) (ds : List Char), n < fuel →
      (Nat.toDigitsCore 10 fuel n ds).foldl (fun a c => 10 * a + digit_value c) 0 =
        ds.foldl (fun a c => 10 * a + digit_value c) n := by
  intro fuel
  induction fuel with
  | zero => intro n ds h; omega
  | succ fuel ih =>
    intro n ds h
    unfold Nat.toDigitsCore
    simp only
    split
    · rename_i h0
      have hn : n % 10 = n := by omega
      simp only [List.foldl_cons, Nat.mul_zero, Nat.zero_add]
      rw [digit_value_digitChar _ (Nat.mod_lt _ (by decide)), hn]
    · rename_i h0
      rw [ih (n / 10) _ (by omega)]
      simp only [List.foldl_cons]
      rw [digit_value_digitChar _ (Nat.mod_lt _ (by decide))]
      have : 10 * (n / 10) + n % 10 = n := Nat.div_add_mod n 10
      rw [this]

/-- Reading the decimal rendering of `n` gives `n` back. -/
theorem digits_value_toDigits (n : Nat) : digits_value (Nat.toDigits 10 n) = n := by
  unfold digits_value Nat.toDigits
  rw [digits_value_toDigitsCore (n + 1) n [] (by omega)]
  rfl

theorem toDigits_injective (a b : Nat) (h : Nat.toDigits 10 a = Nat.toDigits 10 b) : a = b := by
  have := congrArg digits_value h
  rwa [digits_value_toDigits, digits_value_toDigits] at this

theorem toDigitsCore_ne_nil (b : Nat) :
    ∀ (fuel n : Nat) (ds : List Char), ds ≠ [] ∨ 0 < fuel →
      Nat.toDigitsCore b fuel n ds ≠ [] := by
  intro fuel
  induction fuel with
  | zero =>
    intro n ds h
    rcases h with h | h
    · simpa [Nat.toDigitsCore] using h
    · omega
  | succ fuel ih =>
    intro n ds _
    unfold Nat.toDigitsCore
    simp only
    split
    · simp
    · exact ih _ _ (Or.inl (by simp))

theorem toDigits_ne_nil (n : Nat) : Nat.toDigits 10 n ≠ [] := by
  unfold Nat.toDigits
  exact toDigitsCore_ne_nil 10 _ _ _ (Or.inr (by omega))

/-! ## C14: the registry keeps its entries -/

theorem set_by_name_identity (l : List GpuPlugin) (gpu_name : List Char)
    (f : GpuPlugin → GpuPlugin) (hf : ∀ a, identity_of (f a) = identity_of a) :
    (set_by_name l gpu_name f).map identity_of = l.map identity_of := by
  unfold set_by_name
  rw [List.map_map]
  apply List.map_congr_left
  intro a _
  simp only [Function.comp]
  split
  · exact hf a
  · rfl

/-- Where `load_gpu_config` returns, the registry has the same entries in the
same order with the same name, index and composite flag, and the device count
and the composite pointer are unchanged. -/
theorem load_gpu_config_identity (alert_keyword : List Char) (locals : Locals)
    (arg : List Char) (s s' : State)
    (h : load_gpu_config alert_keyword locals arg s = some s') :
    s'.gpu_list.map identity_of = s.gpu_list.map identity_of ∧
      s'.n_gpus = s.n_gpus ∧ s'.composite_gpu = s.composite_gpu := by
  unfold load_gpu_config at h
  split at h
  · split at h
    · cases h
    · split at h
      · split at h <;> cases h <;> exact ⟨rfl, rfl, rfl⟩
      · split at h
        · cases h; exact ⟨rfl, rfl, rfl⟩
        · split at h
          · cases h
            refine ⟨set_by_name_identity _ _ _ ?_, rfl, rfl⟩
            intro a; split <;> rfl
          · split at h
            · cases h
              refine ⟨?_, rfl, rfl⟩
              unfold cb_alert_config create_alert
              simp only [List.map_map]
              apply List.map_congr_left
              intro a _
              rfl
            · split at h
              · cases h
                refine ⟨set_by_name_identity _ _ _ ?_, rfl, rfl⟩
                intro a; split <;> rfl
              · split at h
                · cases h
                  exact ⟨set_by_name_identity _ _ _ (fun a => rfl), rfl, rfl⟩
                · split at h
                  · cases h
                    exact ⟨set_by_name_identity _ _ _ (fun a => rfl), rfl, rfl⟩
                  · cases h; exact ⟨rfl, rfl, rfl⟩
  · cases h; exact ⟨rfl, rfl, rfl⟩

/-- On a line of at most 511 characters `load_gpu_config` returns. -/
theorem load_gpu_config_returns (alert_keyword : List Char) (locals : Locals)
    (arg : List Char) (s : State) (hlen : arg.length ≤ 511) :
    ∃ s', load_gpu_config alert_keyword locals arg s = some s' := by
  unfold load_gpu_config
  cases hsc : sscanf_word_rest arg with
  | mk c i =>
    cases c with
    | none => exact ⟨s, rfl⟩
    | some config =>
      cases i with
      | none => exact ⟨s, rfl⟩
      | some item =>
        have hi := sscanf_word_rest_item_length arg config item hsc
        simp only
        rw [if_neg (by omega)]
        split_ifs
        · split <;> exact ⟨_, rfl⟩
        all_goals exact ⟨_, rfl⟩

theorem run_steps_identity (alert_keyword : List Char) :
    ∀ (steps : List Step) (s : State),
      (∀ locals arg, Step.load locals arg ∈ steps → arg.length ≤ 511) →
      ∃ s', run_steps alert_keyword steps s = some s' ∧
        s'.gpu_list.map identity_of = s.gpu_list.map identity_of ∧
        s'.n_gpus = s.n_gpus ∧ s'.composite_gpu = s.composite_gpu := by
  intro steps
  induction steps with
  | nil => intro s _; exact ⟨s, rfl, rfl, rfl, rfl⟩
  | cons st rest ih =>
    intro s h
    have hrest : ∀ locals arg, Step.load locals arg ∈ rest → arg.length ≤ 511 :=
      fun locals arg hm => h locals arg (List.mem_cons_of_mem _ hm)
    cases st with
    | tick nvml =>
      obtain ⟨s', hrun, hid, hn, hc⟩ := ih (read_gpu_data nvml s) hrest
      refine ⟨s', ?_, ?_, ?_, ?_⟩
      · simp only [run_steps, run_step]
        exact hrun
      · rw [hid, read_gpu_data_identity]
      · rw [hn, (read_gpu_data_globals nvml s).2.1]
      · rw [hc, (read_gpu_data_globals nvml s).1]
    | load locals arg =>
      obtain ⟨s1, hs1⟩ := load_gpu_config_returns alert_keyword locals arg s
        (h locals arg (List.mem_cons_self _ _))
      obtain ⟨hid1, hn1, hc1⟩ := load_gpu_config_identity alert_keyword locals arg s s1 hs1
      obtain ⟨s', hrun, hid, hn, hc⟩ := ih s1 hrest
      refine ⟨s', ?_, ?_, ?_, ?_⟩
      · simp only [run_steps, run_step, hs1]
        exact hrun
      · rw [hid, hid1]
      · rw [hn, hn1]
      · rw [hc, hc1]

theorem names_of_identity (l l' : List GpuPlugin)
    (h : l'.map identity_of = l.map identity_of) :
    l'.map (fun g => g.name) = l.map (fun g => g.name) := by
  have e : ∀ x : List GpuPlugin, x.map (fun g => g.name) =
      (x.map identity_of).map (fun k => k.1) := by
    intro x
    rw [List.map_map]
    rfl
  rw [e l', e l, h]

theorem composites_of_identity (l l' : List GpuPlugin)
    (h : l'.map identity_of = l.map identity_of) :
    l'.countP (fun g => decide (g.is_composite ≠ 0)) =
      l.countP (fun g => decide (g.is_composite ≠ 0)) := by
  have e : ∀ x : List GpuPlugin, x.countP (fun g => decide (g.is_composite ≠ 0)) =
      (x.map identity_of).countP (fun k => decide (k.2.2 ≠ 0)) := by
    intro x
    rw [List.countP_map]
    rfl
  rw [e l', e l, h]

theorem setup_names (n : Nat) :
    ((if 1 < n then [new_composite] else []) ++
        (List.range n).map (fun k : Nat => new_device (k : Int))).map (fun g => g.name) =
      (if 1 < n then ["gpu".toList] else []) ++
        (List.range n).map (fun i => "gpu".toList ++ Nat.toDigits 10 i) := by
  have h1 : (if 1 < n then [new_composite] else []).map (fun g => g.name) =
      (if 1 < n then ["gpu".toList] else []) := by
    split <;> rfl
  have h2 : ((List.range n).map (fun k : Nat => new_device (k : Int))).map (fun g => g.name) =
      (List.range n).map (fun i => "gpu".toList ++ Nat.toDigits 10 i) := by
    rw [List.map_map]
    apply List.map_congr_left
    intro k _
    show "gpu".toList ++ fmt_d (k : Int) = _
    rw [fmt_d_natCast]
  rw [List.map_append, h1, h2]

theorem setup_names_nodup (n : Nat) :
    ((if 1 < n then ["gpu".toList] else []) ++
        (List.range n).map (fun i => "gpu".toList ++ Nat.toDigits 10 i)).Nodup := by
  have hinj : Function.Injective (fun i : Nat => "gpu".toList ++ Nat.toDigits 10 i) := by
    intro a b h
    exact toDigits_injective a b (List.append_cancel_left h)
  have hmap : ((List.range n).map (fun i => "gpu".toList ++ Nat.toDigits 10 i)).Nodup :=
    (List.nodup_range n).map hinj
  split
  · rw [List.singleton_append, List.nodup_cons]
    refine ⟨?_, hmap⟩
    intro hmem
    obtain ⟨i, _, hi⟩ := List.mem_map.mp hmem
    have : Nat.toDigits 10 i = [] := by
      have h2 : "gpu".toList ++ Nat.toDigits 10 i = "gpu".toList ++ [] := by
        rw [List.append_nil]; exact hi
      exact List.append_cancel_left h2
    exact toDigits_ne_nil i this
  · rw [List.nil_append]
    exact hmap

theorem setup_composites (n : Nat) :
    ((if 1 < n then [new_composite] else []) ++
        (List.range n).map (fun k : Nat => new_device (k : Int))).countP
      (fun g => decide (g.is_composite ≠ 0)) = if 1 < n then 1 else 0 := by
  have hdev : ((List.range n).map (fun k : Nat => new_device (k : Int))).countP
      (fun g => decide (g.is_composite ≠ 0)) = 0 := by
    rw [List.countP_eq_zero]
    intro g hg
    obtain ⟨k, _, hk⟩ := List.mem_map.mp hg
    rw [← hk]
    show ¬ decide ((0 : Int) ≠ 0) = true
    decide
  rw [List.countP_append, hdev]
  split
  · decide
  · rfl

/-- C14: after a successful `setup_gpu_interface` on an empty registry (device
count `n ≥ 0` as held by `n_gpus`), every sequence of ticks and loads of
configuration lines (each of at most 511 characters, as the host delivers
them) runs to a state in which the registry has the same entries in the same
order with the same name, index and composite flag as at setup; the names are
"gpu" (for `n > 1`), "gpu0", …, "gpu<n-1>" and pairwise distinct, at most one
entry is a composite, and there is a composite exactly when `n > 1`. -/
theorem registry_invariant (alert_keyword : List Char) (count n : Nat) (s0 : State)
    (steps : List Step)
    (hempty : s0.gpu_list = []) (hn : to_gint (count % 2 ^ 32) = n)
    (hlines : ∀ locals arg, Step.load locals arg ∈ steps → arg.length ≤ 511) :
    ∃ s', run_steps alert_keyword steps (setup_gpu_interface true (some count) s0).2 = some s' ∧
      s'.gpu_list.map identity_of =
        (setup_gpu_interface true (some count) s0).2.gpu_list.map identity_of ∧
      s'.n_gpus = n ∧
      s'.gpu_list.map (fun g => g.name) =
        (if 1 < n then ["gpu".toList] else []) ++
          (List.range n).map (fun i => "gpu".toList ++ Nat.toDigits 10 i) ∧
      (s'.gpu_list.map (fun g => g.name)).Nodup ∧
      s'.gpu_list.countP (fun g => decide (g.is_composite ≠ 0)) ≤ 1 ∧
      ((∃ g ∈ s'.gpu_list, g.is_composite ≠ 0) ↔ 1 < n) := by
  obtain ⟨s', hrun, hid, hng, _⟩ := run_steps_identity alert_keyword steps
    (setup_gpu_interface true (some count) s0).2 hlines
  have hsetup := setup_gpu_interface_eq count n s0 hempty hn
  have hlist : (setup_gpu_interface true (some count) s0).2.gpu_list =
      (if 1 < n then [new_composite] else []) ++
        (List.range n).map (fun k : Nat => new_device (k : Int)) := by
    rw [hsetup]
  have hnames : s'.gpu_list.map (fun g => g.name) =
      (if 1 < n then ["gpu".toList] else []) ++
        (List.range n).map (fun i => "gpu".toList ++ Nat.toDigits 10 i) := by
    rw [names_of_identity _ _ hid, hlist, setup_names]
  have hcount : s'.gpu_list.countP (fun g => decide (g.is_composite ≠ 0)) =
      if 1 < n then 1 else 0 := by
    rw [composites_of_identity _ _ hid, hlist, setup_composites]
  refine ⟨s', hrun, hid, ?_, hnames, ?_, ?_, ?_⟩
  · rw [hng, hsetup]
  · rw [hnames]
    exact setup_names_nodup n
  · rw [hcount]
    split <;> omega
  · constructor
    · intro ⟨g, hg, hc⟩
      by_contra hlt
      have hz : s'.gpu_list.countP (fun g => decide (g.is_composite ≠ 0)) = 0 := by
        rw [hcount, if_neg hlt]
      rw [List.countP_eq_zero] at hz
      exact absurd (by simpa using hc) (hz g hg)
    · intro hlt
      have hpos : 0 < s'.gpu_list.countP (fun g => decide (g.is_composite ≠ 0)) := by
        rw [hcount, if_pos hlt]
        omega
      obtain ⟨g, hg, hc⟩ := List.countP_pos_iff.mp hpos
      exact ⟨g, hg, by simpa using hc⟩

/-- Witness of C14: two devices, then a line disabling "gpu0", a tick and a
line without a value. -/
theorem registry_invariant_witness :
    ∃ s', run_steps "alert_config".toList sample_steps
          (setup_gpu_interface true (some 2) State.init).2 = some s' ∧
      s'.gpu_list.map identity_of =
        (setup_gpu_interface true (some 2) State.init).2.gpu_list.map identity_of ∧
      s'.n_gpus = (2 : Nat) ∧
      s'.gpu_list.map (fun g => g.name) =
        (if 1 < 2 then ["gpu".toList] else []) ++
          (List.range 2).map (fun i => "gpu".toList ++ Nat.toDigits 10 i) ∧
      (s'.gpu_list.map (fun g => g.name)).Nodup ∧
      s'.gpu_list.countP (fun g => decide (g.is_composite ≠ 0)) ≤ 1 ∧
      ((∃ g ∈ s'.gpu_list, g.is_composite ≠ 0) ↔ 1 < 2) :=
  registry_invariant "alert_config".toList 2 2 State.init sample_steps rfl (by decide)
    (by
      intro locals arg h
      simp only [sample_steps, List.mem_cons, List.mem_singleton, List.mem_nil_iff,
        Step.load.injEq, or_false, false_or] at h
      rcases h with ⟨_, h⟩ | h | ⟨_, h⟩
      · rw [h]; decide
      · exact absurd h (by simp)
      · rw [h]; decide)

/-! ## Scanning what was printed -/

theorem is_space_cases (c : Char) (h : is_space c = true) :
    c = ' ' ∨ c = '\t' ∨ c = '\n' ∨ c = Char.ofNat 11 ∨ c = Char.ofNat 12 ∨ c = '\r' := by
  unfold is_space at h
  simp only [Bool.or_eq_true, decide_eq_true_eq] at h
  tauto

theorem isDigit_not_space (c : Char) (h : c.isDigit = true) : is_space c = false := by
  cases hs : is_space c with
  | false => rfl
  | true =>
    rcases is_space_cases c hs with e | e | e | e | e | e <;> subst e <;>
      exact absurd h (by decide)

theorem isDigit_digitChar (k : Nat) (h : k < 10) : (Nat.digitChar k).isDigit = true := by
  interval_cases k <;> rfl

theorem toDigitsCore_isDigit :
    ∀ (fuel n : Nat) (ds : List Char), (∀ c ∈ ds, c.isDigit = true) →
      ∀ c ∈ Nat.toDigitsCore 10 fuel n ds, c.isDigit = true := by
  intro fuel
  induction fuel with
  | zero => intro n ds h; simpa [Nat.toDigitsCore] using h
  | succ fuel ih =>
    intro n ds h
    unfold Nat.toDigitsCore
    have hd : ∀ c ∈ Nat.digitChar (n % 10) :: ds, c.isDigit = true := by
      intro c hc
      rcases List.mem_cons.mp hc with e | e
      · rw [e]; exact isDigit_digitChar _ (Nat.mod_lt _ (by decide))
      · exact h c e
    simp only
    split
    · exact hd
    · exact ih _ _ hd

theorem toDigits_isDigit (n : Nat) : ∀ c ∈ Nat.toDigits 10 n, c.isDigit = true := by
  unfold Nat.toDigits
  exact toDigitsCore_isDigit _ _ _ (by simp)

theorem takeWhile_all {α : Type} (p : α → Bool) (l : List α) (h : ∀ c ∈ l, p c = true) :
    l.takeWhile p = l := by
  induction l with
  | nil => rfl
  | cons a l ih =>
    rw [List.takeWhile_cons, h a (List.mem_cons_self _ _)]
    simp only [if_true]
    rw [ih (fun c hc => h c (List.mem_cons_of_mem _ hc))]

theorem takeWhile_append_stop {α : Type} (p : α → Bool) (l r : List α) (x : α)
    (h : ∀ c ∈ l, p c = true) (hx : p x = false) :
    (l ++ x :: r).takeWhile p = l := by
  induction l with
  | nil => simp [List.takeWhile_cons, hx]
  | cons a l ih =>
    rw [List.cons_append, List.takeWhile_cons, h a (List.mem_cons_self _ _)]
    simp only [if_true]
    rw [ih (fun c hc => h c (List.mem_cons_of_mem _ hc))]

/-- The value that `%d` reads from the output of `%d` is the value printed. -/
theorem sscanf_d_fmt_d (v : Int) (hv : is_gint v) : sscanf_d (fmt_d v) = some v := by
  unfold is_gint at hv
  unfold fmt_d
  by_cases hneg : v < 0
  · rw [if_pos hneg]
    unfold sscanf_d
    have hdw : ('-' :: Nat.toDigits 10 (-v).toNat).dropWhile is_space =
        '-' :: Nat.toDigits 10 (-v).toNat := by
      rw [List.dropWhile_cons_of_neg (by decide)]
    simp only [hdw]
    rw [takeWhile_all _ _ (toDigits_isDigit _)]
    rw [if_neg (toDigits_ne_nil _)]
    simp only [if_true]
    rw [digits_value_toDigits]
    unfold to_gint
    exact congrArg some (by omega)
  · rw [if_neg hneg]
    unfold sscanf_d
    cases hl : Nat.toDigits 10 v.toNat with
    | nil => exact absurd hl (toDigits_ne_nil _)
    | cons c rest =>
      have hc : c.isDigit = true := toDigits_isDigit v.toNat c (by rw [hl]; simp)
      have hns : is_space c = false := isDigit_not_space c hc
      have hdw : (c :: rest).dropWhile is_space = c :: rest := by
        rw [List.dropWhile_cons_of_neg (by simp [hns])]
      have hm : c ≠ '-' := by
        intro e; subst e; exact absurd hc (by decide)
      have hp : c ≠ '+' := by
        intro e; subst e; exact absurd hc (by decide)
      simp only [hdw]
      have hbody : (match c :: rest with
          | '-' :: r => r
          | '+' :: r => r
          | r => r) = c :: rest := by
        split
        · rename_i r heq; cases heq; exact absurd rfl hm
        · rename_i r heq; cases heq; exact absurd rfl hp
        · rfl
      have hng : (match c :: rest with
          | '-' :: _ => true
          | _ => false) = false := by
        split
        · rename_i r heq; cases heq; exact absurd rfl hm
        · rfl
      rw [hbody, hng, ← hl]
      rw [takeWhile_all _ _ (toDigits_isDigit _)]
      rw [if_neg (toDigits_ne_nil _)]
      simp only [Bool.false_eq_true, if_false]
      rw [digits_value_toDigits]
      unfold to_gint
      exact congrArg some (by omega)

theorem is_word_spec (w : List Char) (h : is_word w = true) :
    w ≠ [] ∧ w.length ≤ 31 ∧ ∀ c ∈ w, is_space c = false := by
  unfold is_word at h
  simp only [Bool.and_eq_true, decide_eq_true_eq, List.all_eq_true, Bool.not_eq_true'] at h
  exact ⟨h.1.1, h.1.2, h.2⟩

theorem reads_back_spec (t : List Char) (h : reads_back t = true) :
    ∃ c r, t = c :: r ∧ is_space c = false ∧ ∀ x ∈ t, x ≠ '\n' := by
  cases t with
  | nil => simp [reads_back] at h
  | cons c r =>
    unfold reads_back at h
    simp only [Bool.and_eq_true, Bool.not_eq_true', List.all_eq_true, decide_eq_true_eq] at h
    exact ⟨c, r, rfl, h.1, h.2⟩

/-- A word, a blank and a text are read back by `"%31s %[^\n]"` as the word
and the text. -/
theorem sscanf_word_rest_line (w item : List Char) (hw : is_word w = true)
    (hi : reads_back item = true) :
    sscanf_word_rest (w ++ ' ' :: item) = (some w, some item) := by
  obtain ⟨hne, hlen, hns⟩ := is_word_spec w hw
  obtain ⟨c, r, hc, hcs, hnl⟩ := reads_back_spec item hi
  cases w with
  | nil => exact absurd rfl hne
  | cons a w =>
    have ha : is_space a = false := hns a (List.mem_cons_self _ _)
    have hdw : ((a :: w) ++ ' ' :: item).dropWhile is_space = (a :: w) ++ ' ' :: item := by
      rw [List.cons_append, List.dropWhile_cons_of_neg (by simp [ha])]
    have htw : (((a :: w) ++ ' ' :: item)).takeWhile (fun c => !is_space c) = a :: w :=
      takeWhile_append_stop _ _ _ _ (fun x hx => by simp [hns x hx]) (by decide)
    have hscan : scan_s 31 ((a :: w) ++ ' ' :: item) = some (a :: w, ' ' :: item) := by
      unfold scan_s
      simp only [hdw, htw]
      rw [List.take_of_length_le hlen]
      rw [if_neg (by simp)]
      simp
    have hdi : (' ' :: item).dropWhile is_space = item := by
      rw [List.dropWhile_cons_of_pos (by decide), hc,
        List.dropWhile_cons_of_neg (by simp [hcs])]
    unfold sscanf_word_rest
    rw [hscan]
    simp only [hdi]
    unfold scan_to_newline
    rw [takeWhile_all _ _ (fun x hx => by simpa using hnl x hx)]
    rw [if_neg (by rw [hc]; simp)]

theorem fmt_d_head (v : Int) :
    ∃ c r, fmt_d v = c :: r ∧ is_space c = false ∧ ∀ x ∈ fmt_d v, is_space x = false := by
  have hall : ∀ x ∈ fmt_d v, is_space x = false := by
    unfold fmt_d
    split
    · intro x hx
      rcases List.mem_cons.mp hx with e | e
      · rw [e]; decide
      · exact isDigit_not_space x (toDigits_isDigit _ x e)
    · intro x hx
      exact isDigit_not_space x (toDigits_isDigit _ x hx)
  cases h : fmt_d v with
  | nil =>
    unfold fmt_d at h
    split at h
    · cases h
    · exact absurd h (toDigits_ne_nil _)
  | cons c r =>
    refine ⟨c, r, rfl, ?_, ?_⟩
    · exact hall c (by rw [h]; simp)
    · rw [← h]; exact hall

theorem reads_back_fmt_d (v : Int) : reads_back (fmt_d v) = true := by
  obtain ⟨c, r, h, hc, hall⟩ := fmt_d_head v
  rw [h]
  unfold reads_back
  simp only [Bool.and_eq_true, Bool.not_eq_true', List.all_eq_true, decide_eq_true_eq]
  refine ⟨hc, ?_⟩
  intro x hx e
  subst e
  have := hall '\n' (by rw [h]; exact hx)
  exact absurd this (by decide)

theorem fmt_d_length (v : Int) (hv : is_gint v) : (fmt_d v).length ≤ 11 := by
  unfold is_gint at hv
  have hd : ∀ n : Nat, n < 10 ^ 10 → (Nat.toDigits 10 n).length ≤ 10 := by
    intro n hn
    unfold Nat.toDigits
    exact Nat.toDigitsCore_length 10 (by decide) (n + 1) n 10 hn (by decide)
  unfold fmt_d
  split
  · have := hd (-v).toNat (by omega)
    simp only [List.length_cons]
    omega
  · have := hd v.toNat (by omega)
    omega

/-! ## The effect of loading a saved line -/

theorem reads_back_name_item (name r : List Char) (hname : is_word name = true)
    (hr : reads_back r = true) : reads_back (name ++ ' ' :: r) = true := by
  obtain ⟨hne, _, hns⟩ := is_word_spec name hname
  obtain ⟨c, r', hc, _, hnl⟩ := reads_back_spec r hr
  cases name with
  | nil => exact absurd rfl hne
  | cons a name =>
    unfold reads_back
    simp only [List.cons_append, Bool.and_eq_true, Bool.not_eq_true', List.all_eq_true,
      decide_eq_true_eq]
    refine ⟨hns a (List.mem_cons_self _ _), ?_⟩
    intro x hx e
    subst e
    rcases List.mem_cons.mp hx with h | h
    · have := hns a (List.mem_cons_self _ _)
      rw [← h] at this
      exact absurd this (by decide)
    · rcases List.mem_append.mp h with h | h
      · have := hns _ (List.mem_cons_of_mem _ h)
        exact absurd this (by decide)
      · rcases List.mem_cons.mp h with h | h
        · exact absurd h (by decide)
        · exact hnl _ h rfl

theorem load_line_show (kw : List Char) (locals : Locals) (st : State) (v : Int)
    (hv : is_gint v) :
    load_gpu_config kw locals ("show_panel_labels".toList ++ ' ' :: fmt_d v) st =
      some { st with show_panel_labels := v } := by
  unfold load_gpu_config
  rw [sscanf_word_rest_line _ _ (by decide) (reads_back_fmt_d v)]
  simp only
  rw [if_neg (by have := fmt_d_length v hv; omega), if_pos trivial, sscanf_d_fmt_d v hv]

theorem load_line_text (kw : List Char) (locals : Locals) (st : State) (tf : List Char)
    (htf : reads_back tf = true) (hlen : tf.length ≤ 511) :
    load_gpu_config kw locals ("text_format".toList ++ ' ' :: tf) st =
      some { st with text_format := some tf } := by
  unfold load_gpu_config
  rw [sscanf_word_rest_line _ _ (by decide) htf]
  simp only
  rw [if_neg (by omega), if_neg (by decide), if_pos trivial]

theorem load_line_enabled (kw : List Char) (locals : Locals) (st : State)
    (name : List Char) (v : Int) (hname : is_word name = true) (hv : is_gint v) :
    load_gpu_config kw locals ("enabled".toList ++ ' ' :: (name ++ ' ' :: fmt_d v)) st =
      some (with_gpu_list (set_by_name st.gpu_list name (with_enabled v)) st) := by
  have hl := (is_word_spec name hname).2.1
  have hd := fmt_d_length v hv
  unfold load_gpu_config
  rw [sscanf_word_rest_line _ _ (by decide)
        (reads_back_name_item name _ hname (reads_back_fmt_d v))]
  simp only
  rw [if_neg (by simp only [List.length_append, List.length_cons]; omega),
    if_neg (by decide), if_neg (by decide), if_pos trivial,
    sscanf_word_rest_line name _ hname (reads_back_fmt_d v)]
  simp only [Option.getD_some, sscanf_d_fmt_d v hv]
  rfl

theorem load_line_extra_info (kw : List Char) (locals : Locals) (st : State)
    (name : List Char) (v : Int) (hname : is_word name = true) (hv : is_gint v)
    (hkw : kw ≠ "extra_info".toList) :
    load_gpu_config kw locals ("extra_info".toList ++ ' ' :: (name ++ ' ' :: fmt_d v)) st =
      some (with_gpu_list (set_by_name st.gpu_list name (with_extra_info v)) st) := by
  have hl := (is_word_spec name hname).2.1
  have hd := fmt_d_length v hv
  unfold load_gpu_config
  rw [sscanf_word_rest_line _ _ (by decide)
        (reads_back_name_item name _ hname (reads_back_fmt_d v))]
  simp only
  rw [if_neg (by simp only [List.length_append, List.length_cons]; omega),
    if_neg (by decide), if_neg (by decide), if_neg (by decide), if_neg (Ne.symm hkw),
    if_pos trivial, sscanf_word_rest_line name _ hname (reads_back_fmt_d v)]
  simp only [Option.getD_some, sscanf_d_fmt_d v hv]
  rfl

theorem load_line_launch (kw : List Char) (locals : Locals) (st : State)
    (name command : List Char) (hname : is_word name = true)
    (hcommand : reads_back command = true) (hlen : name.length + 1 + command.length ≤ 511)
    (hkw : kw ≠ "launch".toList) :
    load_gpu_config kw locals ("launch".toList ++ ' ' :: (name ++ ' ' :: command)) st =
      some (with_gpu_list (set_by_name st.gpu_list name (with_launch command)) st) := by
  unfold load_gpu_config
  rw [sscanf_word_rest_line _ _ (by decide) (reads_back_name_item name _ hname hcommand)]
  simp only
  rw [if_neg (by simp only [List.length_append, List.length_cons]; omega),
    if_neg (by decide), if_neg (by decide), if_neg (by decide), if_neg (Ne.symm hkw),
    if_neg (by decide), if_pos trivial, sscanf_word_rest_line name _ hname hcommand]
  simp only [Option.getD_some]
  rfl

theorem load_line_tooltip (kw : List Char) (locals : Locals) (st : State)
    (name comment : List Char) (hname : is_word name = true)
    (hcomment : reads_back comment = true) (hlen : name.length + 1 + comment.length ≤ 511)
    (hkw : kw ≠ "tooltip_comment".toList) :
    load_gpu_config kw locals ("tooltip_comment".toList ++ ' ' :: (name ++ ' ' :: comment)) st =
      some (with_gpu_list (set_by_name st.gpu_list name (with_tooltip comment)) st) := by
  unfold load_gpu_config
  rw [sscanf_word_rest_line _ _ (by decide) (reads_back_name_item name _ hname hcomment)]
  simp only
  rw [if_neg (by simp only [List.length_append, List.length_cons]; omega),
    if_neg (by decide), if_neg (by decide), if_neg (by decide), if_neg (Ne.symm hkw),
    if_neg (by decide), if_neg (by decide), if_pos trivial,
    sscanf_word_rest_line name _ hname hcomment]
  simp only [Option.getD_some]
  rfl

/-! ## The lines of a saved file -/

theorem split_lines_line (ln rest : List Char) (h : ∀ x ∈ ln, x ≠ '\n') :
    split_lines (ln ++ '\n' :: rest) = ln :: split_lines rest := by
  induction ln with
  | nil => simp [split_lines]
  | cons c ln ih =>
    have hc : c ≠ '\n' := h c (List.mem_cons_self _ _)
    have ih1 := ih (fun x hx => h x (List.mem_cons_of_mem _ hx))
    rw [List.cons_append, split_lines.eq_2, if_neg hc, ih1]

theorem host_lines_line (body rest : List Char) (h : ∀ x ∈ body, x ≠ '\n') :
    host_lines ("GPU ".toList ++ body ++ '\n' :: rest) = body :: host_lines rest := by
  unfold host_lines
  rw [split_lines_line]
  · rw [List.filterMap_cons]
    have e1 : ("GPU ".toList ++ body).take 4 = "GPU ".toList := rfl
    have e2 : ("GPU ".toList ++ body).drop 4 = body := rfl
    simp only [e1, e2, if_true]
  · intro x hx
    rcases List.mem_append.mp hx with hx | hx
    · intro e
      subst e
      exact absurd hx (by decide)
    · exact h x hx

theorem word_no_newline (w : List Char) (hw : is_word w = true) : ∀ x ∈ w, x ≠ '\n' := by
  intro x hx e
  subst e
  exact absurd ((is_word_spec w hw).2.2 _ hx) (by decide)

theorem reads_back_no_newline (t : List Char) (ht : reads_back t = true) :
    ∀ x ∈ t, x ≠ '\n' := by
  obtain ⟨_, _, _, _, h⟩ := reads_back_spec t ht
  exact h

/-- A line "GPU <directive> <value>" of the file is passed on as
"<directive> <value>". -/
theorem host_lines_pair (d val rest : List Char) (hd : is_word d = true)
    (hval : reads_back val = true) :
    host_lines ((("GPU ".toList ++ d ++ [' ']) ++ val ++ ['\n']) ++ rest) =
      (d ++ ' ' :: val) :: host_lines rest := by
  have e : (("GPU ".toList ++ d ++ [' ']) ++ val ++ ['\n']) ++ rest =
      "GPU ".toList ++ (d ++ ' ' :: val) ++ '\n' :: rest := by
    simp only [List.append_assoc, List.cons_append, List.nil_append, List.singleton_append]
  rw [e, host_lines_line]
  exact reads_back_no_newline _ (reads_back_name_item d val hd hval)

/-- A line "GPU <directive> <name> <value>" of the file is passed on as
"<directive> <name> <value>". -/
theorem host_lines_directive (d name val rest : List Char) (hd : is_word d = true)
    (hname : is_word name = true) (hval : reads_back val = true) :
    host_lines ((("GPU ".toList ++ d ++ [' ']) ++ name ++ ' ' :: val ++ ['\n']) ++ rest) =
      (d ++ ' ' :: (name ++ ' ' :: val)) :: host_lines rest := by
  have e : (("GPU ".toList ++ d ++ [' ']) ++ name ++ ' ' :: val ++ ['\n']) ++ rest =
      "GPU ".toList ++ (d ++ ' ' :: (name ++ ' ' :: val)) ++ '\n' :: rest := by
    simp only [List.append_assoc, List.cons_append, List.nil_append, List.singleton_append]
  rw [e, host_lines_line]
  exact reads_back_no_newline _
    (reads_back_name_item d _ hd (reads_back_name_item name val hname hval))

theorem saved_ok_some (name c : List Char) (h : saved_ok name (some c) = true) :
    reads_back c = true ∧ name.length + 1 + c.length ≤ 511 ∧ c ≠ [] := by
  unfold saved_ok at h
  simp only [Bool.and_eq_true, decide_eq_true_eq] at h
  refine ⟨h.1, h.2, ?_⟩
  intro e
  subst e
  exact absurd h.1 (by decide)

/-- The lines passed on for what `save_gpu_entry` writes. -/
theorem host_lines_entry (g : GpuPlugin) (rest : List Char) (hname : is_word g.name = true)
    (hl : saved_ok g.name g.launch_command = true)
    (ht : saved_ok g.name g.launch_tooltip_comment = true) :
    host_lines (save_gpu_entry g ++ rest) = entry_lines g ++ host_lines rest := by
  have k1 : "GPU enabled ".toList = "GPU ".toList ++ "enabled".toList ++ [' '] := rfl
  have k2 : "GPU launch ".toList = "GPU ".toList ++ "launch".toList ++ [' '] := rfl
  have k3 : "GPU tooltip_comment ".toList =
      "GPU ".toList ++ "tooltip_comment".toList ++ [' '] := rfl
  have k4 : "GPU extra_info ".toList = "GPU ".toList ++ "extra_info".toList ++ [' '] := rfl
  have hE := fun r => host_lines_directive "enabled".toList g.name (fmt_d g.enabled) r
    (by decide) hname (reads_back_fmt_d _)
  have hX := fun r => host_lines_directive "extra_info".toList g.name (fmt_d g.extra_info) r
    (by decide) hname (reads_back_fmt_d _)
  unfold save_gpu_entry entry_lines
  rw [k1, k2, k3, k4]
  cases hlc : g.launch_command with
  | none =>
    cases htc : g.launch_tooltip_comment with
    | none =>
      simp only [List.append_nil, List.append_assoc (_ ++ ['\n'])]
      rw [hE, hX]
      rfl
    | some t =>
      rw [htc] at ht
      obtain ⟨hrt, _, hnt⟩ := saved_ok_some _ _ ht
      have hT := fun r => host_lines_directive "tooltip_comment".toList g.name t r
        (by decide) hname hrt
      simp only [List.append_nil, if_pos hnt, List.append_assoc (_ ++ ['\n'])]
      rw [hE, hT, hX]
      rfl
  | some c =>
    rw [hlc] at hl
    obtain ⟨hrc, _, hnc⟩ := saved_ok_some _ _ hl
    have hL := fun r => host_lines_directive "launch".toList g.name c r
      (by decide) hname hrc
    cases htc : g.launch_tooltip_comment with
    | none =>
      simp only [List.append_nil, if_pos hnc, List.append_assoc (_ ++ ['\n'])]
      rw [hE, hL, hX]
      rfl
    | some t =>
      rw [htc] at ht
      obtain ⟨hrt, _, hnt⟩ := saved_ok_some _ _ ht
      have hT := fun r => host_lines_directive "tooltip_comment".toList g.name t r
        (by decide) hname hrt
      simp only [if_pos hnc, if_pos hnt, List.append_assoc (_ ++ ['\n'])]
      rw [hE, hL, hT, hX]
      rfl

/-! ## Loading the lines of an entry -/

theorem load_lines_append (kw : List Char) (locals : Locals) :
    ∀ (a b : List (List Char)) (st s1 : State),
      load_lines kw locals a st = some s1 →
      load_lines kw locals (a ++ b) st = load_lines kw locals b s1 := by
  intro a
  induction a with
  | nil =>
    intro b st s1 h
    simp only [load_lines] at h
    cases h
    rfl
  | cons ln a ih =>
    intro b st s1 h
    rw [List.cons_append]
    rw [load_lines.eq_2] at h ⊢
    cases hl : load_gpu_config kw locals ln st with
    | none => rw [hl] at h; cases h
    | some s2 =>
      rw [hl] at h
      exact ih b s2 s1 h

theorem set_by_name_comp (l : List GpuPlugin) (name : List Char)
    (f f' : GpuPlugin → GpuPlugin) (hf : ∀ x, (f x).name = x.name) :
    set_by_name (set_by_name l name f) name f' = set_by_name l name (fun x => f' (f x)) := by
  unfold set_by_name
  rw [List.map_map]
  apply List.map_congr_left
  intro x _
  simp only [Function.comp]
  by_cases h : x.name = name
  · simp only [if_pos h, hf]
  · simp only [if_neg h]

theorem set_by_name_congr (l : List GpuPlugin) (name : List Char)
    (f f' : GpuPlugin → GpuPlugin) (h : ∀ x, f x = f' x) :
    set_by_name l name f = set_by_name l name f' := by
  unfold set_by_name
  apply List.map_congr_left
  intro x _
  rw [h]

/-- Loading the lines saved for `g` restores its settings in the entries of
the same name and leaves the rest of the state as it is. -/
theorem load_entry_lines (kw : List Char) (locals : Locals) (g : GpuPlugin) (st : State)
    (hkw : kw ∉ directive_names) (hname : is_word g.name = true)
    (he : is_gint g.enabled) (hx : is_gint g.extra_info)
    (hl : saved_ok g.name g.launch_command = true)
    (ht : saved_ok g.name g.launch_tooltip_comment = true) :
    load_lines kw locals (entry_lines g) st =
      some (with_gpu_list (set_by_name st.gpu_list g.name (restore g)) st) := by
  have hk1 : kw ≠ "extra_info".toList := fun e => hkw (by rw [e]; decide)
  have hk2 : kw ≠ "launch".toList := fun e => hkw (by rw [e]; decide)
  have hk3 : kw ≠ "tooltip_comment".toList := fun e => hkw (by rw [e]; decide)
  have hE := fun s0 => load_line_enabled kw locals s0 g.name g.enabled hname he
  have hX := fun s0 => load_line_extra_info kw locals s0 g.name g.extra_info hname hx hk1
  have hwl : ∀ (l1 l2 : List GpuPlugin), with_gpu_list l2 (with_gpu_list l1 st) =
      with_gpu_list l2 st := fun _ _ => rfl
  have hgl : ∀ (l1 : List GpuPlugin), (with_gpu_list l1 st).gpu_list = l1 := fun _ => rfl
  unfold entry_lines
  cases hlc : g.launch_command with
  | none =>
    cases htc : g.launch_tooltip_comment with
    | none =>
      simp only [List.append_nil, List.singleton_append, load_lines, hE, hX, hwl, hgl]
      refine congrArg some (congrArg (fun l => with_gpu_list l st) ?_)
      unfold set_by_name
      simp only [List.map_map]
      apply List.map_congr_left
      intro x _
      by_cases h : x.name = g.name
      · simp [h, restore, with_enabled, with_extra_info, hlc, htc]
      · simp [h, restore, with_enabled, with_extra_info, hlc, htc]
    | some t =>
      rw [htc] at ht
      obtain ⟨hrt, hlt, hnt⟩ := saved_ok_some _ _ ht
      have hT := fun s0 => load_line_tooltip kw locals s0 g.name t hname hrt hlt hk3
      simp only [List.append_nil, List.singleton_append, List.cons_append, List.nil_append,
        if_pos hnt, load_lines, hE, hT, hX, hwl, hgl]
      refine congrArg some (congrArg (fun l => with_gpu_list l st) ?_)
      unfold set_by_name
      simp only [List.map_map]
      apply List.map_congr_left
      intro x _
      by_cases h : x.name = g.name
      · simp [h, restore, with_enabled, with_extra_info, with_tooltip, hlc, htc, if_pos hnt]
      · simp [h, restore, with_enabled, with_extra_info, with_tooltip, hlc, htc, if_pos hnt]
  | some c =>
    rw [hlc] at hl
    obtain ⟨hrc, hlenc, hnc⟩ := saved_ok_some _ _ hl
    have hL := fun s0 => load_line_launch kw locals s0 g.name c hname hrc hlenc hk2
    cases htc : g.launch_tooltip_comment with
    | none =>
      simp only [List.append_nil, List.singleton_append, List.cons_append, List.nil_append,
        if_pos hnc, load_lines, hE, hL, hX, hwl, hgl]
      refine congrArg some (congrArg (fun l => with_gpu_list l st) ?_)
      unfold set_by_name
      simp only [List.map_map]
      apply List.map_congr_left
      intro x _
      by_cases h : x.name = g.name
      · simp [h, restore, with_enabled, with_extra_info, with_launch, hlc, htc, if_pos hnc]
      · simp [h, restore, with_enabled, with_extra_info, with_launch, hlc, htc, if_pos hnc]
    | some t =>
      rw [htc] at ht
      obtain ⟨hrt, hlt, hnt⟩ := saved_ok_some _ _ ht
      have hT := fun s0 => load_line_tooltip kw locals s0 g.name t hname hrt hlt hk3
      simp only [List.append_nil, List.singleton_append, List.cons_append, List.nil_append,
        if_pos hnc, if_pos hnt, load_lines, hE, hL, hT, hX, hwl, hgl]
      refine congrArg some (congrArg (fun l => with_gpu_list l st) ?_)
      unfold set_by_name
      simp only [List.map_map]
      apply List.map_congr_left
      intro x _
      by_cases h : x.name = g.name
      · simp [h, restore, with_enabled, with_extra_info, with_launch, with_tooltip, hlc, htc,
          if_pos hnc, if_pos hnt]
      · simp [h, restore, with_enabled, with_extra_info, with_launch, with_tooltip, hlc, htc,
          if_pos hnc, if_pos hnt]

/-! ## Loading the lines of all entries -/

theorem load_entries (kw : List Char) (locals : Locals) (hkw : kw ∉ directive_names) :
    ∀ (gs : List GpuPlugin) (st : State),
      (∀ g ∈ gs, is_word g.name = true ∧ is_gint g.enabled ∧ is_gint g.extra_info ∧
        saved_ok g.name g.launch_command = true ∧
        saved_ok g.name g.launch_tooltip_comment = true) →
      load_lines kw locals (gs.map entry_lines).flatten st =
        some (with_gpu_list (st.gpu_list.map (fun x => gs.foldl restore_step x)) st) := by
  intro gs
  induction gs with
  | nil =>
    intro st _
    simp only [List.map_nil, List.flatten_nil, load_lines, List.foldl_nil, List.map_id_fun',
      id_eq]
    rfl
  | cons g gs ih =>
    intro st h
    obtain ⟨h1, h2, h3, h4, h5⟩ := h g (List.mem_cons_self _ _)
    rw [List.map_cons, List.flatten_cons,
      load_lines_append kw locals _ _ st _ (load_entry_lines kw locals g st hkw h1 h2 h3 h4 h5),
      ih _ (fun g' hg' => h g' (List.mem_cons_of_mem _ hg'))]
    refine congrArg some ?_
    show with_gpu_list ((set_by_name st.gpu_list g.name (restore g)).map
      (fun x => gs.foldl restore_step x)) st = _
    unfold set_by_name
    rw [List.map_map]
    rfl

theorem fold_skip : ∀ (gs : List GpuPlugin) (y : GpuPlugin),
    (∀ g ∈ gs, y.name ≠ g.name) → gs.foldl restore_step y = y := by
  intro gs
  induction gs with
  | nil => intro y _; rfl
  | cons a gs ih =>
    intro y h
    rw [List.foldl_cons]
    have e : restore_step y a = y := by
      unfold restore_step
      rw [if_neg (h a (List.mem_cons_self _ _))]
    rw [e]
    exact ih y (fun g hg => h g (List.mem_cons_of_mem _ hg))

theorem fold_hit : ∀ (gs : List GpuPlugin), (gs.map (fun g => g.name)).Nodup →
    ∀ g ∈ gs, ∀ y : GpuPlugin, y.name = g.name → gs.foldl restore_step y = restore g y := by
  intro gs
  induction gs with
  | nil => intro _ g hg; cases hg
  | cons a gs ih =>
    intro hnd g hg y hy
    rw [List.map_cons, List.nodup_cons] at hnd
    rw [List.foldl_cons]
    rcases List.mem_cons.mp hg with e | hmem
    · subst e
      have e1 : restore_step y g = restore g y := by
        unfold restore_step
        rw [if_pos hy]
      rw [e1]
      apply fold_skip
      intro g' hg' hn
      apply hnd.1
      have hn2 : g.name = g'.name := by
        rw [← hy]
        exact hn
      rw [hn2]
      exact List.mem_map_of_mem (fun g => g.name) hg'
    · have hne : y.name ≠ a.name := by
        intro hn
        apply hnd.1
        rw [← hn, hy]
        exact List.mem_map_of_mem (fun g => g.name) hmem
      have e1 : restore_step y a = y := by
        unfold restore_step
        rw [if_neg hne]
      rw [e1]
      exact ih hnd.2 g hmem y hy

theorem settings_restore (g x : GpuPlugin) (hn : x.name = g.name)
    (hxl : x.launch_command = none) (hxt : x.launch_tooltip_comment = none)
    (hl : saved_ok g.name g.launch_command = true)
    (ht : saved_ok g.name g.launch_tooltip_comment = true) :
    entry_settings (restore g x) = entry_settings g := by
  have e1 : (restore g x).launch_command = g.launch_command := by
    cases hlc : g.launch_command with
    | none => simp only [restore, hlc, hxl]
    | some c =>
      rw [hlc] at hl
      simp only [restore, hlc, if_pos (saved_ok_some _ _ hl).2.2]
  have e2 : (restore g x).launch_tooltip_comment = g.launch_tooltip_comment := by
    cases htc : g.launch_tooltip_comment with
    | none => simp only [restore, htc, hxt]
    | some c =>
      rw [htc] at ht
      simp only [restore, htc, if_pos (saved_ok_some _ _ ht).2.2]
  unfold entry_settings
  rw [e1, e2]
  show (x.name, g.enabled, _, _) = _
  rw [hn]

theorem settings_pointwise (gs : List GpuPlugin) (hnd : (gs.map (fun g => g.name)).Nodup) :
    ∀ (l1 l2 : List GpuPlugin),
      l2.map (fun g => g.name) = l1.map (fun g => g.name) →
      (∀ x ∈ l1, x.launch_command = none ∧ x.launch_tooltip_comment = none) →
      (∀ g ∈ l2, g ∈ gs ∧ saved_ok g.name g.launch_command = true ∧
        saved_ok g.name g.launch_tooltip_comment = true) →
      (l1.map (fun x => gs.foldl restore_step x)).map entry_settings =
        l2.map entry_settings := by
  intro l1
  induction l1 with
  | nil =>
    intro l2 h _ _
    cases l2 with
    | nil => rfl
    | cons b l2 => simp at h
  | cons x l1 ih =>
    intro l2 h hx hg
    cases l2 with
    | nil => simp at h
    | cons g l2 =>
      simp only [List.map_cons, List.cons.injEq] at h
      obtain ⟨hx1, hx2⟩ := hx x (List.mem_cons_self _ _)
      obtain ⟨hg1, hg2, hg3⟩ := hg g (List.mem_cons_self _ _)
      simp only [List.map_cons]
      rw [fold_hit gs hnd g hg1 x h.1.symm, settings_restore g x h.1.symm hx1 hx2 hg2 hg3,
        ih l2 h.2 (fun x' hx' => hx x' (List.mem_cons_of_mem _ hx'))
          (fun g' hg' => hg g' (List.mem_cons_of_mem _ hg'))]

/-! ## Loading the lines of the alert template -/

theorem settings_of_alert (st : State) :
    settings_of (cb_alert_config (create_alert st)) = settings_of st := by
  unfold settings_of cb_alert_config create_alert
  simp only [List.map_map]
  rfl

theorem load_alert_line (kw : List Char) (locals : Locals) (ln : List Char) (st : State)
    (hkw : kw ∉ directive_names) (hlen : ln.length ≤ 511)
    (hfirst : (sscanf_word_rest ln).1 = some kw) :
    ∃ s', load_gpu_config kw locals ln st = some s' ∧ settings_of s' = settings_of st := by
  have hk1 : kw ≠ "show_panel_labels".toList := fun e => hkw (by rw [e]; decide)
  have hk2 : kw ≠ "text_format".toList := fun e => hkw (by rw [e]; decide)
  have hk3 : kw ≠ "enabled".toList := fun e => hkw (by rw [e]; decide)
  unfold load_gpu_config
  cases hsc : sscanf_word_rest ln with
  | mk c i =>
    rw [hsc] at hfirst
    simp only at hfirst
    subst hfirst
    cases i with
    | none => exact ⟨st, rfl, rfl⟩
    | some item =>
      have hi := sscanf_word_rest_item_length ln kw item hsc
      simp only
      rw [if_neg (by omega), if_neg hk1, if_neg hk2, if_neg hk3, if_pos trivial]
      exact ⟨_, rfl, settings_of_alert st⟩

theorem load_alert_lines (kw : List Char) (locals : Locals) (hkw : kw ∉ directive_names) :
    ∀ (lns : List (List Char)) (st : State),
      (∀ ln ∈ lns, ln.length ≤ 511 ∧ (sscanf_word_rest ln).1 = some kw) →
      ∃ s', load_lines kw locals lns st = some s' ∧ settings_of s' = settings_of st := by
  intro lns
  induction lns with
  | nil => intro st _; exact ⟨st, rfl, rfl⟩
  | cons ln lns ih =>
    intro st h
    obtain ⟨h1, h2⟩ := h ln (List.mem_cons_self _ _)
    obtain ⟨s1, hs1, he1⟩ := load_alert_line kw locals ln st hkw h1 h2
    obtain ⟨s2, hs2, he2⟩ := ih s1 (fun l hl => h l (List.mem_cons_of_mem _ hl))
    refine ⟨s2, ?_, ?_⟩
    · rw [load_lines.eq_2, hs1]
      exact hs2
    · rw [he2, he1]

/-! ## C15: saving the settings and loading them again -/

theorem init_plugin_list (count n : Nat) (fresh : State)
    (hn : to_gint (count % 2 ^ 32) = n)
    (hfresh : gkrellm_init_plugin true (some count) State.init = some fresh) :
    fresh.gpu_list = (if 1 < n then [new_composite] else []) ++
      (List.range n).map (fun k : Nat => new_device (k : Int)) := by
  unfold gkrellm_init_plugin at hfresh
  rw [setup_gpu_interface_eq count n State.init rfl hn] at hfresh
  simp only [Bool.true_eq_false, if_false] at hfresh
  cases hfresh
  rfl

theorem is_word_device (k : Int) (hk : is_gint k) :
    is_word ("gpu".toList ++ fmt_d k) = true := by
  obtain ⟨_, _, _, _, hall⟩ := fmt_d_head k
  have hlen := fmt_d_length k hk
  have h3 : "gpu".toList.length = 3 := rfl
  have hg : ∀ c ∈ "gpu".toList, is_space c = false := by decide
  unfold is_word
  simp only [Bool.and_eq_true, decide_eq_true_eq, List.all_eq_true, Bool.not_eq_true']
  refine ⟨⟨?_, ?_⟩, ?_⟩
  · intro e
    have := congrArg List.length e
    rw [List.length_append, h3] at this
    simp at this
  · rw [List.length_append, h3]
    omega
  · intro c hc
    rcases List.mem_append.mp hc with h | h
    · exact hg c h
    · exact hall c h

theorem host_lines_entries : ∀ (gs : List GpuPlugin) (rest : List Char),
    (∀ g ∈ gs, is_word g.name = true ∧ saved_ok g.name g.launch_command = true ∧
      saved_ok g.name g.launch_tooltip_comment = true) →
    host_lines ((gs.map save_gpu_entry).flatten ++ rest) =
      (gs.map entry_lines).flatten ++ host_lines rest := by
  intro gs
  induction gs with
  | nil => intro rest _; rfl
  | cons g gs ih =>
    intro rest h
    obtain ⟨h1, h2, h3⟩ := h g (List.mem_cons_self _ _)
    rw [List.map_cons, List.flatten_cons, List.append_assoc, host_lines_entry g _ h1 h2 h3,
      ih rest (fun g' hg' => h g' (List.mem_cons_of_mem _ hg')), List.map_cons,
      List.flatten_cons, List.append_assoc]

/-- The lines that the host passes on from a saved file. -/
theorem host_lines_saved (alertconfig : List Char) (s : State) (tf : List Char)
    (htf : s.text_format = some tf) (hrb : reads_back tf = true)
    (h : ∀ g ∈ s.gpu_list, is_word g.name = true ∧ saved_ok g.name g.launch_command = true ∧
      saved_ok g.name g.launch_tooltip_comment = true) :
    host_lines (save_gpu_config alertconfig s) =
      ("show_panel_labels".toList ++ ' ' :: fmt_d s.show_panel_labels) ::
        ("text_format".toList ++ ' ' :: tf) ::
          ((s.gpu_list.map entry_lines).flatten ++
            host_lines (if s.gpu_alert = true then alertconfig else [])) := by
  have k1 : "GPU show_panel_labels ".toList =
      "GPU ".toList ++ "show_panel_labels".toList ++ [' '] := rfl
  have k2 : "GPU text_format ".toList = "GPU ".toList ++ "text_format".toList ++ [' '] := rfl
  unfold save_gpu_config
  rw [htf, Option.getD_some, k1, k2]
  rw [List.append_assoc (_ ++ ['\n']), List.append_assoc (_ ++ ['\n']),
    host_lines_pair _ _ _ (by decide) (reads_back_fmt_d _),
    List.append_assoc (_ ++ ['\n']),
    host_lines_pair _ _ _ (by decide) hrb, host_lines_entries _ _ h]

/-- C15, the claim as stated fails: one device; the text format is the empty
string, or begins with a blank.  The saved file holds the line
"GPU text_format " followed by the format; `sscanf` with `"%31s %[^\n]"`
assigns no second item for the empty format, so the fresh registry keeps its
"$u", and it skips the leading blank of " $L", so "$L" is restored. -/
theorem round_trip_counterexample :
    gkrellm_init_plugin true (some 1) State.init = some one_gpu_fresh ∧
    empty_format_state.text_format = some [] ∧
    (load_lines "alert_config".toList empty_locals
        (host_lines (save_gpu_config sample_alertconfig empty_format_state))
        one_gpu_fresh).map (fun s => s.text_format) = some (some "$u".toList) ∧
    blank_format_state.text_format = some " $L".toList ∧
    (load_lines "alert_config".toList empty_locals
        (host_lines (save_gpu_config sample_alertconfig blank_format_state))
        one_gpu_fresh).map (fun s => s.text_format) = some (some "$L".toList) := by
  refine ⟨by decide, rfl, by decide, rfl, by decide⟩

/-- C15 (amended): let `fresh` be the state that `gkrellm_init_plugin` leaves
for a device count `n`, and `s` a state with the same entry names whose text
format is not empty, does not begin with white space, has no newline and at
most 511 characters, whose launch commands and tooltip comments are absent or
such texts (fitting the 512-byte array together with the name), and whose
flags are `gint` values.  If the alert keyword is none of the six directive
names and the host's alert lines carry it and have at most 511 characters, then
loading the lines of the saved file into `fresh` returns a state with the same
show_panel_labels, the same text format and, entry by entry, the same name,
enabled flag, launch command and tooltip comment as `s`. -/
theorem save_load_round_trip (kw : List Char) (locals : Locals) (alertconfig : List Char)
    (count n : Nat) (s fresh : State) (tf : List Char)
    (hn : to_gint (count % 2 ^ 32) = n)
    (hfresh : gkrellm_init_plugin true (some count) State.init = some fresh)
    (hnames : s.gpu_list.map (fun g => g.name) = fresh.gpu_list.map (fun g => g.name))
    (hshow : is_gint s.show_panel_labels)
    (hflags : ∀ g ∈ s.gpu_list, is_gint g.enabled ∧ is_gint g.extra_info)
    (htf : s.text_format = some tf) (hrb : reads_back tf = true) (hlen : tf.length ≤ 511)
    (hcmd : ∀ g ∈ s.gpu_list, saved_ok g.name g.launch_command = true ∧
      saved_ok g.name g.launch_tooltip_comment = true)
    (hkw : kw ∉ directive_names)
    (halert : ∀ ln ∈ host_lines alertconfig,
      ln.length ≤ 511 ∧ (sscanf_word_rest ln).1 = some kw) :
    ∃ s', load_lines kw locals (host_lines (save_gpu_config alertconfig s)) fresh = some s' ∧
      settings_of s' = settings_of s := by
  have hlist := init_plugin_list count n fresh hn hfresh
  have hnlt : (n : Int) < 2 ^ 31 := by
    rw [← hn]
    unfold to_gint
    omega
  have hfn : fresh.gpu_list.map (fun g => g.name) =
      (if 1 < n then ["gpu".toList] else []) ++
        (List.range n).map (fun i => "gpu".toList ++ Nat.toDigits 10 i) := by
    rw [hlist, setup_names]
  have hnd : (s.gpu_list.map (fun g => g.name)).Nodup := by
    rw [hnames, hfn]
    exact setup_names_nodup n
  have hword : ∀ g ∈ s.gpu_list, is_word g.name = true := by
    intro g hg
    have hm : g.name ∈ s.gpu_list.map (fun g => g.name) :=
      List.mem_map_of_mem (fun g => g.name) hg
    rw [hnames, hfn] at hm
    rcases List.mem_append.mp hm with h | h
    · split at h
      · rw [List.mem_singleton.mp h]
        decide
      · cases h
    · obtain ⟨i, hi, he⟩ := List.mem_map.mp h
      rw [← he, ← fmt_d_natCast]
      apply is_word_device
      have := List.mem_range.mp hi
      unfold is_gint
      omega
  have hfl : ∀ x ∈ fresh.gpu_list,
      x.launch_command = none ∧ x.launch_tooltip_comment = none := by
    intro x hx
    rw [hlist] at hx
    rcases List.mem_append.mp hx with h | h
    · split at h
      · rw [List.mem_singleton.mp h]
        exact ⟨rfl, rfl⟩
      · cases h
    · obtain ⟨i, _, he⟩ := List.mem_map.mp h
      rw [← he]
      exact ⟨rfl, rfl⟩
  rw [host_lines_saved alertconfig s tf htf hrb
    (fun g hg => ⟨hword g hg, (hcmd g hg).1, (hcmd g hg).2⟩)]
  rw [load_lines.eq_2, load_line_show kw locals fresh _ hshow]
  simp only
  rw [load_lines.eq_2, load_line_text kw locals _ tf hrb hlen]
  simp only
  rw [load_lines_append kw locals _ _ _ _
    (load_entries kw locals hkw s.gpu_list _
      (fun g hg => ⟨hword g hg, (hflags g hg).1, (hflags g hg).2, (hcmd g hg).1,
        (hcmd g hg).2⟩))]
  have hal : ∀ ln ∈ host_lines (if s.gpu_alert = true then alertconfig else []),
      ln.length ≤ 511 ∧ (sscanf_word_rest ln).1 = some kw := by
    intro ln hmem
    split at hmem
    · exact halert ln hmem
    · cases hmem
  obtain ⟨s', hs', he'⟩ := load_alert_lines kw locals hkw _
    (with_gpu_list (fresh.gpu_list.map (fun x => s.gpu_list.foldl restore_step x))
      { fresh with show_panel_labels := s.show_panel_labels, text_format := some tf }) hal
  refine ⟨s', hs', ?_⟩
  rw [he']
  unfold settings_of
  show (s.show_panel_labels, some tf,
    (fresh.gpu_list.map (fun x => s.gpu_list.foldl restore_step x)).map entry_settings) = _
  rw [settings_pointwise s.gpu_list hnd fresh.gpu_list s.gpu_list hnames hfl
    (fun g hg => ⟨hg, (hcmd g hg).1, (hcmd g hg).2⟩), htf]

/-- Witness of C15: two devices; the panel labels are off, the text format is
"$L: $u ($m)", and the first device is disabled and has a launch command and a
tooltip comment. -/
theorem save_load_round_trip_witness :
    ∃ s', load_lines "alert_config".toList empty_locals
        (host_lines (save_gpu_config sample_alertconfig configured_state))
        two_gpu_fresh = some s' ∧
      settings_of s' = settings_of configured_state :=
  save_load_round_trip "alert_config".toList empty_locals sample_alertconfig 2 2
    configured_state two_gpu_fresh "$L: $u ($m)".toList (by decide) (by decide) (by decide)
    (by unfold is_gint; decide) (by unfold is_gint; decide) rfl (by decide) (by decide)
    (by decide) (by decide) (by decide)

end GkrellmGpu
